import Mathlib

/-!
Verification of the field-extraction and confidence-fusion engine of the
ID-Verification-Agent repository (src/extractor.py, src/patterns.py,
src/mrz_processor.py) against its natural-language specification.

Python strings are embedded as lists of characters (`Str`); Python floats
are embedded as rationals; Python dicts holding per-field confidences and
methods are embedded as association lists with string keys.  The regular
expressions of the pattern catalog are transcribed into a small total
regular-expression engine with backtracking semantics (leftmost match,
greedy repetition, ordered alternation) mirroring Python's `re` module on
the pattern shapes the catalog uses.
-/

/-- Python strings, embedded as lists of characters. -/
abbrev Str := List Char

/-- Conversion from a Lean string literal to the embedding. -/
def ofStr (s : String) : Str := s.toList

/-- ASCII uppercase conversion of one character (Python `str.upper` on the
ASCII range; the Arabic characters appearing in the catalog have no case). -/
def upChar (c : Char) : Char :=
  if 'a' ≤ c ∧ c ≤ 'z' then Char.ofNat (c.toNat - 32) else c

/-- ASCII lowercase conversion of one character. -/
def lowChar (c : Char) : Char :=
  if 'A' ≤ c ∧ c ≤ 'Z' then Char.ofNat (c.toNat + 32) else c

/-- Python `str.upper` on the embedded strings. -/
def pyUpper (s : Str) : Str := s.map upChar

/-- The characters Python's `\s` and `str.strip()` treat as whitespace
(ASCII range). -/
def isSpaceChar (c : Char) : Bool :=
  c = ' ' ∨ c = '\t' ∨ c = '\n' ∨ c = '\r' ∨ c = '\x0b' ∨ c = '\x0c'

/-- Python `str.strip()`: drop whitespace from both ends. -/
def pyStrip (s : Str) : Str :=
  ((s.dropWhile isSpaceChar).reverse.dropWhile isSpaceChar).reverse

/-- Single pass of Python `str.split()` with no argument, carrying the
reversed current word: split on whitespace runs, dropping empty pieces. -/
def pySplitAux : Str → Str → List Str
  | [], acc => if acc = [] then [] else [acc.reverse]
  | c :: cs, acc =>
    if isSpaceChar c then
      (if acc = [] then pySplitAux cs [] else acc.reverse :: pySplitAux cs [])
    else pySplitAux cs (c :: acc)

/-- Python `str.split()` with no argument. -/
def pySplit (s : Str) : List Str := pySplitAux s []

/-- Single pass of the run replacement, carrying whether the previous
character was inside a run. -/
def subRunsAux (p : Char → Bool) (r : Char) : Str → Bool → Str
  | [], _ => []
  | c :: cs, inRun =>
    if p c then
      (if inRun then subRunsAux p r cs true else r :: subRunsAux p r cs true)
    else c :: subRunsAux p r cs false

/-- Replacement of every maximal run of characters satisfying `p` by the
single character `r` (Python `re.sub` of a one-class `+` pattern). -/
def subRuns (p : Char → Bool) (r : Char) (s : Str) : Str :=
  subRunsAux p r s false

/-- Python `'\n'.join`-style concatenation with a one-character separator. -/
def joinChar (c : Char) (l : List Str) : Str := List.intercalate [c] l

/-- Lookup in an association list (Python `dict.get`): first matching key. -/
def getKV {κ α : Type} [DecidableEq κ] : List (κ × α) → κ → Option α
  | [], _ => none
  | (k, v) :: rest, key => if k = key then some v else getKV rest key

/-- Update of an association list (Python `dict[key] = value`): replace the
first entry with that key, or append a new entry. -/
def setKV {κ α : Type} [DecidableEq κ] : List (κ × α) → κ → α → List (κ × α)
  | [], key, v => [(key, v)]
  | (k, w) :: rest, key, v =>
    if k = key then (key, v) :: rest else (k, w) :: setKV rest key v

/-- Numeric value of an ASCII digit character. -/
def dval (c : Char) : Nat := c.toNat - 48

/-- The ASCII digit character of a value below ten. -/
def digitChar (n : Nat) : Char := Char.ofNat (48 + n)

/-- Python `f"{n:02d}"` for `n ≤ 99`: the two-digit decimal form. -/
def pad2 (n : Nat) : Str := [digitChar (n / 10), digitChar (n % 10)]

/-- Python `str(n)` for `1000 ≤ n ≤ 9999`: the four-digit decimal form. -/
def digits4 (n : Nat) : Str :=
  [digitChar (n / 1000), digitChar (n / 100 % 10), digitChar (n / 10 % 10),
    digitChar (n % 10)]

/-- Source `extractor.py` line 277 and `mrz_processor.py` line 309: the
engine's date string form `f"{day:02d}-{month:02d}-{year}"`. -/
def fmtDate (d m y : Nat) : Str := pad2 d ++ '-' :: pad2 m ++ '-' :: digits4 y

/-- Regular-expression abstract syntax covering the pattern shapes of the
catalog in `patterns.py`: character classes, concatenation, ordered
alternation, greedy bounded repetition, greedy star, numbered capturing
groups and the empty pattern. -/
inductive RE where
  | cls (p : Char → Bool)
  | cat (a b : RE)
  | alt (a b : RE)
  | rep (lo hi : Nat) (r : RE)
  | star (r : RE)
  | grp (n : Nat) (r : RE)
  | eps

/-- Captured groups of one match attempt: group number to captured text. -/
abbrev Caps := List (Nat × Str)

/-- Size measure of a pattern, used to bound the backtracking depth of
the matcher: every recursive matching step strictly descends the
lexicographic measure (pattern size, input length). -/
def sizeRE : RE → Nat
  | .cls _ => 1
  | .eps => 1
  | .cat a b => sizeRE a + sizeRE b + 1
  | .alt a b => sizeRE a + sizeRE b + 1
  | .rep _ hi r => hi + sizeRE r + 1
  | .star r => sizeRE r + 1
  | .grp _ r => sizeRE r + 1

/-- All ways a regular expression can match a prefix of the input, as the
list of (remaining suffix, captures) pairs in backtracking priority order:
ordered alternation tries the left branch first and repetition is greedy
(more iterations are tried before fewer), matching Python's `re`.
Repetition bodies in the catalog always consume at least one character;
an iteration that consumes nothing is cut off.  The fuel argument only
bounds the recursion depth: every recursive call strictly descends the
measure (pattern size, suffix length) lexicographically and every suffix
is at most the entry input, so any chain from pattern size `s` and input
length `l` is shorter than `(s + 1) * (l + 1)`; `matchRE` below passes
that much fuel, so the fuel never runs out. -/
def matchEndsF : Nat → RE → Str → Caps → List (Str × Caps)
  | 0, _, _, _ => []
  | fuel + 1, re, cs, caps =>
    match re with
    | .cls p =>
      match cs with
      | c :: rest => if p c then [(rest, caps)] else []
      | [] => []
    | .eps => [(cs, caps)]
    | .cat a b =>
      (matchEndsF fuel a cs caps).flatMap fun x => matchEndsF fuel b x.1 x.2
    | .alt a b => matchEndsF fuel a cs caps ++ matchEndsF fuel b cs caps
    | .grp n r =>
      (matchEndsF fuel r cs caps).map fun x =>
        (x.1, setKV x.2 n (cs.take (cs.length - x.1.length)))
    | .star r =>
      ((matchEndsF fuel r cs caps).flatMap fun x =>
        if x.1.length < cs.length then matchEndsF fuel (.star r) x.1 x.2
        else []) ++ [(cs, caps)]
    | .rep lo hi r =>
      (if hi = 0 then []
       else (matchEndsF fuel r cs caps).flatMap fun x =>
         if x.1.length < cs.length then
           matchEndsF fuel (.rep (lo - 1) (hi - 1) r) x.1 x.2
         else []) ++
      (if lo = 0 then [(cs, caps)] else [])

/-- The matcher at its safe fuel bound. -/
def matchRE (r : RE) (cs : Str) (caps : Caps) : List (Str × Caps) :=
  matchEndsF ((sizeRE r + 1) * (cs.length + 1)) r cs caps

/-- The highest group number occurring in a pattern (Python
`match.groups()` has this many entries for the catalog's patterns, whose
group numbers are consecutive from 1). -/
def countGroups : RE → Nat
  | .cls _ => 0
  | .cat a b => max (countGroups a) (countGroups b)
  | .alt a b => max (countGroups a) (countGroups b)
  | .rep _ _ r => countGroups r
  | .star r => countGroups r
  | .grp n r => max n (countGroups r)
  | .eps => 0

/-- Case-insensitive variant of a pattern (Python `re.IGNORECASE` on the
ASCII range: a class accepts a character when it accepts the character
itself or either ASCII case of it). -/
def ic : RE → RE
  | .cls p => .cls fun c => p c || p (lowChar c) || p (upChar c)
  | .cat a b => .cat (ic a) (ic b)
  | .alt a b => .alt (ic a) (ic b)
  | .rep lo hi r => .rep lo hi (ic r)
  | .star r => .star (ic r)
  | .grp n r => .grp n (ic r)
  | .eps => .eps

/-- One match of a pattern: the matched text and the group captures. -/
structure MatchRes where
  whole : Str
  caps : Caps
deriving DecidableEq

/-- Anchored match attempt at the start of the input (Python `re.match`
without an end anchor): the backtracking engine's first answer. -/
def tryAt (r : RE) (cs : Str) : Option (MatchRes × Str) :=
  match matchRE r cs [] with
  | [] => none
  | x :: _ => some (⟨cs.take (cs.length - x.1.length), x.2⟩, x.1)

/-- Python `re.finditer` behind fuel (the scan input strictly shortens at
every step, so fuel `length + 1` never runs out): scan left to right,
take the leftmost match, and continue after it (advancing one character
on a zero-width match). -/
def finditerF (r : RE) : Nat → Str → List MatchRes
  | 0, _ => []
  | _ + 1, [] =>
    match tryAt r [] with
    | some (m, _) => [m]
    | none => []
  | fuel + 1, c :: rest =>
    match tryAt r (c :: rest) with
    | some (m, after) =>
      if after.length < (c :: rest).length then m :: finditerF r fuel after
      else m :: finditerF r fuel rest
    | none => finditerF r fuel rest

/-- Python `re.finditer` at its safe fuel bound. -/
def finditer (r : RE) (cs : Str) : List MatchRes :=
  finditerF r (cs.length + 1) cs

/-- Python `re.search`: the first match found by the left-to-right scan. -/
def reSearch (r : RE) (cs : Str) : Option MatchRes := (finditer r cs).head?

/-- Python `re.sub` with a constant replacement behind fuel (the input
strictly shortens at every step): replace each non-overlapping leftmost
match. -/
def reSubF (r : RE) (repl : Str) : Nat → Str → Str
  | 0, cs => cs
  | _ + 1, [] => []
  | fuel + 1, c :: rest =>
    match tryAt r (c :: rest) with
    | some (_, after) =>
      if after.length < (c :: rest).length then repl ++ reSubF r repl fuel after
      else repl ++ c :: reSubF r repl fuel rest
    | none => c :: reSubF r repl fuel rest

/-- Python `re.sub` at its safe fuel bound. -/
def reSub (r : RE) (repl : Str) (cs : Str) : Str :=
  reSubF r repl (cs.length + 1) cs

/-- Captured text of group `n`, if the group participated in the match. -/
def getCap (caps : Caps) (n : Nat) : Option Str := getKV caps n

/-- Python `match.group(1) if match.groups() else match.group(0)` as used
by the passport-number, national-id and sex extractors.  The catalog's
grouped patterns always bind group 1 when they match. -/
def g1orWhole (pat : RE) (m : MatchRes) : Str :=
  if countGroups pat = 0 then m.whole else (getCap m.caps 1).getD []

/-- Python `re.findall` list entry: the whole match without groups, the
single group's text with one group, the space-joined tuple with more (the
join is what `_extract_name` does with a tuple entry). -/
def findallItem (pat : RE) (m : MatchRes) : Str :=
  if countGroups pat = 0 then m.whole
  else if countGroups pat = 1 then (getCap m.caps 1).getD []
  else joinChar ' ' ((List.range (countGroups pat)).map fun i =>
    (getCap m.caps (i + 1)).getD [])

/-- Pattern combinator: the single-character literal. -/
def chrRE (c : Char) : RE := .cls fun x => x = c

/-- Pattern combinator: a literal string. -/
def litRE (s : String) : RE := (s.toList.map chrRE).foldr .cat .eps

/-- Pattern combinator: a character range class. -/
def rngRE (a b : Char) : RE := .cls fun x => a ≤ x ∧ x ≤ b

/-- Pattern combinator: concatenation of a list of patterns. -/
def catRE (l : List RE) : RE := l.foldr .cat .eps

/-- Pattern combinator: `r?` (greedy). -/
def optRE (r : RE) : RE := .rep 0 1 r

/-- Pattern combinator: `r+` (greedy). -/
def plusRE (r : RE) : RE := .cat r (.star r)

/-- Pattern combinator: `r{n,}` (greedy). -/
def repMinRE (n : Nat) (r : RE) : RE := .cat (.rep n n r) (.star r)

/-- The class of Python's `\d` (ASCII range; the inputs the engine sees
contain no other decimal digits). -/
def digitRE : RE := .cls Char.isDigit

/-- The class of Python's `\s` (ASCII range). -/
def wsRE : RE := .cls isSpaceChar

/-- The class `[A-Z]`. -/
def ucRE : RE := rngRE 'A' 'Z'

/-- The class `[A-Z0-9]`. -/
def ucDigitRE : RE := .cls fun c => ('A' ≤ c ∧ c ≤ 'Z') ∨ ('0' ≤ c ∧ c ≤ '9')

/-- The class `[A-Z\s]`. -/
def ucWsRE : RE := .cls fun c => ('A' ≤ c ∧ c ≤ 'Z') ∨ isSpaceChar c

/-- The class `[-\s]`. -/
def dashWsRE : RE := .cls fun c => c = '-' ∨ isSpaceChar c

/-- The class `[\s\-\.]`. -/
def sepRE : RE := .cls fun c => isSpaceChar c ∨ c = '-' ∨ c = '.'

/-- The class `[MF]`. -/
def mfRE : RE := .cls fun c => c = 'M' ∨ c = 'F'

/-- The class `[A-Z\s/]`. -/
def ucWsSlashRE : RE := .cls fun c => ('A' ≤ c ∧ c ≤ 'Z') ∨ isSpaceChar c ∨ c = '/'

/-- The class `[؀-ۿ\s]` (Arabic block or whitespace). -/
def arWsRE : RE := .cls fun c => ('؀' ≤ c ∧ c ≤ 'ۿ') ∨ isSpaceChar c

/-- Source `patterns.py` lines 12-29: the ordered passport-number pattern
family, transcribed pattern by pattern (applied under `re.IGNORECASE`). -/
def passportNumberPats : List RE :=
  [ catRE [chrRE 'P', .star wsRE, .rep 8 9 digitRE],
    catRE [chrRE 'P', .rep 8 9 digitRE],
    catRE [litRE "Passport", .star wsRE, litRE "No", optRE (chrRE '.'),
      .star wsRE, optRE (chrRE ':'), .star wsRE, .grp 1 (.rep 8 10 ucDigitRE)],
    catRE [litRE "No", optRE (chrRE '.'), .star wsRE, optRE (chrRE ':'),
      .star wsRE, .grp 1 (.rep 8 10 ucDigitRE)],
    .grp 1 (catRE [.rep 1 2 ucRE, .star wsRE, .rep 6 9 digitRE]),
    catRE [chrRE 'P', .star wsRE, chrRE 'O', .star wsRE, .rep 7 9 digitRE],
    catRE [.cls (fun c => c = 'P' ∨ c = 'D'),
      .rep 8 9 (.cls fun c => ('0' ≤ c ∧ c ≤ '9') ∨ c = 'O')],
    catRE [litRE "جواز", .star wsRE, litRE "رقم", .star wsRE,
      optRE (chrRE ':'), .star wsRE, .grp 1 (.rep 8 10 ucDigitRE)],
    catRE [chrRE 'B', .rep 8 8 digitRE],
    catRE [ucRE, .rep 8 8 digitRE],
    catRE [chrRE 'P', .star wsRE, .rep 8 8 digitRE, .star wsRE, optRE digitRE],
    catRE [.cls (fun c => c = 'P' ∨ c = 'p'), .rep 8 9 digitRE],
    catRE [.alt (litRE "رقم") (.cat (litRE "No") (optRE (chrRE '.'))),
      .star wsRE, optRE (chrRE ':'), .star wsRE, .grp 1 (.rep 8 10 ucDigitRE)],
    catRE [.alt (catRE [litRE "Passport", .star wsRE, litRE "No",
        optRE (chrRE '.')]) (catRE [litRE "رقم", .star wsRE, litRE "الجواز"]),
      .star wsRE, optRE (chrRE ':'), .star wsRE,
      .grp 1 (.cat ucRE (.rep 8 8 digitRE))] ]

/-- The subpattern `\d{3}[-\s]?\d{4}[-\s]?\d{4,5}` shared by several
national-id patterns. -/
def nidBodyRE : RE :=
  catRE [.rep 3 3 digitRE, optRE dashWsRE, .rep 4 4 digitRE,
    optRE dashWsRE, .rep 4 5 digitRE]

/-- Source `patterns.py` lines 32-44: the ordered national-id pattern
family (applied with no flags). -/
def nationalIdPats : List RE :=
  [ nidBodyRE,
    catRE [.rep 3 3 digitRE, .star wsRE, optRE dashWsRE, .star wsRE,
      .rep 4 4 digitRE, .star wsRE, optRE dashWsRE, .star wsRE,
      .rep 4 5 digitRE],
    catRE [litRE "National", .star wsRE, litRE "No", optRE (chrRE '.'),
      .star wsRE, optRE (chrRE ':'), .star wsRE, .grp 1 nidBodyRE],
    .rep 11 12 digitRE,
    catRE [.rep 3 3 digitRE, .rep 4 4 digitRE, .rep 4 5 digitRE],
    catRE [.rep 3 3 digitRE, sepRE, .rep 4 4 digitRE, sepRE,
      .rep 4 5 digitRE],
    catRE [litRE "الرقم", .star wsRE, litRE "الوطني", .star wsRE,
      optRE (chrRE ':'), .star wsRE, .grp 1 nidBodyRE],
    .grp 1 (catRE [.rep 3 3 digitRE, chrRE '-', .rep 4 4 digitRE,
      chrRE '-', .rep 4 4 digitRE]),
    .grp 1 (catRE [.rep 3 3 digitRE, .rep 4 4 digitRE, .rep 4 4 digitRE]),
    catRE [.alt (catRE [litRE "National", .star wsRE, litRE "No",
        optRE (chrRE '.')]) (catRE [litRE "الرقم", .star wsRE,
        litRE "الوطني"]),
      .star wsRE, optRE (chrRE ':'), .star wsRE,
      .grp 1 (catRE [.rep 3 3 digitRE, optRE (chrRE '-'), .rep 4 4 digitRE,
        optRE (chrRE '-'), .rep 4 4 digitRE])] ]

/-- Source `patterns.py` lines 47-55: the date pattern family: the single
live pattern `(\d{1,2})\.(\d{1,2})\.(\d{4})` (applied with no flags). -/
def datePats : List RE :=
  [ catRE [.grp 1 (.rep 1 2 digitRE), chrRE '.', .grp 2 (.rep 1 2 digitRE),
      chrRE '.', .grp 3 (.rep 4 4 digitRE)] ]

/-- Source `patterns.py` lines 58-71: the ordered name pattern family
(applied with no flags). -/
def namePats : List RE :=
  [ catRE [repMinRE 3 ucRE, plusRE wsRE, repMinRE 3 ucRE,
      .star (.cat (plusRE wsRE) (repMinRE 3 ucRE))],
    .cat ucRE (.rep 10 50 (.cls fun c =>
      ('A' ≤ c ∧ c ≤ 'Z') ∨ isSpaceChar c ∨ c = '-' ∨ c = '\'')),
    catRE [.alt (litRE "Name") (litRE "NAME"), .star wsRE, optRE (chrRE ':'),
      .star wsRE, .grp 1 (plusRE ucWsRE)],
    catRE [litRE "Full", .star wsRE, litRE "Name", .star wsRE,
      optRE (chrRE ':'), .star wsRE, .grp 1 (plusRE ucWsRE)],
    .cat (.rep 2 6 (.grp 1 (.cat (repMinRE 2 ucRE) (plusRE wsRE))))
      (repMinRE 2 ucRE),
    catRE [plusRE ucRE, .rep 1 5 (.cat (plusRE wsRE) (plusRE ucRE))],
    catRE [litRE "الاسم", .star wsRE, optRE (chrRE ':'), .star wsRE,
      .grp 1 (plusRE ucWsRE)],
    catRE [litRE "الاسم", .star wsRE, litRE "الكامل", .star wsRE,
      optRE (chrRE ':'), .star wsRE, .grp 1 (plusRE ucWsRE)],
    .grp 1 (catRE [repMinRE 4 ucRE, plusRE wsRE, repMinRE 4 ucRE,
      plusRE wsRE, repMinRE 4 ucRE, plusRE wsRE, repMinRE 4 ucRE]),
    catRE [.alt (catRE [litRE "Full", .star wsRE, litRE "Name"])
        (catRE [litRE "الاسم", .star wsRE, litRE "الكامل"]),
      .star wsRE, optRE (chrRE ':'), .star wsRE,
      .grp 1 (.rep 15 50 ucWsRE)] ]

/-- The alternation `(?:الجنس|Sex)` heading several sex patterns. -/
def sexLblRE : RE := .alt (litRE "الجنس") (litRE "Sex")

/-- Source `patterns.py` lines 74-92: the ordered live sex pattern family
(applied under `re.IGNORECASE | re.DOTALL`; no live pattern contains the
wildcard, so the `DOTALL` flag has no effect). -/
def sexPats : List RE :=
  [ catRE [sexLblRE, .star wsRE, optRE (chrRE ':'), .star wsRE,
      .grp 1 (.alt (litRE "ذكر") (litRE "أنثى")), .star wsRE, .grp 2 mfRE],
    catRE [sexLblRE, .star wsRE, optRE (chrRE ':'), .star wsRE,
      .grp 1 mfRE, .star wsRE, .grp 2 (.alt (litRE "ذكر") (litRE "أنثى"))],
    catRE [sexLblRE, .star wsRE, optRE (chrRE ':'), .star wsRE,
      .grp 1 mfRE, optRE (chrRE '/'), .star wsRE, litRE "ذكر"],
    catRE [sexLblRE, .star wsRE, optRE (chrRE ':'), .star wsRE,
      .grp 1 mfRE, optRE (chrRE '/'), .star wsRE, litRE "أنثى"],
    catRE [litRE "ذكر", .star wsRE, .grp 1 mfRE],
    catRE [litRE "أنثى", .star wsRE, .grp 1 mfRE],
    catRE [.grp 1 mfRE, .star wsRE, litRE "ذكر"],
    catRE [.grp 1 mfRE, .star wsRE, litRE "أنثى"] ]

/-- Source `extractor.py` line 173: the place extraction pattern
`({label})\s*[:/]?\s*([A-Z][A-Z\s/]{3,25})` built from one label. -/
def placePat (label : String) : RE :=
  catRE [.grp 1 (litRE label), .star wsRE,
    optRE (.cls fun c => c = ':' ∨ c = '/'), .star wsRE,
    .grp 2 (.cat ucRE (.rep 3 25 ucWsSlashRE))]

/-- Source `extractor.py` line 202: the place-of-birth label synonyms. -/
def pobLabels : List String := ["Place of Birth", "مكان الميلاد"]

/-- Source `extractor.py` line 218: the place-of-issue label synonyms. -/
def poiLabels : List String :=
  ["Place of Issue", "Authority", "مكان الإصدار", "جهة الإصدار"]

/-- Source `extractor.py` line 183: the pattern
`\s*/\s*[؀-ۿ\s]+` whose matches the place extractor erases. -/
def arabicTailRE : RE :=
  catRE [.star wsRE, chrRE '/', .star wsRE, plusRE arWsRE]

/-- Source `patterns.py` lines 124-133: the stop-word lexicon. -/
def nonNameWords : List Str :=
  [ ofStr "REPUBLIC", ofStr "SUDAN", ofStr "PASSPORT", ofStr "TYPE",
    ofStr "NATIONAL", ofStr "NUMBER", ofStr "DATE", ofStr "BIRTH",
    ofStr "ISSUE", ofStr "EXPIRY", ofStr "SEX", ofStr "PLACE",
    ofStr "NATIONALITY", ofStr "SIGNATURE", ofStr "HOLDER",
    ofStr "AUTHORITY", ofStr "GENDER", ofStr "COUNTRY", ofStr "CODE",
    ofStr "DOCUMENT", ofStr "IDENTIFICATION", ofStr "جمهورية",
    ofStr "السودان", ofStr "جواز", ofStr "نوع", ofStr "رقم",
    ofStr "تاريخ", ofStr "ميلاد", ofStr "إصدار", ofStr "انتهاء",
    ofStr "مكان", ofStr "SDN" ]

/-- Source `patterns.py` lines 118-121: the nationality indicator tokens. -/
def sudanIndicators : List Str :=
  [ ofStr "SDN", ofStr "SUDAN", ofStr "REPUBLIC OF SUDAN",
    ofStr "REPUBLIC OF THE SUDAN", ofStr "السودان",
    ofStr "جمهورية السودان", ofStr "SUDANESE", ofStr "سوداني" ]

/-- The per-request token-confidence table (`self.ocr_confidence_data`):
per source image, the parallel token and confidence sequences returned by
the confidence-annotated OCR pass. -/
abbrev OcrTable := List (Str × List Str × List Int)

/-- Python truthiness of an optional string: present and non-empty. -/
def truthy : Option Str → Bool
  | some (_ :: _) => true
  | _ => false

/-- Round-half-to-even of a rational to an integer (the rounding of
Python's `round`; the engine's values are modelled in exact rationals). -/
def rhe (x : ℚ) : ℤ :=
  if x - ⌊x⌋ < 1 / 2 then ⌊x⌋
  else if 1 / 2 < x - ⌊x⌋ then ⌊x⌋ + 1
  else if ⌊x⌋ % 2 = 0 then ⌊x⌋ else ⌊x⌋ + 1

/-- Python `round(x, 2)` over the rational model. -/
def round2 (x : ℚ) : ℚ := (rhe (x * 100) : ℚ) / 100

/-- Source `extractor.py` lines 332-338, inner loop of
`_calculate_dynamic_confidence`: walk one source's parallel token and
confidence lists and collect the positive confidences of tokens whose
stripped upper-cased text is one of the value's words (a missing
confidence entry is the caught `IndexError`). -/
def collectConfs (words : List Str) : List Str → List Int → List Int
  | t :: ts, c :: cs =>
    if t ≠ [] ∧ pyUpper (pyStrip t) ∈ words then
      (if c > 0 then c :: collectConfs words ts cs
       else collectConfs words ts cs)
    else collectConfs words ts cs
  | _ :: _, [] => []
  | [], _ => []

/-- Source `extractor.py` lines 326-343, `_calculate_dynamic_confidence`:
base-halving when the value or the whole table is empty, otherwise a
0.6/0.4 blend of the average matching OCR confidence with the base, or
the plain base when no token matches. -/
def calculate_dynamic_confidence (tbl : OcrTable) (v : Str) (base : ℚ) : ℚ :=
  if v = [] ∨ tbl = [] then base * (1 / 2)
  else
    let words := pySplit (pyUpper v)
    let confs := tbl.flatMap fun e => collectConfs words e.2.1 e.2.2
    if confs = [] then base
    else
      let avg : ℚ := ((confs.foldl (· + ·) 0 : ℤ) : ℚ) / (confs.length : ℚ) / 100
      min 1 (round2 (avg * (3 / 5) + base * (2 / 5)))

/-- Source `extractor.py` lines 111-117: the draft record built by
`_smart_field_extraction`, with the keys the pipeline adds later
(`mrz_text`, `mrz_confidence`, `mrz_extraction_method`,
`extraction_score`, `extraction_summary`) modelled as absent options. -/
structure Rec where
  passport_type : Option Str
  country_code : Option Str
  passport_number : Option Str
  full_name : Option Str
  nationality : Option Str
  place_of_birth : Option Str
  place_of_issue : Option Str
  sex : Option Str
  date_of_birth : Option Str
  date_of_issue : Option Str
  date_of_expiry : Option Str
  national_id : Option Str
  confidence_scores : List (String × ℚ)
  extraction_method : List (String × Str)
  mrz_text : Option (Option Str)
  mrz_confidence : Option ℚ
  mrz_extraction_method : Option Str
  extraction_score : Option ℚ
  extraction_summary : Option Str
deriving DecidableEq

/-- The fresh draft record (all twelve fields null, empty maps). -/
def initRec : Rec :=
  ⟨none, none, none, none, none, none, none, none, none, none, none, none,
    [], [], none, none, none, none, none⟩

/-- Candidates one observation text yields for one pattern, in match
order, each reduced to group 1 when the pattern has groups and to the
whole match otherwise (the passport-number extractor's candidate rule,
under `re.IGNORECASE`). -/
def candidatesOfPat (pat : RE) (text : Str) : List Str :=
  (finditer (ic pat) text).map (g1orWhole pat)

/-- All passport-number candidates of one observation text, patterns in
catalog order. -/
def allCandidates (pats : List RE) (text : Str) : List Str :=
  pats.flatMap fun pat => candidatesOfPat pat text

/-- Source `extractor.py` line 239: candidate normalization
`.replace('O', '0').replace(' ', '').upper()` — the letter `O` is mapped
to the digit `0` before upper-casing, so a lowercase `o` survives as the
letter `O`. -/
def normalizePn (c : Str) : Str :=
  pyUpper ((c.map fun ch => if ch = 'O' then '0' else ch).filter
    (fun ch => ¬ ch = ' '))

/-- The language `[A-Z]?[0-9]{8,9}` matched against the whole string. -/
def pnCore (cs : Str) : Bool :=
  match cs with
  | [] => false
  | c :: rest =>
    if 'A' ≤ c ∧ c ≤ 'Z' then
      (8 ≤ rest.length ∧ rest.length ≤ 9) ∧ rest.all Char.isDigit
    else
      (8 ≤ cs.length ∧ cs.length ≤ 9) ∧ cs.all Char.isDigit

/-- Python `re.match(r'^[A-Z]?[0-9]{8,9}$', cs)`: the `$` anchor also
matches just before one trailing newline. -/
def acceptPn (cs : Str) : Bool :=
  pnCore cs || (cs.getLast? = some '\n' && pnCore cs.dropLast)

/-- Source `extractor.py` lines 236-244, inner candidate scan of
`_extract_passport_number`: the first candidate whose normalization the
acceptance test passes, already normalized. -/
def pnFirstAccept : List Str → Option Str
  | [] => none
  | c :: rest =>
    let n := normalizePn c
    if acceptPn n then some n else pnFirstAccept rest

/-- Source `extractor.py` lines 233-245, `_extract_passport_number`:
first-match-wins over the ordered observation list; on success the
normalized candidate, the observation's source id and a dynamic
confidence with base 0.95 are recorded. -/
def extract_passport_number (tbl : OcrTable) (d : Rec) :
    List (Str × Str) → Rec
  | [] => d
  | (src, text) :: rest =>
    match pnFirstAccept (allCandidates passportNumberPats text) with
    | some n =>
      { d with
        passport_number := some n
        extraction_method := setKV d.extraction_method "passport_number" src
        confidence_scores := setKV d.confidence_scores "passport_number"
          (calculate_dynamic_confidence tbl n (19 / 20)) }
    | none => extract_passport_number tbl d rest

/-- Source `extractor.py` line 253: national-id candidate normalization
`re.sub(r'[\s\.]', '-', …)` — every single whitespace or dot character
becomes a hyphen. -/
def normalizeNid (c : Str) : Str :=
  c.map fun ch => if isSpaceChar ch ∨ ch = '.' then '-' else ch

/-- The language `\d{3}-\d{4}-\d{4,5}` matched against the whole string. -/
def nidCore (cs : Str) : Bool :=
  match cs with
  | a :: b :: c :: h1 :: p :: q :: r :: s :: h2 :: rest =>
    a.isDigit && b.isDigit && c.isDigit && h1 = '-' &&
    p.isDigit && q.isDigit && r.isDigit && s.isDigit && h2 = '-' &&
    (rest.length = 4 ∨ rest.length = 5) && rest.all Char.isDigit
  | _ => false

/-- Python `re.match(r'^\d{3}-\d{4}-\d{4,5}$', cs)` (the `$` anchor also
matches just before one trailing newline, though normalization has
already replaced any newline by a hyphen). -/
def acceptNid (cs : Str) : Bool :=
  nidCore cs || (cs.getLast? = some '\n' && nidCore cs.dropLast)

/-- All national-id candidates of the combined text, patterns in catalog
order (no flags). -/
def nidCandidates (text : Str) : List Str :=
  nationalIdPats.flatMap fun pat => (finditer pat text).map (g1orWhole pat)

/-- The first national-id candidate whose normalization passes the
acceptance test, already normalized. -/
def nidFirstAccept : List Str → Option Str
  | [] => none
  | c :: rest =>
    let n := normalizeNid c
    if acceptNid n then some n else nidFirstAccept rest

/-- Source `extractor.py` lines 247-258, `_extract_national_id`: first
accepted candidate from the combined text; records a dynamic confidence
with base 0.9 and no extraction-method entry. -/
def extract_national_id (tbl : OcrTable) (d : Rec) (text : Str) : Rec :=
  if text = [] then d
  else
    match nidFirstAccept (nidCandidates text) with
    | some n =>
      { d with
        national_id := some n
        confidence_scores := setKV d.confidence_scores "national_id"
          (calculate_dynamic_confidence tbl n (9 / 10)) }
    | none => d

/-- Python `int` on a (non-empty, all-digit) string; `none` models the
caught `ValueError` otherwise. -/
def pyInt (s : Str) : Option Nat :=
  if s ≠ [] ∧ s.all Char.isDigit then
    some (s.foldl (fun acc c => 10 * acc + dval c) 0)
  else none

/-- Python substring membership `w in s` (contiguous). -/
def isSubstr (w s : Str) : Bool := decide (w <:+: s)

/-- Python `str.split('-')`. -/
def splitDash : Str → List Str
  | [] => [[]]
  | c :: cs =>
    if c = '-' then [] :: splitDash cs
    else
      match splitDash cs with
      | [] => [[c]]
      | p :: ps => (c :: p) :: ps

/-- Source `extractor.py` lines 264-266: all date-like tuples found in the
text, patterns in catalog order (`re.findall` with three groups). -/
def dateTuples (text : Str) : List (Str × Str × Str) :=
  datePats.flatMap fun pat => (finditer pat text).map fun m =>
    ((getCap m.caps 1).getD [], (getCap m.caps 2).getD [],
      (getCap m.caps 3).getD [])

/-- Source `extractor.py` lines 268-278: join a tuple with hyphens,
normalize separator runs to hyphens, split into three parts, read them as
numbers and keep `DD-MM-YYYY`-formatted dates with day in [1,31], month
in [1,12] and year in [1900,2100]. -/
def validOfTuple (t : Str × Str × Str) : Option Str :=
  let ds := subRuns (fun c => isSpaceChar c ∨ c = '.') '-'
    (joinChar '-' [t.1, t.2.1, t.2.2])
  match splitDash ds with
  | [p1, p2, p3] =>
    match pyInt p1, pyInt p2, pyInt p3 with
    | some day, some month, some year =>
      if 1 ≤ day ∧ day ≤ 31 ∧ 1 ≤ month ∧ month ≤ 12 ∧
          1900 ≤ year ∧ year ≤ 2100 then
        some (fmtDate day month year)
      else none
    | _, _, _ => none
  | _ => none

/-- The list `valid_dates` of `_extract_dates`, in match order (the
deduplicating sort of line 280 is commented out in the source). -/
def validDates (text : Str) : List Str :=
  (dateTuples text).filterMap validOfTuple

/-- Source `extractor.py` lines 260-294, `_extract_dates`: positional
assignment of the valid dates — first to date_of_birth, second to
date_of_issue, and the last one to date_of_expiry when there are at
least three (duplicates included); dynamic confidences with bases 0.85,
0.8 and 0.85. -/
def extract_dates (tbl : OcrTable) (d : Rec) (text : Str) : Rec :=
  if text = [] then d
  else
    match validDates text with
    | [] => d
    | [v1] =>
      { d with
        date_of_birth := some v1
        confidence_scores := setKV d.confidence_scores "date_of_birth"
          (calculate_dynamic_confidence tbl v1 (17 / 20)) }
    | v1 :: v2 :: rest =>
      let d1 :=
        { d with
          date_of_birth := some v1
          confidence_scores := setKV d.confidence_scores "date_of_birth"
            (calculate_dynamic_confidence tbl v1 (17 / 20)) }
      let d2 :=
        { d1 with
          date_of_issue := some v2
          confidence_scores := setKV d1.confidence_scores "date_of_issue"
            (calculate_dynamic_confidence tbl v2 (4 / 5)) }
      match rest with
      | [] => d2
      | _ :: _ =>
        let last := rest.getLastD v2
        { d2 with
          date_of_expiry := some last
          confidence_scores := setKV d2.confidence_scores "date_of_expiry"
            (calculate_dynamic_confidence tbl last (17 / 20)) }

/-- Source `extractor.py` lines 298-306: the name-candidate pool — every
observation, every name pattern, every `findall` entry, stripped and
upper-cased, kept when it contains no stop-word as a substring and its
length lies in [10,60]; each candidate carries its observation's source
id. -/
def nameCandidates (all_texts : List (Str × Str)) : List (Str × Str) :=
  all_texts.flatMap fun st => namePats.flatMap fun pat =>
    (finditer pat st.2).filterMap fun m =>
      let name := pyUpper (pyStrip (findallItem pat m))
      if (¬ nonNameWords.any fun w => isSubstr w name) ∧
          10 ≤ name.length ∧ name.length ≤ 60 then
        some (name, st.1)
      else none

/-- Source `extractor.py` lines 296-313, `_extract_name`: the longest
surviving candidate (first seen wins ties, Python `max`); dynamic
confidence with base 0.85. -/
def extract_name (tbl : OcrTable) (d : Rec)
    (all_texts : List (Str × Str)) : Rec :=
  match nameCandidates all_texts with
  | [] => d
  | c :: cs =>
    let longest := cs.foldl
      (fun b x => if x.1.length > b.1.length then x else b) c
    { d with
      full_name := some longest.1
      extraction_method := setKV d.extraction_method "full_name" longest.2
      confidence_scores := setKV d.confidence_scores "full_name"
        (calculate_dynamic_confidence tbl longest.1 (17 / 20)) }

/-- Source `extractor.py` lines 136-161, `_extract_sex`: try the sex
patterns in order with `re.search`; take the first character of the
matched value, upper-case it, and accept only `M` or `F`; records the
method tag `regex_search` and a dynamic confidence with base 0.95. -/
def sexLoop (tbl : OcrTable) (d : Rec) (text : Str) : List RE → Rec
  | [] => d
  | pat :: rest =>
    match reSearch (ic pat) text with
    | some m =>
      match g1orWhole pat m with
      | c :: _ =>
        let sv := upChar c
        if sv = 'M' ∨ sv = 'F' then
          { d with
            sex := some [sv]
            confidence_scores := setKV d.confidence_scores "sex"
              (calculate_dynamic_confidence tbl [sv] (19 / 20))
            extraction_method := setKV d.extraction_method "sex"
              (ofStr "regex_search") }
        else sexLoop tbl d text rest
      | [] => sexLoop tbl d text rest
    | none => sexLoop tbl d text rest

/-- The sex extractor over the combined text (empty text returns the
record unchanged). -/
def extract_sex (tbl : OcrTable) (d : Rec) (text : Str) : Rec :=
  if text = [] then d else sexLoop tbl d text sexPats

/-- Source `extractor.py` lines 168-188: the place-candidate pool — every
observation, every label pattern, every match; group 2 is stripped, its
trailing Arabic segment erased, cut at the first line break, stripped and
upper-cased, and kept when its length lies strictly between 3 and 25 and
it is not a stop-word (exact membership). -/
def placeCandidates (labels : List String)
    (all_texts : List (Str × Str)) : List Str :=
  all_texts.flatMap fun st => labels.flatMap fun lab =>
    (finditer (ic (placePat lab)) st.2).filterMap fun m =>
      let pc0 := pyStrip ((getCap m.caps 2).getD [])
      let pc1 := reSub arabicTailRE [] pc0
      let pc := pyUpper (pyStrip (pc1.takeWhile fun c => ¬ c = '\n'))
      if 3 < pc.length ∧ pc.length < 25 ∧ ¬ pc ∈ nonNameWords then some pc
      else none

/-- Keys of a candidate list in first-seen order, excluding keys already
seen (the iteration order of a Python `Counter` built from the list). -/
def firstKeysAux : List Str → List Str → List Str
  | [], _ => []
  | x :: xs, seen =>
    if x ∈ seen then firstKeysAux xs seen
    else x :: firstKeysAux xs (x :: seen)

/-- Keys of a candidate list in first-seen order. -/
def firstKeys (l : List Str) : List Str := firstKeysAux l []

/-- Python `Counter(l).most_common(1)[0][0]`: among the keys in first-seen
order, the first one of maximal count (CPython's `most_common(1)` is
`max` over the insertion-ordered items, which keeps the earliest of
tied keys). -/
def mostCommon (l : List Str) : Option Str :=
  match firstKeys l with
  | [] => none
  | k :: ks =>
    some (ks.foldl (fun b x => if l.count x > l.count b then x else b) k)

/-- Source `extractor.py` lines 163-196, `_extract_place`: collect
candidates and return the most common one with the method tag
`regex_candidate_selection`, or nothing. -/
def extract_place (labels : List String)
    (all_texts : List (Str × Str)) : Option (Str × Str) :=
  match mostCommon (placeCandidates labels all_texts) with
  | none => none
  | some mc => some (mc, ofStr "regex_candidate_selection")

/-- Source `extractor.py` lines 198-212, `_extract_place_of_birth`:
dynamic confidence with base 0.85. -/
def extract_place_of_birth (tbl : OcrTable) (d : Rec)
    (all_texts : List (Str × Str)) : Rec :=
  match extract_place pobLabels all_texts with
  | some r =>
    { d with
      place_of_birth := some r.1
      extraction_method := setKV d.extraction_method "place_of_birth" r.2
      confidence_scores := setKV d.confidence_scores "place_of_birth"
        (calculate_dynamic_confidence tbl r.1 (17 / 20)) }
  | none => d

/-- Source `extractor.py` lines 214-228, `_extract_place_of_issue`:
dynamic confidence with base 0.80. -/
def extract_place_of_issue (tbl : OcrTable) (d : Rec)
    (all_texts : List (Str × Str)) : Rec :=
  match extract_place poiLabels all_texts with
  | some r =>
    { d with
      place_of_issue := some r.1
      extraction_method := setKV d.extraction_method "place_of_issue" r.2
      confidence_scores := setKV d.confidence_scores "place_of_issue"
        (calculate_dynamic_confidence tbl r.1 (4 / 5)) }
  | none => d

/-- Source `extractor.py` lines 315-324, `_extract_nationality`: substring
search of the nationality indicators in the upper-cased text; on a hit
sets nationality, country code and passport type in a bundle with a fixed
confidence 0.98 for nationality only and no method entry. -/
def extract_nationality (d : Rec) (text : Str) : Rec :=
  if text = [] then d
  else
    let tu := pyUpper text
    if sudanIndicators.any (fun ind => isSubstr ind tu) then
      { d with
        nationality := some (ofStr "SUDANESE")
        country_code := some (ofStr "SDN")
        passport_type := some (ofStr "PC")
        confidence_scores := setKV d.confidence_scores "nationality"
          (49 / 50) }
    else d

/-- Source `extractor.py` lines 107-134, `_smart_field_extraction`: the
fixed extractor pipeline over the fresh draft record and the combined
text of all observations. -/
def smart_field_extraction (tbl : OcrTable)
    (all_texts : List (Str × Str)) : Rec :=
  let combined := joinChar '\n' (all_texts.map (·.2))
  let d := initRec
  let d := extract_passport_number tbl d all_texts
  let d := extract_national_id tbl d combined
  let d := extract_dates tbl d combined
  let d := extract_name tbl d all_texts
  let d := extract_sex tbl d combined
  let d := extract_place_of_birth tbl d all_texts
  let d := extract_place_of_issue tbl d all_texts
  let d := extract_nationality d combined
  d

/-- Source `extractor.py` lines 345-352, `_calculate_score`: the count of
populated fields among the nine designated important fields. -/
def importantCount (d : Rec) : Nat :=
  List.countP truthy
    [d.passport_number, d.full_name, d.nationality, d.date_of_birth,
      d.date_of_issue, d.date_of_expiry, d.sex, d.place_of_birth,
      d.place_of_issue]

/-- Source `extractor.py` lines 345-352: the overall extraction score
`round((extracted / 9) * 100, 2)`. -/
def calculate_score (d : Rec) : ℚ :=
  round2 ((importantCount d : ℚ) / 9 * 100)

/-- Python `str(n)` for `n ≤ 99`. -/
def natToStr2 (n : Nat) : Str :=
  if n < 10 then [digitChar n] else [digitChar (n / 10), digitChar (n % 10)]

/-- Source `extractor.py` lines 354-362, `_generate_summary`: the
`"k/11 fields extracted"` string over the eleven-field checklist. -/
def generate_summary (d : Rec) : Str :=
  natToStr2 (List.countP truthy
    [d.passport_number, d.full_name, d.nationality, d.national_id,
      d.date_of_birth, d.date_of_issue, d.date_of_expiry, d.sex,
      d.place_of_birth, d.place_of_issue, d.country_code]) ++
  ofStr "/11 fields extracted"

/-- Source `mrz_processor.py` lines 37-49: the MRZ record handed to
fusion (its dictionary always carries a confidence and a method tag, so
those are plain fields here). -/
structure MRZRec where
  mrz_text : Option Str
  passport_number : Option Str
  nationality : Option Str
  date_of_birth : Option Str
  date_of_expiry : Option Str
  sex : Option Str
  names : Option Str
  document_type : Option Str
  issuing_country : Option Str
  mrz_confidence : ℚ
  extraction_method : Str
deriving DecidableEq

/-- Source `mrz_processor.py` lines 352-372, one iteration of the fusion
loop: when the MRZ value is truthy and the record's field is empty or the
MRZ confidence exceeds the field's recorded confidence (0 when absent),
overwrite the field, its confidence entry and its method entry. -/
def fuseStep (mconf : ℚ) (mmeth : Str) (key : String) (mval : Option Str)
    (get : Rec → Option Str) (set : Rec → Option Str → Rec) (d : Rec) : Rec :=
  if truthy mval then
    if ¬ truthy (get d) ∨ mconf > (getKV d.confidence_scores key).getD 0 then
      let d1 := set d mval
      { d1 with
        confidence_scores := setKV d1.confidence_scores key mconf
        extraction_method := setKV d1.extraction_method key mmeth }
    else d
  else d

/-- One entry of the fusion loop's `field_mapping`: the record key under
which confidence and method are stored, the MRZ field read, and the
record field written (as getter and setter). -/
structure FStep where
  key : String
  mval : MRZRec → Option Str
  get : Rec → Option Str
  set : Rec → Option Str → Rec

/-- Source `mrz_processor.py` lines 342-350, `field_mapping`: the seven
MRZ-to-record field pairs, in dictionary order. -/
def field_mapping : List FStep :=
  [ ⟨"passport_number", (·.passport_number), (·.passport_number),
      fun r v => { r with passport_number := v }⟩,
    ⟨"nationality", (·.nationality), (·.nationality),
      fun r v => { r with nationality := v }⟩,
    ⟨"date_of_birth", (·.date_of_birth), (·.date_of_birth),
      fun r v => { r with date_of_birth := v }⟩,
    ⟨"date_of_expiry", (·.date_of_expiry), (·.date_of_expiry),
      fun r v => { r with date_of_expiry := v }⟩,
    ⟨"sex", (·.sex), (·.sex), fun r v => { r with sex := v }⟩,
    ⟨"full_name", (·.names), (·.full_name),
      fun r v => { r with full_name := v }⟩,
    ⟨"country_code", (·.issuing_country), (·.country_code),
      fun r v => { r with country_code := v }⟩ ]

/-- The fusion loop: one `fuseStep` per `field_mapping` entry, in order. -/
def applySteps (m : MRZRec) (steps : List FStep) (d : Rec) : Rec :=
  steps.foldl (fun r st =>
    fuseStep m.mrz_confidence m.extraction_method st.key (st.mval m)
      st.get st.set r) d

/-- Source `mrz_processor.py` lines 335-379,
`enhance_extraction_with_mrz`: the seven mapped fields fused in the
order of `field_mapping`, then the three MRZ keys added. -/
def enhance_extraction_with_mrz (d : Rec) (m : MRZRec) : Rec :=
  let d1 := applySteps m field_mapping d
  { d1 with
    mrz_text := some m.mrz_text
    mrz_confidence := some m.mrz_confidence
    mrz_extraction_method := some m.extraction_method }

/-- Source `extractor.py` lines 21-45, `extract`: the OCR passes and the
MRZ decoder are external collaborators, so they enter as parameters; per
named image variant the multi-pass collector contributes observations
(tagged `variant_pass`) and token-confidence entries; field extraction
runs over all observations; MRZ fusion runs only when there is a first
image and its MRZ text is truthy; finally score and summary are set. -/
def extract {Img : Type} (multiPass : Img → List (Str × Str) × OcrTable)
    (mrzOf : Img → MRZRec) (imgs : List (Str × Img)) : Rec :=
  let all_texts := imgs.flatMap fun p =>
    (multiPass p.2).1.map fun mt => (p.1 ++ '_' :: mt.1, mt.2)
  let tbl := imgs.flatMap fun p => (multiPass p.2).2
  let d := smart_field_extraction tbl all_texts
  let d :=
    match imgs with
    | [] => d
    | (_, img0) :: _ =>
      let m := mrzOf img0
      if truthy m.mrz_text then enhance_extraction_with_mrz d m else d
  { d with
    extraction_score := some (calculate_score d)
    extraction_summary := some (generate_summary d) }

/-- Modelled from the spec: `validate_date` is called by
`parse_date_string` (`patterns.py` line 224) but is defined nowhere in
the repository's sources; section 4.3 of the spec gives the validation
as day in [1,31], month in [1,12], year in [1900,2100], the same check
`_extract_dates` performs inline. -/
def validate_date (d m y : Nat) : Bool :=
  decide (1 ≤ d ∧ d ≤ 31 ∧ 1 ≤ m ∧ m ≤ 12 ∧ 1900 ≤ y ∧ y ≤ 2100)

/-- The regex fragment `(\d{1,2})-` of `parse_date_string`'s date
patterns: one or two digits then a hyphen.  The two greedy alternatives
are mutually exclusive (the second character cannot be both a digit and
a hyphen), so a deterministic reading is exact. -/
def matchNum2Dash : Str → Option (Nat × Str)
  | a :: b :: c :: rest =>
    if a.isDigit then
      if b.isDigit then
        if c = '-' then some (10 * dval a + dval b, rest) else none
      else if b = '-' then some (dval a, c :: rest)
      else none
    else none
  | [a, b] =>
    if a.isDigit then (if b = '-' then some (dval a, []) else none)
    else none
  | _ => none

/-- The regex fragment `(\d{4})` with no end anchor: four digits,
anything may follow. -/
def matchNum4 : Str → Option (Nat × Str)
  | a :: b :: c :: d :: rest =>
    if a.isDigit && b.isDigit && c.isDigit && d.isDigit then
      some (1000 * dval a + 100 * dval b + 10 * dval c + dval d, rest)
    else none
  | _ => none

/-- The regex fragment `(\d{1,2})` at the end of a pattern with no end
anchor: greedily one or two digits. -/
def matchNum12 : Str → Option Nat
  | a :: b :: _ =>
    if a.isDigit then
      some (if b.isDigit then 10 * dval a + dval b else dval a)
    else none
  | [a] => if a.isDigit then some (dval a) else none
  | [] => none

/-- Python `re.match(r'(\d{1,2})-(\d{1,2})-(\d{4})', s)` with the groups
read as numbers. -/
def matchDMY12 (cs : Str) : Option (Nat × Nat × Nat) :=
  match matchNum2Dash cs with
  | none => none
  | some (a, cs1) =>
    match matchNum2Dash cs1 with
    | none => none
    | some (b, cs2) =>
      match matchNum4 cs2 with
      | none => none
      | some (y, _) => some (a, b, y)

/-- Python `re.match(r'(\d{4})-(\d{1,2})-(\d{1,2})', s)` with the groups
read as numbers. -/
def matchY4MD (cs : Str) : Option (Nat × Nat × Nat) :=
  match matchNum4 cs with
  | none => none
  | some (y, cs1) =>
    match cs1 with
    | c :: cs2 =>
      if c = '-' then
        match matchNum2Dash cs2 with
        | none => none
        | some (b, cs3) =>
          match matchNum12 cs3 with
          | none => none
          | some c3 => some (y, b, c3)
      else none
    | [] => none

/-- Source `patterns.py` lines 188-230, `parse_date_string`: clean the
string (strip, whitespace-or-dot runs to hyphen, slash runs to hyphen),
then try DD-MM-YYYY, MM-DD-YYYY (the same regex, groups swapped) and
YYYY-MM-DD in that order, returning the first (day, month, year) reading
the (spec-modelled) `validate_date` accepts. -/
def parse_date_string (ds : Str) : Option (Nat × Nat × Nat) :=
  let s := subRuns (fun c => c = '/') '-'
    (subRuns (fun c => isSpaceChar c ∨ c = '.') '-' (pyStrip ds))
  let viaY4 : Option (Nat × Nat × Nat) :=
    match matchY4MD s with
    | some (g1, g2, g3) =>
      if validate_date g3 g2 g1 then some (g3, g2, g1) else none
    | none => none
  match matchDMY12 s with
  | some (g1, g2, g3) =>
    if validate_date g1 g2 g3 then some (g1, g2, g3)
    else if validate_date g2 g1 g3 then some (g2, g1, g3)
    else viaY4
  | none => viaY4

/-- Claim-side predicate: one OCR token matches the value
case-insensitively, i.e. the stripped upper-cased token is one of the
value's whitespace-delimited upper-cased words. -/
def tokenMatches (t : Str) (v : Str) : Bool :=
  pyUpper (pyStrip t) ∈ pySplit (pyUpper v)

/-- Claim-side predicate: no OCR token anywhere in the table matches any
whitespace-delimited token of the value. -/
def noTokenMatches (tbl : OcrTable) (v : Str) : Bool :=
  tbl.all fun e => e.2.1.all fun t => ¬ tokenMatches t v

/-- Claim-side normalization of a passport-number candidate in the order
the specification states it: upper-cased, spaces stripped, then the
letter `O` mapped to digit `0` (the source applies the `O` mapping first,
before upper-casing). -/
def specNormalize (c : Str) : Str :=
  ((pyUpper c).filter fun ch => ¬ ch = ' ').map
    fun ch => if ch = 'O' then '0' else ch

/-- The first accepted passport-number candidate one observation text
yields (the inner two loops of `_extract_passport_number`). -/
def obsAccepted (text : Str) : Option Str :=
  pnFirstAccept (allCandidates passportNumberPats text)

/-! Helper lemmas shared by several claims. -/

theorem getKV_setKV_self {κ α : Type} [DecidableEq κ]
    (m : List (κ × α)) (k : κ) (v : α) : getKV (setKV m k v) k = some v := by
  induction m with
  | nil => simp [setKV, getKV]
  | cons e rest ih =>
    by_cases h : e.1 = k
    · simp [setKV, getKV, h]
    · simp only [setKV]
      rw [if_neg (by simpa using h)]
      simp only [getKV]
      rw [if_neg (by simpa using h)]
      exact ih

theorem getKV_setKV_ne {κ α : Type} [DecidableEq κ]
    (m : List (κ × α)) (k k' : κ) (v : α) (h : ¬ k = k') :
    getKV (setKV m k v) k' = getKV m k' := by
  induction m with
  | nil => simp [setKV, getKV, h]
  | cons e rest ih =>
    by_cases he : e.1 = k
    · simp only [setKV]
      rw [if_pos (by simpa using he)]
      simp only [getKV]
      rw [if_neg h, if_neg (by rw [he]; exact h)]
    · simp only [setKV]
      rw [if_neg (by simpa using he)]
      simp only [getKV]
      by_cases he' : e.1 = k'
      · rw [if_pos (by simpa using he'), if_pos (by simpa using he')]
      · rw [if_neg (by simpa using he'), if_neg (by simpa using he')]
        exact ih

theorem collectConfs_eq_nil (words : List Str) (ts : List Str)
    (cs : List Int) (h : ∀ t ∈ ts, ¬ pyUpper (pyStrip t) ∈ words) :
    collectConfs words ts cs = [] := by
  induction ts generalizing cs with
  | nil => cases cs <;> rfl
  | cons t rest ih =>
    cases cs with
    | nil => rfl
    | cons c crest =>
      simp only [collectConfs]
      rw [if_neg (by
        intro hc
        exact h t (by simp) hc.2)]
      exact ih crest (fun t ht => h t (by simp [ht]))

/-- C1 counterexample: with the non-empty token-confidence table holding
the single token `XYZ` (confidence 80) and the value `ABC`, no token
matches any word of the value, yet the dynamic confidence is the full
base `4/5`, not `4/5 * 0.5` as the claim states. -/
theorem dynamic_confidence_unmatched_counterexample :
    noTokenMatches [(ofStr "img", [ofStr "XYZ"], [80])] (ofStr "ABC") = true ∧
    calculate_dynamic_confidence [(ofStr "img", [ofStr "XYZ"], [80])]
      (ofStr "ABC") (4 / 5) = 4 / 5 ∧
    ¬ ((4 : ℚ) / 5 = 4 / 5 * (1 / 2)) := by
  refine ⟨by decide, ?_, by norm_num⟩
  simp only [calculate_dynamic_confidence]
  rw [if_neg (by decide), if_pos (by decide)]

/-- C1 as amended: the `base * 0.5` penalty is returned exactly when the
extracted value or the whole token-confidence table is empty; when the
table is non-empty and no OCR token matches any whitespace-delimited
word of the (non-empty) value, the confidence is the plain
`base_confidence` instead. -/
theorem dynamic_confidence_no_match (tbl : OcrTable) (v : Str) (base : ℚ)
    (hv : v ≠ []) (ht : tbl ≠ []) (hnm : noTokenMatches tbl v = true) :
    calculate_dynamic_confidence tbl v base = base ∧
    calculate_dynamic_confidence tbl [] base = base * (1 / 2) ∧
    calculate_dynamic_confidence [] v base = base * (1 / 2) := by
  refine ⟨?_, by simp [calculate_dynamic_confidence],
    by simp [calculate_dynamic_confidence]⟩
  simp only [calculate_dynamic_confidence]
  rw [if_neg (by simp [hv, ht])]
  have hc : (tbl.flatMap fun e =>
      collectConfs (pySplit (pyUpper v)) e.2.1 e.2.2) = [] := by
    rw [List.flatMap_eq_nil_iff]
    intro e he
    refine collectConfs_eq_nil _ _ _ (fun t htm hmem => ?_)
    simp only [noTokenMatches, List.all_eq_true] at hnm
    have := hnm e he
    simp only [List.all_eq_true] at this
    have := this t htm
    simp only [tokenMatches] at this
    simp_all
  rw [if_pos hc]

/-- C1 witness: the amended theorem applied at the concrete
counterexample table and value. -/
theorem dynamic_confidence_no_match_witness :
    calculate_dynamic_confidence [(ofStr "img", [ofStr "XYZ"], [80])]
      (ofStr "ABC") (4 / 5) = 4 / 5 :=
  (dynamic_confidence_no_match [(ofStr "img", [ofStr "XYZ"], [80])]
    (ofStr "ABC") (4 / 5) (by decide) (by decide) (by decide)).1

/-! Digit and cleaning lemmas for the date round-trip. -/

theorem digitChar_isDigit : ∀ n, n < 10 → (digitChar n).isDigit = true := by
  decide

theorem dval_digitChar : ∀ n, n < 10 → dval (digitChar n) = n := by decide

theorem digitChar_ne_dash : ∀ n, n < 10 → ¬ digitChar n = '-' := by decide

theorem digitChar_clean : ∀ n, n < 10 → isSpaceChar (digitChar n) = false ∧
    ¬ digitChar n = '.' ∧ ¬ digitChar n = '/' := by decide

theorem fmtDate_chars (d m y : Nat) (hd : d ≤ 99) (hm : m ≤ 99)
    (hy : y ≤ 9999) :
    ∀ c ∈ fmtDate d m y, (∃ n, n < 10 ∧ c = digitChar n) ∨ c = '-' := by
  intro c hc
  simp only [fmtDate, pad2, digits4, List.cons_append, List.nil_append,
    List.mem_cons, List.not_mem_nil, or_false] at hc
  rcases hc with rfl | rfl | rfl | rfl | rfl | rfl | rfl | rfl | rfl | rfl
  all_goals first
  | (right; rfl)
  | (left; exact ⟨_, by omega, rfl⟩)

theorem dropWhile_all_neg {p : Char → Bool} {l : Str}
    (h : ∀ c ∈ l, p c = false) : l.dropWhile p = l := by
  cases l with
  | nil => rfl
  | cons a rest => rw [List.dropWhile_cons_of_neg (by simp [h a (by simp)])]

theorem pyStrip_id (s : Str) (h : ∀ c ∈ s, isSpaceChar c = false) :
    pyStrip s = s := by
  unfold pyStrip
  rw [dropWhile_all_neg h,
    dropWhile_all_neg (fun c hc => h c (by simpa using hc)),
    List.reverse_reverse]

theorem subRunsAux_id (p : Char → Bool) (r : Char) :
    ∀ (s : Str) (b : Bool), (∀ c ∈ s, p c = false) →
      subRunsAux p r s b = s := by
  intro s
  induction s with
  | nil => intro b _; rfl
  | cons c rest ih =>
    intro b h
    simp only [subRunsAux]
    rw [if_neg (by simp [h c (by simp)])]
    rw [ih false (fun x hx => h x (by simp [hx]))]

theorem subRuns_id (p : Char → Bool) (r : Char) (s : Str)
    (h : ∀ c ∈ s, p c = false) : subRuns p r s = s :=
  subRunsAux_id p r s false h

theorem matchNum2Dash_pad2 (n : Nat) (hn : n ≤ 99) (rest : Str) :
    matchNum2Dash (pad2 n ++ '-' :: rest) = some (n, rest) := by
  have h1 : n / 10 < 10 := by omega
  have h2 : n % 10 < 10 := by omega
  simp only [pad2, List.cons_append, List.nil_append, matchNum2Dash]
  rw [if_pos (digitChar_isDigit _ h1), if_pos (digitChar_isDigit _ h2)]
  rw [if_pos trivial, dval_digitChar _ h1, dval_digitChar _ h2]
  have : 10 * (n / 10) + n % 10 = n := by omega
  rw [this]

theorem matchNum4_digits4 (y : Nat) (hy : y ≤ 9999) (rest : Str) :
    matchNum4 (digits4 y ++ rest) = some (y, rest) := by
  have h1 : y / 1000 < 10 := by omega
  have h2 : y / 100 % 10 < 10 := by omega
  have h3 : y / 10 % 10 < 10 := by omega
  have h4 : y % 10 < 10 := by omega
  simp only [digits4, List.cons_append, List.nil_append, matchNum4]
  rw [if_pos (by
    simp [digitChar_isDigit _ h1, digitChar_isDigit _ h2,
      digitChar_isDigit _ h3, digitChar_isDigit _ h4])]
  rw [dval_digitChar _ h1, dval_digitChar _ h2, dval_digitChar _ h3,
    dval_digitChar _ h4]
  have : 1000 * (y / 1000) + 100 * (y / 100 % 10) + 10 * (y / 10 % 10) +
      y % 10 = y := by omega
  rw [this]

/-- C2: for every date triple with day in [1,31], month in [1,12] and
year in [1900,2100], formatting to the engine's `DD-MM-YYYY` string and
parsing it back with `parse_date_string` (its missing `validate_date`
modelled from the spec) returns the same triple. -/
theorem format_parse_roundtrip (d m y : Nat)
    (hd1 : 1 ≤ d) (hd2 : d ≤ 31) (hm1 : 1 ≤ m) (hm2 : m ≤ 12)
    (hy1 : 1900 ≤ y) (hy2 : y ≤ 2100) :
    parse_date_string (fmtDate d m y) = some (d, m, y) := by
  have hchars := fmtDate_chars d m y (by omega) (by omega) (by omega)
  have hnosp : ∀ c ∈ fmtDate d m y, isSpaceChar c = false := by
    intro c hc
    rcases hchars c hc with ⟨n, hn, rfl⟩ | rfl
    · exact (digitChar_clean n hn).1
    · decide
  have hclean : subRuns (fun c => c = '/') '-'
      (subRuns (fun c => isSpaceChar c ∨ c = '.') '-'
        (pyStrip (fmtDate d m y))) = fmtDate d m y := by
    rw [pyStrip_id _ hnosp]
    rw [subRuns_id (fun c => isSpaceChar c ∨ c = '.') '-' (fmtDate d m y)
      (by
        intro c hc
        rcases hchars c hc with ⟨n, hn, rfl⟩ | rfl
        · simp [digitChar_clean n hn, (digitChar_clean n hn).2.1]
        · decide)]
    rw [subRuns_id (fun c => c = '/') '-' (fmtDate d m y)
      (by
        intro c hc
        rcases hchars c hc with ⟨n, hn, rfl⟩ | rfl
        · simp [(digitChar_clean n hn).2.2]
        · decide)]
  have h1 : matchNum2Dash (fmtDate d m y) =
      some (d, pad2 m ++ '-' :: digits4 y) := by
    unfold fmtDate
    exact matchNum2Dash_pad2 d (by omega) _
  have h2 : matchNum2Dash (pad2 m ++ '-' :: digits4 y) =
      some (m, digits4 y) := matchNum2Dash_pad2 m (by omega) _
  have h3 : matchNum4 (digits4 y) = some (y, []) := by
    have := matchNum4_digits4 y (by omega) []
    simpa using this
  have hm12 : matchDMY12 (fmtDate d m y) = some (d, m, y) := by
    simp only [matchDMY12, h1, h2, h3]
  simp only [parse_date_string, hclean, hm12]
  rw [if_pos (by simp only [validate_date, decide_eq_true_eq]; omega)]

/-- C2 witness: the round-trip at the concrete triple (15, 6, 1985). -/
theorem format_parse_roundtrip_witness :
    parse_date_string (fmtDate 15 6 1985) = some (15, 6, 1985) :=
  format_parse_roundtrip 15 6 1985 (by decide) (by decide) (by decide)
    (by decide) (by decide) (by decide)

/-- C3 counterexample: a text carrying the same valid date three times.
The extractor counts duplicate matches, so `date_of_expiry` is populated
although there is only one distinct valid date — the claim's "at least 3
distinct valid dates" condition for populating `date_of_expiry` does not
hold on the code. -/
theorem dates_expiry_distinct_counterexample :
    (extract_dates [] initRec
      (ofStr "1.1.2000 1.1.2000 1.1.2000")).date_of_expiry =
      some (ofStr "01-01-2000") ∧
    firstKeys (validDates (ofStr "1.1.2000 1.1.2000 1.1.2000")) =
      [ofStr "01-01-2000"] := by
  constructor
  · decide
  · decide

/-- C3 as amended: the extractor assigns the valid dates positionally in
match order — the first to `date_of_birth`, the second to
`date_of_issue`, and the last one to `date_of_expiry` as soon as there
are at least three valid date matches counting duplicates (not three
distinct dates); with fewer than three matches `date_of_expiry` keeps
its prior value. -/
theorem dates_positional_assignment (tbl : OcrTable) (d0 : Rec)
    (text : Str) :
    (validDates text = [] → extract_dates tbl d0 text = d0) ∧
    (∀ v1 vs, validDates text = v1 :: vs →
      (extract_dates tbl d0 text).date_of_birth = some v1) ∧
    (∀ v1 v2 vs, validDates text = v1 :: v2 :: vs →
      (extract_dates tbl d0 text).date_of_issue = some v2) ∧
    ((validDates text).length ≤ 2 →
      (extract_dates tbl d0 text).date_of_expiry = d0.date_of_expiry) ∧
    (3 ≤ (validDates text).length →
      (extract_dates tbl d0 text).date_of_expiry =
        (validDates text).getLast?) := by
  by_cases htext : text = []
  · subst htext
    have hvd : validDates [] = [] := by decide
    simp [extract_dates, hvd]
  · unfold extract_dates
    rw [if_neg htext]
    rcases hvd : validDates text with _ | ⟨v1, _ | ⟨v2, _ | ⟨r, rs⟩⟩⟩
    · simp [hvd]
    · simp [hvd]
    · simp only [hvd]
      refine ⟨by simp, by simp, ?_, by simp, by simp⟩
      intro a b vs h1
      simp_all
    · have hlast : (r :: rs).getLast? = some ((r :: rs).getLast (by simp)) :=
        List.getLast?_eq_getLast _ _
      simp [hvd, List.getLastD_eq_getLast?, hlast]

theorem pnFirstAccept_spec (l : List Str) (n : Str)
    (h : pnFirstAccept l = some n) :
    acceptPn n = true ∧ ∃ c ∈ l, n = normalizePn c := by
  induction l with
  | nil => simp [pnFirstAccept] at h
  | cons c rest ih =>
    by_cases hc : acceptPn (normalizePn c) = true
    · simp only [pnFirstAccept, hc, if_true] at h
      cases h
      exact ⟨hc, c, by simp, rfl⟩
    · simp only [pnFirstAccept, hc, if_false, Bool.false_eq_true] at h
      obtain ⟨ha, c', hc', hn⟩ := ih h
      exact ⟨ha, c', by simp [hc'], hn⟩

/-- C4: first-match-wins over the ordered observation list — when every
observation before `(src, text)` yields no accepted passport-number
candidate and `(src, text)` yields the accepted candidate `v` (first in
pattern order, then match order, via `obsAccepted`), the extractor
populates the field with `v` and the method tag with `src`, whatever
acceptable candidates later observations hold. -/
theorem passport_number_first_observation_wins (tbl : OcrTable) (d0 : Rec)
    (pre : List (Str × Str)) (src text : Str) (post : List (Str × Str))
    (v : Str) (hpre : ∀ p ∈ pre, obsAccepted p.2 = none)
    (hacc : obsAccepted text = some v) :
    (extract_passport_number tbl d0
      (pre ++ (src, text) :: post)).passport_number = some v ∧
    getKV (extract_passport_number tbl d0
      (pre ++ (src, text) :: post)).extraction_method "passport_number" =
      some src := by
  induction pre with
  | nil =>
    simp only [List.nil_append, extract_passport_number]
    unfold obsAccepted at hacc
    rw [hacc]
    exact ⟨rfl, getKV_setKV_self _ _ _⟩
  | cons p rest ih =>
    have hp : obsAccepted p.2 = none := hpre p (by simp)
    unfold obsAccepted at hp
    cases p with
    | mk psrc ptext =>
      simp only [List.cons_append, extract_passport_number]
      simp only at hp
      rw [hp]
      exact ih (fun q hq => hpre q (by simp [hq]))

/-- C4 witness: with the real pattern catalog, an observation list whose
first observation matches nothing, whose second observation holds the
acceptable candidate `P12345678`, and whose third also holds an
acceptable candidate; the second observation wins. -/
theorem passport_number_first_observation_wins_witness :
    (extract_passport_number [] initRec
      [(ofStr "obs1", ofStr "hello"), (ofStr "obs2", ofStr "P12345678"),
        (ofStr "obs3", ofStr "B00013285")]).passport_number =
      some (ofStr "P12345678") ∧
    getKV (extract_passport_number [] initRec
      [(ofStr "obs1", ofStr "hello"), (ofStr "obs2", ofStr "P12345678"),
        (ofStr "obs3", ofStr "B00013285")]).extraction_method
      "passport_number" = some (ofStr "obs2") :=
  passport_number_first_observation_wins [] initRec
    [(ofStr "obs1", ofStr "hello")] (ofStr "obs2") (ofStr "P12345678")
    [(ofStr "obs3", ofStr "B00013285")] (ofStr "P12345678")
    (by decide) (by decide)

/-- C5 counterexample: the text `o123456789` is matched by the catalog's
pattern `([A-Z]{1,2}\s*[0-9]{6,9})` under `IGNORECASE`; the code's
normalization (`O` to `0` before upper-casing) turns it into
`O123456789`, which is accepted and populates the field — yet the
claim's normalization order (upper-case, strip spaces, then `O` to `0`)
yields the ten-digit string `0123456789`, outside the language
`[A-Z]?[0-9]{8,9}`. -/
theorem passport_number_normalization_counterexample :
    (extract_passport_number [] initRec
      [(ofStr "src", ofStr "o123456789")]).passport_number =
      some (ofStr "O123456789") ∧
    (ofStr "o123456789") ∈
      allCandidates passportNumberPats (ofStr "o123456789") ∧
    pnCore (specNormalize (ofStr "o123456789")) = false ∧
    acceptPn (specNormalize (ofStr "o123456789")) = false := by
  refine ⟨by decide, by decide, by decide, by decide⟩

/-- C5 as amended: the passport-number field, when populated from a fresh
record, always holds the code-normalized form of some pattern-matched
candidate (`O` mapped to `0` before upper-casing, so a lowercase `o`
survives as the letter `O`), and that value passes the code's acceptance
test `re.match(r'^[A-Z]?[0-9]{8,9}$', …)`; a candidate whose
code-normalized form fails that test never populates the field. -/
theorem passport_number_accepted_language (tbl : OcrTable) (d0 : Rec)
    (obs : List (Str × Str)) (v : Str) (h0 : d0.passport_number = none)
    (hv : (extract_passport_number tbl d0 obs).passport_number = some v) :
    acceptPn v = true ∧
    ∃ src text, (src, text) ∈ obs ∧
      ∃ c ∈ allCandidates passportNumberPats text, v = normalizePn c := by
  induction obs with
  | nil =>
    simp only [extract_passport_number] at hv
    rw [h0] at hv
    cases hv
  | cons p rest ih =>
    cases p with
    | mk psrc ptext =>
      simp only [extract_passport_number] at hv
      cases hfa : pnFirstAccept (allCandidates passportNumberPats ptext) with
      | some n =>
        rw [hfa] at hv
        simp only at hv
        cases hv
        obtain ⟨ha, c, hc, hn⟩ := pnFirstAccept_spec _ _ hfa
        exact ⟨ha, psrc, ptext, by simp, c, hc, hn⟩
      | none =>
        rw [hfa] at hv
        obtain ⟨ha, src, text, hmem, hc⟩ := ih hv
        exact ⟨ha, src, text, by simp [hmem], hc⟩

/-- C5 witness: the amended theorem applied to the counterexample input
(the populated value `O123456789` passes the code's acceptance test and
is the code-normalization of the matched candidate `o123456789`). -/
theorem passport_number_accepted_language_witness :
    acceptPn (ofStr "O123456789") = true ∧
    ∃ src text,
      (src, text) ∈ [(ofStr "src", ofStr "o123456789")] ∧
      ∃ c ∈ allCandidates passportNumberPats text,
        (ofStr "O123456789") = normalizePn c :=
  passport_number_accepted_language [] initRec
    [(ofStr "src", ofStr "o123456789")] (ofStr "O123456789")
    (by decide) (by decide)

theorem mem_firstKeysAux (l : List Str) :
    ∀ (seen : List Str) (x : Str),
      x ∈ firstKeysAux l seen ↔ x ∈ l ∧ ¬ x ∈ seen := by
  induction l with
  | nil => simp [firstKeysAux]
  | cons a rest ih =>
    intro seen x
    by_cases ha : a ∈ seen
    · rw [firstKeysAux, if_pos ha, ih]
      constructor
      · rintro ⟨h1, h2⟩
        exact ⟨by simp [h1], h2⟩
      · rintro ⟨h1, h2⟩
        rcases List.mem_cons.mp h1 with rfl | h1
        · exact absurd ha h2
        · exact ⟨h1, h2⟩
    · rw [firstKeysAux, if_neg ha]
      by_cases hx : x = a
      · subst hx
        simp [ha]
      · rw [List.mem_cons, ih]
        simp only [List.mem_cons]
        constructor
        · rintro (rfl | ⟨h1, h2⟩)
          · exact ⟨Or.inl rfl, ha⟩
          · exact ⟨Or.inr h1, fun hs => h2 (Or.inr hs)⟩
        · rintro ⟨h1, h2⟩
          rcases h1 with rfl | h1
          · exact Or.inl rfl
          · exact Or.inr ⟨h1, fun hs =>
              hs.elim (fun h => hx h) (fun h => h2 h)⟩

theorem foldPick_spec (l : List Str) (ks : List Str) :
    ∀ k : Str,
      ∃ pre post,
        k :: ks = pre ++
          (ks.foldl (fun b x => if l.count x > l.count b then x else b) k)
          :: post ∧
        (∀ c ∈ pre, l.count c <
          l.count (ks.foldl
            (fun b x => if l.count x > l.count b then x else b) k)) ∧
        (∀ c ∈ k :: ks, l.count c ≤
          l.count (ks.foldl
            (fun b x => if l.count x > l.count b then x else b) k)) := by
  induction ks with
  | nil =>
    intro k
    exact ⟨[], [], rfl, by simp, by simp⟩
  | cons y rest ih =>
    intro k
    by_cases hy : l.count y > l.count k
    · have hstep : (y :: rest).foldl
          (fun b x => if l.count x > l.count b then x else b) k =
          rest.foldl (fun b x => if l.count x > l.count b then x else b) y := by
        simp [List.foldl_cons, if_pos hy]
      rw [hstep]
      obtain ⟨pre', post', hdec, hstrict, hmax⟩ := ih y
      have hyr : l.count k <
          l.count (rest.foldl
            (fun b x => if l.count x > l.count b then x else b) y) :=
        lt_of_lt_of_le hy (hmax y (by simp))
      cases pre' with
      | nil =>
        simp only [List.nil_append] at hdec
        refine ⟨[k], post', ?_, ?_, ?_⟩
        · rw [List.singleton_append, hdec]
        · intro c hc
          rcases List.mem_singleton.mp hc with rfl
          exact hyr
        · intro c hc
          rcases List.mem_cons.mp hc with rfl | hc2
          · exact le_of_lt hyr
          · exact hmax c hc2
      | cons p1 pre'' =>
        simp only [List.cons_append, List.cons.injEq] at hdec
        obtain ⟨hp1, htail⟩ := hdec
        rw [← hp1] at hstrict
        refine ⟨k :: y :: pre'', post', ?_, ?_, ?_⟩
        · simp only [List.cons_append]
          conv_lhs => rw [htail]
        · intro c hc
          rcases List.mem_cons.mp hc with rfl | hc2
          · exact hyr
          · exact hstrict c hc2
        · intro c hc
          rcases List.mem_cons.mp hc with rfl | hc2
          · exact le_of_lt hyr
          · exact hmax c hc2
    · have hstep : (y :: rest).foldl
          (fun b x => if l.count x > l.count b then x else b) k =
          rest.foldl (fun b x => if l.count x > l.count b then x else b) k := by
        simp [List.foldl_cons, if_neg hy]
      rw [hstep]
      obtain ⟨pre', post', hdec, hstrict, hmax⟩ := ih k
      have hyk : l.count y ≤ l.count k := by omega
      have hyr : l.count y ≤
          l.count (rest.foldl
            (fun b x => if l.count x > l.count b then x else b) k) :=
        le_trans hyk (hmax k (by simp))
      cases pre' with
      | nil =>
        simp only [List.nil_append, List.cons.injEq] at hdec
        obtain ⟨hk, htail⟩ := hdec
        refine ⟨[], y :: post', ?_, by simp, ?_⟩
        · simp only [List.nil_append]
          rw [← hk]
          conv_lhs => rw [htail]
        · intro c hc
          rcases List.mem_cons.mp hc with rfl | hc2
          · exact hmax c (by simp)
          · rcases List.mem_cons.mp hc2 with rfl | hc3
            · exact hyr
            · exact hmax c (by simp [hc3])
      | cons p1 pre'' =>
        simp only [List.cons_append, List.cons.injEq] at hdec
        obtain ⟨hp1, htail⟩ := hdec
        rw [← hp1] at hstrict
        refine ⟨k :: y :: pre'', post', ?_, ?_, ?_⟩
        · simp only [List.cons_append]
          conv_lhs => rw [htail]
        · intro c hc
          rcases List.mem_cons.mp hc with rfl | hc2
          · exact hstrict _ (List.mem_cons_self _ _)
          · rcases List.mem_cons.mp hc2 with rfl | hc3
            · have hks := hstrict k (List.mem_cons_self _ _)
              omega
            · exact hstrict c (by simp [hc3])
        · intro c hc
          rcases List.mem_cons.mp hc with rfl | hc2
          · exact hmax c (by simp)
          · rcases List.mem_cons.mp hc2 with rfl | hc3
            · exact hyr
            · exact hmax c (by simp [hc3])

/-- C6: when the place extractor has any surviving candidates, it returns
the most frequent exact candidate string with the method tag
`regex_candidate_selection`: the result is a candidate whose count is
maximal over all candidates, and among the keys in first-seen order
(`firstKeys`, the iteration order of the counting dictionary) every key
strictly before the result has a strictly smaller count — ties are
broken by first-seen order. -/
theorem place_majority_vote (labels : List String)
    (all_texts : List (Str × Str))
    (hne : ¬ placeCandidates labels all_texts = []) :
    ∃ mc,
      extract_place labels all_texts =
        some (mc, ofStr "regex_candidate_selection") ∧
      mc ∈ placeCandidates labels all_texts ∧
      (∀ c ∈ placeCandidates labels all_texts,
        (placeCandidates labels all_texts).count c ≤
          (placeCandidates labels all_texts).count mc) ∧
      ∃ pre post,
        firstKeys (placeCandidates labels all_texts) = pre ++ mc :: post ∧
        ∀ c ∈ pre,
          (placeCandidates labels all_texts).count c <
            (placeCandidates labels all_texts).count mc := by
  obtain ⟨x, xs, hx⟩ : ∃ x xs, placeCandidates labels all_texts = x :: xs := by
    cases hll : placeCandidates labels all_texts with
    | nil => exact absurd hll hne
    | cons a b => exact ⟨a, b, rfl⟩
  have hfk : firstKeys (placeCandidates labels all_texts) =
      x :: firstKeysAux xs [x] := by
    rw [hx]
    simp [firstKeys, firstKeysAux]
  obtain ⟨pre, post, hdec, hstrict, hmax⟩ :=
    foldPick_spec (placeCandidates labels all_texts) (firstKeysAux xs [x]) x
  refine ⟨(firstKeysAux xs [x]).foldl
    (fun b y => if (placeCandidates labels all_texts).count y >
      (placeCandidates labels all_texts).count b then y else b) x,
    ?_, ?_, ?_, pre, post, ?_, hstrict⟩
  · simp only [extract_place, mostCommon, hfk]
  · have hmem : (firstKeysAux xs [x]).foldl
        (fun b y => if (placeCandidates labels all_texts).count y >
          (placeCandidates labels all_texts).count b then y else b) x ∈
        x :: firstKeysAux xs [x] := by
      rw [hdec]
      exact List.mem_append_right _ (List.mem_cons_self _ _)
    rw [← hfk] at hmem
    exact ((mem_firstKeysAux _ _ _).mp hmem).1
  · intro c hc
    have hcfk : c ∈ firstKeys (placeCandidates labels all_texts) :=
      (mem_firstKeysAux _ _ _).mpr ⟨hc, by simp⟩
    rw [hfk] at hcfk
    exact hmax c hcfk
  · rw [hfk, hdec]

/-- C6 witness: three observations from which the place-of-issue labels
extract the candidates KHARTOUM, KHARTOUM, RIYADH; the majority-vote
theorem applies, and the concrete result is KHARTOUM with frequency 2
against 1. -/
theorem place_majority_vote_witness :
    ¬ placeCandidates poiLabels
      [(ofStr "o1", ofStr "Place of Issue: KHARTOUM"),
       (ofStr "o2", ofStr "Authority: KHARTOUM"),
       (ofStr "o3", ofStr "Place of Issue: RIYADH")] = [] ∧
    placeCandidates poiLabels
      [(ofStr "o1", ofStr "Place of Issue: KHARTOUM"),
       (ofStr "o2", ofStr "Authority: KHARTOUM"),
       (ofStr "o3", ofStr "Place of Issue: RIYADH")] =
      [ofStr "KHARTOUM", ofStr "KHARTOUM", ofStr "RIYADH"] ∧
    extract_place poiLabels
      [(ofStr "o1", ofStr "Place of Issue: KHARTOUM"),
       (ofStr "o2", ofStr "Authority: KHARTOUM"),
       (ofStr "o3", ofStr "Place of Issue: RIYADH")] =
      some (ofStr "KHARTOUM", ofStr "regex_candidate_selection") ∧
    ∃ mc,
      extract_place poiLabels
        [(ofStr "o1", ofStr "Place of Issue: KHARTOUM"),
         (ofStr "o2", ofStr "Authority: KHARTOUM"),
         (ofStr "o3", ofStr "Place of Issue: RIYADH")] =
        some (mc, ofStr "regex_candidate_selection") ∧
      mc ∈ placeCandidates poiLabels
        [(ofStr "o1", ofStr "Place of Issue: KHARTOUM"),
         (ofStr "o2", ofStr "Authority: KHARTOUM"),
         (ofStr "o3", ofStr "Place of Issue: RIYADH")] ∧
      (∀ c ∈ placeCandidates poiLabels
          [(ofStr "o1", ofStr "Place of Issue: KHARTOUM"),
           (ofStr "o2", ofStr "Authority: KHARTOUM"),
           (ofStr "o3", ofStr "Place of Issue: RIYADH")],
        (placeCandidates poiLabels
          [(ofStr "o1", ofStr "Place of Issue: KHARTOUM"),
           (ofStr "o2", ofStr "Authority: KHARTOUM"),
           (ofStr "o3", ofStr "Place of Issue: RIYADH")]).count c ≤
          (placeCandidates poiLabels
            [(ofStr "o1", ofStr "Place of Issue: KHARTOUM"),
             (ofStr "o2", ofStr "Authority: KHARTOUM"),
             (ofStr "o3", ofStr "Place of Issue: RIYADH")]).count mc) ∧
      ∃ pre post,
        firstKeys (placeCandidates poiLabels
          [(ofStr "o1", ofStr "Place of Issue: KHARTOUM"),
           (ofStr "o2", ofStr "Authority: KHARTOUM"),
           (ofStr "o3", ofStr "Place of Issue: RIYADH")]) =
          pre ++ mc :: post ∧
        ∀ c ∈ pre,
          (placeCandidates poiLabels
            [(ofStr "o1", ofStr "Place of Issue: KHARTOUM"),
             (ofStr "o2", ofStr "Authority: KHARTOUM"),
             (ofStr "o3", ofStr "Place of Issue: RIYADH")]).count c <
            (placeCandidates poiLabels
              [(ofStr "o1", ofStr "Place of Issue: KHARTOUM"),
               (ofStr "o2", ofStr "Authority: KHARTOUM"),
               (ofStr "o3", ofStr "Place of Issue: RIYADH")]).count mc :=
  ⟨by decide, by decide, by decide,
    place_majority_vote poiLabels
      [(ofStr "o1", ofStr "Place of Issue: KHARTOUM"),
       (ofStr "o2", ofStr "Authority: KHARTOUM"),
       (ofStr "o3", ofStr "Place of Issue: RIYADH")] (by decide)⟩

theorem fuseStep_F_frame {α : Type} (mconf : ℚ) (mmeth : Str) (key : String)
    (mval : Option Str) (get : Rec → Option Str)
    (set : Rec → Option Str → Rec) (F : Rec → α)
    (hFset : ∀ r v, F (set r v) = F r)
    (hFmaps : ∀ r c e,
      F { r with confidence_scores := c, extraction_method := e } = F r)
    (d : Rec) :
    F (fuseStep mconf mmeth key mval get set d) = F d := by
  unfold fuseStep
  split_ifs
  · rw [hFmaps, hFset]
  · rfl
  · rfl

theorem fuseStep_conf_frame (mconf : ℚ) (mmeth : Str) (key : String)
    (mval : Option Str) (get : Rec → Option Str)
    (set : Rec → Option Str → Rec) (key' : String)
    (hconf : ∀ r v, (set r v).confidence_scores = r.confidence_scores)
    (hk : ¬ key = key') (d : Rec) :
    getKV (fuseStep mconf mmeth key mval get set d).confidence_scores key' =
      getKV d.confidence_scores key' := by
  unfold fuseStep
  split_ifs
  · show getKV (setKV (set d mval).confidence_scores key mconf) key' = _
    rw [getKV_setKV_ne _ _ _ _ hk, hconf]
  · rfl
  · rfl

theorem fuseStep_meth_frame (mconf : ℚ) (mmeth : Str) (key : String)
    (mval : Option Str) (get : Rec → Option Str)
    (set : Rec → Option Str → Rec) (key' : String)
    (hmeth : ∀ r v, (set r v).extraction_method = r.extraction_method)
    (hk : ¬ key = key') (d : Rec) :
    getKV (fuseStep mconf mmeth key mval get set d).extraction_method key' =
      getKV d.extraction_method key' := by
  unfold fuseStep
  split_ifs
  · show getKV (setKV (set d mval).extraction_method key mmeth) key' = _
    rw [getKV_setKV_ne _ _ _ _ hk, hmeth]
  · rfl
  · rfl

theorem fuseStep_self (mconf : ℚ) (mmeth : Str) (key : String)
    (mval : Option Str) (get : Rec → Option Str)
    (set : Rec → Option Str → Rec) (d : Rec)
    (hgs : ∀ r v, get (set r v) = v)
    (hgm : ∀ r c e,
      get { r with confidence_scores := c, extraction_method := e } = get r)
    (htr : truthy mval = true) :
    ((¬ truthy (get d) = true ∨
        mconf > (getKV d.confidence_scores key).getD 0) →
      get (fuseStep mconf mmeth key mval get set d) = mval ∧
      getKV (fuseStep mconf mmeth key mval get set d).confidence_scores
        key = some mconf ∧
      getKV (fuseStep mconf mmeth key mval get set d).extraction_method
        key = some mmeth) ∧
    (¬ (¬ truthy (get d) = true ∨
        mconf > (getKV d.confidence_scores key).getD 0) →
      fuseStep mconf mmeth key mval get set d = d) := by
  unfold fuseStep
  rw [if_pos htr]
  constructor
  · intro hcond
    rw [if_pos hcond]
    refine ⟨?_, ?_, ?_⟩
    · rw [hgm, hgs]
    · show getKV (setKV (set d mval).confidence_scores key mconf) key =
        some mconf
      rw [getKV_setKV_self]
    · show getKV (setKV (set d mval).extraction_method key mmeth) key =
        some mmeth
      rw [getKV_setKV_self]
  · intro hcond
    rw [if_neg hcond]

theorem applySteps_cons (m : MRZRec) (st : FStep) (rest : List FStep)
    (d : Rec) :
    applySteps m (st :: rest) d = applySteps m rest
      (fuseStep m.mrz_confidence m.extraction_method st.key (st.mval m)
        st.get st.set d) := rfl

theorem applySteps_append (m : MRZRec) (a b : List FStep) (d : Rec) :
    applySteps m (a ++ b) d = applySteps m b (applySteps m a d) := by
  unfold applySteps
  rw [List.foldl_append]

theorem applySteps_F_frame {α : Type} (m : MRZRec) (steps : List FStep)
    (F : Rec → α)
    (hFmaps : ∀ r c e,
      F { r with confidence_scores := c, extraction_method := e } = F r)
    (h : ∀ st ∈ steps, ∀ r v, F (st.set r v) = F r) :
    ∀ d, F (applySteps m steps d) = F d := by
  induction steps with
  | nil => intro d; rfl
  | cons st rest ih =>
    intro d
    rw [applySteps_cons, ih (fun s hs => h s (by simp [hs])),
      fuseStep_F_frame _ _ _ _ _ _ _ (h st (by simp)) hFmaps]

theorem applySteps_conf_frame (m : MRZRec) (steps : List FStep)
    (key' : String)
    (h : ∀ st ∈ steps,
      (∀ r v, (st.set r v).confidence_scores = r.confidence_scores) ∧
      ¬ st.key = key') :
    ∀ d, getKV (applySteps m steps d).confidence_scores key' =
      getKV d.confidence_scores key' := by
  induction steps with
  | nil => intro d; rfl
  | cons st rest ih =>
    intro d
    rw [applySteps_cons, ih (fun s hs => h s (by simp [hs])),
      fuseStep_conf_frame _ _ _ _ _ _ _ (h st (by simp)).1
        (h st (by simp)).2]

theorem applySteps_meth_frame (m : MRZRec) (steps : List FStep)
    (key' : String)
    (h : ∀ st ∈ steps,
      (∀ r v, (st.set r v).extraction_method = r.extraction_method) ∧
      ¬ st.key = key') :
    ∀ d, getKV (applySteps m steps d).extraction_method key' =
      getKV d.extraction_method key' := by
  induction steps with
  | nil => intro d; rfl
  | cons st rest ih =>
    intro d
    rw [applySteps_cons, ih (fun s hs => h s (by simp [hs])),
      fuseStep_meth_frame _ _ _ _ _ _ _ (h st (by simp)).1
        (h st (by simp)).2]

/-- C7: for each entry of the fusion field mapping whose MRZ value is
non-empty, the record field is overridden exactly when it is currently
empty or the MRZ confidence exceeds the field's recorded confidence
(0 when none is recorded); on override the field takes the MRZ value and
its confidence and method entries take the MRZ confidence and method
tag; on no-override the field's value and confidence entry are
unchanged. -/
theorem mrz_fusion_override_rule (d : Rec) (m : MRZRec) (st : FStep)
    (hmem : st ∈ field_mapping) (htr : truthy (st.mval m) = true) :
    ((¬ truthy (st.get d) = true ∨
        m.mrz_confidence > (getKV d.confidence_scores st.key).getD 0) →
      st.get (enhance_extraction_with_mrz d m) = st.mval m ∧
      getKV (enhance_extraction_with_mrz d m).confidence_scores st.key =
        some m.mrz_confidence ∧
      getKV (enhance_extraction_with_mrz d m).extraction_method st.key =
        some m.extraction_method) ∧
    (¬ (¬ truthy (st.get d) = true ∨
        m.mrz_confidence > (getKV d.confidence_scores st.key).getD 0) →
      st.get (enhance_extraction_with_mrz d m) = st.get d ∧
      getKV (enhance_extraction_with_mrz d m).confidence_scores st.key =
        getKV d.confidence_scores st.key) := by
  simp only [field_mapping, List.mem_cons, List.not_mem_nil, or_false]
    at hmem
  rcases hmem with rfl | rfl | rfl | rfl | rfl | rfl | rfl
  · have hXg : (applySteps m ([] : List FStep) d).passport_number = d.passport_number :=
      applySteps_F_frame m ([] : List FStep) (fun r => r.passport_number)
        (fun r c e => rfl)
        (by
          intro s hs
          exact absurd hs (List.not_mem_nil s)) d
    have hXc : getKV (applySteps m ([] : List FStep) d).confidence_scores
        "passport_number" = getKV d.confidence_scores "passport_number" :=
      applySteps_conf_frame m ([] : List FStep) "passport_number"
        (by
          intro s hs
          exact absurd hs (List.not_mem_nil s)) d
    have hdecomp : applySteps m field_mapping d =
        applySteps m [⟨"nationality", (·.nationality), (·.nationality), fun r v => { r with nationality := v }⟩,
          ⟨"date_of_birth", (·.date_of_birth), (·.date_of_birth), fun r v => { r with date_of_birth := v }⟩,
          ⟨"date_of_expiry", (·.date_of_expiry), (·.date_of_expiry), fun r v => { r with date_of_expiry := v }⟩,
          ⟨"sex", (·.sex), (·.sex), fun r v => { r with sex := v }⟩,
          ⟨"full_name", (·.names), (·.full_name), fun r v => { r with full_name := v }⟩,
          ⟨"country_code", (·.issuing_country), (·.country_code), fun r v => { r with country_code := v }⟩]
          (fuseStep m.mrz_confidence m.extraction_method "passport_number"
            m.passport_number (fun r => r.passport_number)
            (fun r v => { r with passport_number := v })
            (applySteps m ([] : List FStep) d)) := rfl
    have hself := fuseStep_self m.mrz_confidence m.extraction_method
      "passport_number" m.passport_number (fun r => r.passport_number)
      (fun r v => { r with passport_number := v })
      (applySteps m ([] : List FStep) d) (fun r v => rfl) (fun r c e => rfl) htr
    have hPg : ∀ dd : Rec, (applySteps m [⟨"nationality", (·.nationality), (·.nationality), fun r v => { r with nationality := v }⟩,
          ⟨"date_of_birth", (·.date_of_birth), (·.date_of_birth), fun r v => { r with date_of_birth := v }⟩,
          ⟨"date_of_expiry", (·.date_of_expiry), (·.date_of_expiry), fun r v => { r with date_of_expiry := v }⟩,
          ⟨"sex", (·.sex), (·.sex), fun r v => { r with sex := v }⟩,
          ⟨"full_name", (·.names), (·.full_name), fun r v => { r with full_name := v }⟩,
          ⟨"country_code", (·.issuing_country), (·.country_code), fun r v => { r with country_code := v }⟩] dd).passport_number = dd.passport_number :=
      applySteps_F_frame m [⟨"nationality", (·.nationality), (·.nationality), fun r v => { r with nationality := v }⟩,
          ⟨"date_of_birth", (·.date_of_birth), (·.date_of_birth), fun r v => { r with date_of_birth := v }⟩,
          ⟨"date_of_expiry", (·.date_of_expiry), (·.date_of_expiry), fun r v => { r with date_of_expiry := v }⟩,
          ⟨"sex", (·.sex), (·.sex), fun r v => { r with sex := v }⟩,
          ⟨"full_name", (·.names), (·.full_name), fun r v => { r with full_name := v }⟩,
          ⟨"country_code", (·.issuing_country), (·.country_code), fun r v => { r with country_code := v }⟩] (fun r => r.passport_number)
        (fun r c e => rfl)
        (by
          intro s hs
          simp only [List.mem_cons, List.not_mem_nil, or_false] at hs
          rcases hs with rfl | rfl | rfl | rfl | rfl | rfl <;> exact fun r v => rfl)
    have hPc : ∀ dd : Rec, getKV (applySteps m [⟨"nationality", (·.nationality), (·.nationality), fun r v => { r with nationality := v }⟩,
          ⟨"date_of_birth", (·.date_of_birth), (·.date_of_birth), fun r v => { r with date_of_birth := v }⟩,
          ⟨"date_of_expiry", (·.date_of_expiry), (·.date_of_expiry), fun r v => { r with date_of_expiry := v }⟩,
          ⟨"sex", (·.sex), (·.sex), fun r v => { r with sex := v }⟩,
          ⟨"full_name", (·.names), (·.full_name), fun r v => { r with full_name := v }⟩,
          ⟨"country_code", (·.issuing_country), (·.country_code), fun r v => { r with country_code := v }⟩]
        dd).confidence_scores "passport_number" = getKV dd.confidence_scores "passport_number" :=
      applySteps_conf_frame m [⟨"nationality", (·.nationality), (·.nationality), fun r v => { r with nationality := v }⟩,
          ⟨"date_of_birth", (·.date_of_birth), (·.date_of_birth), fun r v => { r with date_of_birth := v }⟩,
          ⟨"date_of_expiry", (·.date_of_expiry), (·.date_of_expiry), fun r v => { r with date_of_expiry := v }⟩,
          ⟨"sex", (·.sex), (·.sex), fun r v => { r with sex := v }⟩,
          ⟨"full_name", (·.names), (·.full_name), fun r v => { r with full_name := v }⟩,
          ⟨"country_code", (·.issuing_country), (·.country_code), fun r v => { r with country_code := v }⟩] "passport_number"
        (by
          intro s hs
          simp only [List.mem_cons, List.not_mem_nil, or_false] at hs
          rcases hs with rfl | rfl | rfl | rfl | rfl | rfl <;> exact ⟨fun r v => rfl, by decide⟩)
    have hPm : ∀ dd : Rec, getKV (applySteps m [⟨"nationality", (·.nationality), (·.nationality), fun r v => { r with nationality := v }⟩,
          ⟨"date_of_birth", (·.date_of_birth), (·.date_of_birth), fun r v => { r with date_of_birth := v }⟩,
          ⟨"date_of_expiry", (·.date_of_expiry), (·.date_of_expiry), fun r v => { r with date_of_expiry := v }⟩,
          ⟨"sex", (·.sex), (·.sex), fun r v => { r with sex := v }⟩,
          ⟨"full_name", (·.names), (·.full_name), fun r v => { r with full_name := v }⟩,
          ⟨"country_code", (·.issuing_country), (·.country_code), fun r v => { r with country_code := v }⟩]
        dd).extraction_method "passport_number" = getKV dd.extraction_method "passport_number" :=
      applySteps_meth_frame m [⟨"nationality", (·.nationality), (·.nationality), fun r v => { r with nationality := v }⟩,
          ⟨"date_of_birth", (·.date_of_birth), (·.date_of_birth), fun r v => { r with date_of_birth := v }⟩,
          ⟨"date_of_expiry", (·.date_of_expiry), (·.date_of_expiry), fun r v => { r with date_of_expiry := v }⟩,
          ⟨"sex", (·.sex), (·.sex), fun r v => { r with sex := v }⟩,
          ⟨"full_name", (·.names), (·.full_name), fun r v => { r with full_name := v }⟩,
          ⟨"country_code", (·.issuing_country), (·.country_code), fun r v => { r with country_code := v }⟩] "passport_number"
        (by
          intro s hs
          simp only [List.mem_cons, List.not_mem_nil, or_false] at hs
          rcases hs with rfl | rfl | rfl | rfl | rfl | rfl <;> exact ⟨fun r v => rfl, by decide⟩)
    constructor
    · intro hcond
      have hcondX : ¬ truthy ((applySteps m ([] : List FStep) d).passport_number) = true ∨
          m.mrz_confidence > (getKV (applySteps m ([] : List FStep)
            d).confidence_scores "passport_number").getD 0 := by
        rw [hXg, hXc]
        exact hcond
      obtain ⟨hg, hc, hm2⟩ := hself.1 hcondX
      refine ⟨?_, ?_, ?_⟩
      · show (applySteps m field_mapping d).passport_number = m.passport_number
        rw [hdecomp, hPg]
        exact hg
      · show getKV (applySteps m field_mapping d).confidence_scores
          "passport_number" = some m.mrz_confidence
        rw [hdecomp, hPc]
        exact hc
      · show getKV (applySteps m field_mapping d).extraction_method
          "passport_number" = some m.extraction_method
        rw [hdecomp, hPm]
        exact hm2
    · intro hcond
      have hcondX : ¬ (¬ truthy ((applySteps m ([] : List FStep) d).passport_number) = true ∨
          m.mrz_confidence > (getKV (applySteps m ([] : List FStep)
            d).confidence_scores "passport_number").getD 0) := by
        rw [hXg, hXc]
        exact hcond
      have hfix := hself.2 hcondX
      refine ⟨?_, ?_⟩
      · show (applySteps m field_mapping d).passport_number = d.passport_number
        rw [hdecomp, hfix, hPg, hXg]
      · show getKV (applySteps m field_mapping d).confidence_scores
          "passport_number" = getKV d.confidence_scores "passport_number"
        rw [hdecomp, hfix, hPc, hXc]
  · have hXg : (applySteps m [⟨"passport_number", (·.passport_number), (·.passport_number), fun r v => { r with passport_number := v }⟩] d).nationality = d.nationality :=
      applySteps_F_frame m [⟨"passport_number", (·.passport_number), (·.passport_number), fun r v => { r with passport_number := v }⟩] (fun r => r.nationality)
        (fun r c e => rfl)
        (by
          intro s hs
          simp only [List.mem_cons, List.not_mem_nil, or_false] at hs
          rcases hs with rfl <;> exact fun r v => rfl) d
    have hXc : getKV (applySteps m [⟨"passport_number", (·.passport_number), (·.passport_number), fun r v => { r with passport_number := v }⟩] d).confidence_scores
        "nationality" = getKV d.confidence_scores "nationality" :=
      applySteps_conf_frame m [⟨"passport_number", (·.passport_number), (·.passport_number), fun r v => { r with passport_number := v }⟩] "nationality"
        (by
          intro s hs
          simp only [List.mem_cons, List.not_mem_nil, or_false] at hs
          rcases hs with rfl <;> exact ⟨fun r v => rfl, by decide⟩) d
    have hdecomp : applySteps m field_mapping d =
        applySteps m [⟨"date_of_birth", (·.date_of_birth), (·.date_of_birth), fun r v => { r with date_of_birth := v }⟩,
          ⟨"date_of_expiry", (·.date_of_expiry), (·.date_of_expiry), fun r v => { r with date_of_expiry := v }⟩,
          ⟨"sex", (·.sex), (·.sex), fun r v => { r with sex := v }⟩,
          ⟨"full_name", (·.names), (·.full_name), fun r v => { r with full_name := v }⟩,
          ⟨"country_code", (·.issuing_country), (·.country_code), fun r v => { r with country_code := v }⟩]
          (fuseStep m.mrz_confidence m.extraction_method "nationality"
            m.nationality (fun r => r.nationality)
            (fun r v => { r with nationality := v })
            (applySteps m [⟨"passport_number", (·.passport_number), (·.passport_number), fun r v => { r with passport_number := v }⟩] d)) := rfl
    have hself := fuseStep_self m.mrz_confidence m.extraction_method
      "nationality" m.nationality (fun r => r.nationality)
      (fun r v => { r with nationality := v })
      (applySteps m [⟨"passport_number", (·.passport_number), (·.passport_number), fun r v => { r with passport_number := v }⟩] d) (fun r v => rfl) (fun r c e => rfl) htr
    have hPg : ∀ dd : Rec, (applySteps m [⟨"date_of_birth", (·.date_of_birth), (·.date_of_birth), fun r v => { r with date_of_birth := v }⟩,
          ⟨"date_of_expiry", (·.date_of_expiry), (·.date_of_expiry), fun r v => { r with date_of_expiry := v }⟩,
          ⟨"sex", (·.sex), (·.sex), fun r v => { r with sex := v }⟩,
          ⟨"full_name", (·.names), (·.full_name), fun r v => { r with full_name := v }⟩,
          ⟨"country_code", (·.issuing_country), (·.country_code), fun r v => { r with country_code := v }⟩] dd).nationality = dd.nationality :=
      applySteps_F_frame m [⟨"date_of_birth", (·.date_of_birth), (·.date_of_birth), fun r v => { r with date_of_birth := v }⟩,
          ⟨"date_of_expiry", (·.date_of_expiry), (·.date_of_expiry), fun r v => { r with date_of_expiry := v }⟩,
          ⟨"sex", (·.sex), (·.sex), fun r v => { r with sex := v }⟩,
          ⟨"full_name", (·.names), (·.full_name), fun r v => { r with full_name := v }⟩,
          ⟨"country_code", (·.issuing_country), (·.country_code), fun r v => { r with country_code := v }⟩] (fun r => r.nationality)
        (fun r c e => rfl)
        (by
          intro s hs
          simp only [List.mem_cons, List.not_mem_nil, or_false] at hs
          rcases hs with rfl | rfl | rfl | rfl | rfl <;> exact fun r v => rfl)
    have hPc : ∀ dd : Rec, getKV (applySteps m [⟨"date_of_birth", (·.date_of_birth), (·.date_of_birth), fun r v => { r with date_of_birth := v }⟩,
          ⟨"date_of_expiry", (·.date_of_expiry), (·.date_of_expiry), fun r v => { r with date_of_expiry := v }⟩,
          ⟨"sex", (·.sex), (·.sex), fun r v => { r with sex := v }⟩,
          ⟨"full_name", (·.names), (·.full_name), fun r v => { r with full_name := v }⟩,
          ⟨"country_code", (·.issuing_country), (·.country_code), fun r v => { r with country_code := v }⟩]
        dd).confidence_scores "nationality" = getKV dd.confidence_scores "nationality" :=
      applySteps_conf_frame m [⟨"date_of_birth", (·.date_of_birth), (·.date_of_birth), fun r v => { r with date_of_birth := v }⟩,
          ⟨"date_of_expiry", (·.date_of_expiry), (·.date_of_expiry), fun r v => { r with date_of_expiry := v }⟩,
          ⟨"sex", (·.sex), (·.sex), fun r v => { r with sex := v }⟩,
          ⟨"full_name", (·.names), (·.full_name), fun r v => { r with full_name := v }⟩,
          ⟨"country_code", (·.issuing_country), (·.country_code), fun r v => { r with country_code := v }⟩] "nationality"
        (by
          intro s hs
          simp only [List.mem_cons, List.not_mem_nil, or_false] at hs
          rcases hs with rfl | rfl | rfl | rfl | rfl <;> exact ⟨fun r v => rfl, by decide⟩)
    have hPm : ∀ dd : Rec, getKV (applySteps m [⟨"date_of_birth", (·.date_of_birth), (·.date_of_birth), fun r v => { r with date_of_birth := v }⟩,
          ⟨"date_of_expiry", (·.date_of_expiry), (·.date_of_expiry), fun r v => { r with date_of_expiry := v }⟩,
          ⟨"sex", (·.sex), (·.sex), fun r v => { r with sex := v }⟩,
          ⟨"full_name", (·.names), (·.full_name), fun r v => { r with full_name := v }⟩,
          ⟨"country_code", (·.issuing_country), (·.country_code), fun r v => { r with country_code := v }⟩]
        dd).extraction_method "nationality" = getKV dd.extraction_method "nationality" :=
      applySteps_meth_frame m [⟨"date_of_birth", (·.date_of_birth), (·.date_of_birth), fun r v => { r with date_of_birth := v }⟩,
          ⟨"date_of_expiry", (·.date_of_expiry), (·.date_of_expiry), fun r v => { r with date_of_expiry := v }⟩,
          ⟨"sex", (·.sex), (·.sex), fun r v => { r with sex := v }⟩,
          ⟨"full_name", (·.names), (·.full_name), fun r v => { r with full_name := v }⟩,
          ⟨"country_code", (·.issuing_country), (·.country_code), fun r v => { r with country_code := v }⟩] "nationality"
        (by
          intro s hs
          simp only [List.mem_cons, List.not_mem_nil, or_false] at hs
          rcases hs with rfl | rfl | rfl | rfl | rfl <;> exact ⟨fun r v => rfl, by decide⟩)
    constructor
    · intro hcond
      have hcondX : ¬ truthy ((applySteps m [⟨"passport_number", (·.passport_number), (·.passport_number), fun r v => { r with passport_number := v }⟩] d).nationality) = true ∨
          m.mrz_confidence > (getKV (applySteps m [⟨"passport_number", (·.passport_number), (·.passport_number), fun r v => { r with passport_number := v }⟩]
            d).confidence_scores "nationality").getD 0 := by
        rw [hXg, hXc]
        exact hcond
      obtain ⟨hg, hc, hm2⟩ := hself.1 hcondX
      refine ⟨?_, ?_, ?_⟩
      · show (applySteps m field_mapping d).nationality = m.nationality
        rw [hdecomp, hPg]
        exact hg
      · show getKV (applySteps m field_mapping d).confidence_scores
          "nationality" = some m.mrz_confidence
        rw [hdecomp, hPc]
        exact hc
      · show getKV (applySteps m field_mapping d).extraction_method
          "nationality" = some m.extraction_method
        rw [hdecomp, hPm]
        exact hm2
    · intro hcond
      have hcondX : ¬ (¬ truthy ((applySteps m [⟨"passport_number", (·.passport_number), (·.passport_number), fun r v => { r with passport_number := v }⟩] d).nationality) = true ∨
          m.mrz_confidence > (getKV (applySteps m [⟨"passport_number", (·.passport_number), (·.passport_number), fun r v => { r with passport_number := v }⟩]
            d).confidence_scores "nationality").getD 0) := by
        rw [hXg, hXc]
        exact hcond
      have hfix := hself.2 hcondX
      refine ⟨?_, ?_⟩
      · show (applySteps m field_mapping d).nationality = d.nationality
        rw [hdecomp, hfix, hPg, hXg]
      · show getKV (applySteps m field_mapping d).confidence_scores
          "nationality" = getKV d.confidence_scores "nationality"
        rw [hdecomp, hfix, hPc, hXc]
  · have hXg : (applySteps m [⟨"passport_number", (·.passport_number), (·.passport_number), fun r v => { r with passport_number := v }⟩,
          ⟨"nationality", (·.nationality), (·.nationality), fun r v => { r with nationality := v }⟩] d).date_of_birth = d.date_of_birth :=
      applySteps_F_frame m [⟨"passport_number", (·.passport_number), (·.passport_number), fun r v => { r with passport_number := v }⟩,
          ⟨"nationality", (·.nationality), (·.nationality), fun r v => { r with nationality := v }⟩] (fun r => r.date_of_birth)
        (fun r c e => rfl)
        (by
          intro s hs
          simp only [List.mem_cons, List.not_mem_nil, or_false] at hs
          rcases hs with rfl | rfl <;> exact fun r v => rfl) d
    have hXc : getKV (applySteps m [⟨"passport_number", (·.passport_number), (·.passport_number), fun r v => { r with passport_number := v }⟩,
          ⟨"nationality", (·.nationality), (·.nationality), fun r v => { r with nationality := v }⟩] d).confidence_scores
        "date_of_birth" = getKV d.confidence_scores "date_of_birth" :=
      applySteps_conf_frame m [⟨"passport_number", (·.passport_number), (·.passport_number), fun r v => { r with passport_number := v }⟩,
          ⟨"nationality", (·.nationality), (·.nationality), fun r v => { r with nationality := v }⟩] "date_of_birth"
        (by
          intro s hs
          simp only [List.mem_cons, List.not_mem_nil, or_false] at hs
          rcases hs with rfl | rfl <;> exact ⟨fun r v => rfl, by decide⟩) d
    have hdecomp : applySteps m field_mapping d =
        applySteps m [⟨"date_of_expiry", (·.date_of_expiry), (·.date_of_expiry), fun r v => { r with date_of_expiry := v }⟩,
          ⟨"sex", (·.sex), (·.sex), fun r v => { r with sex := v }⟩,
          ⟨"full_name", (·.names), (·.full_name), fun r v => { r with full_name := v }⟩,
          ⟨"country_code", (·.issuing_country), (·.country_code), fun r v => { r with country_code := v }⟩]
          (fuseStep m.mrz_confidence m.extraction_method "date_of_birth"
            m.date_of_birth (fun r => r.date_of_birth)
            (fun r v => { r with date_of_birth := v })
            (applySteps m [⟨"passport_number", (·.passport_number), (·.passport_number), fun r v => { r with passport_number := v }⟩,
          ⟨"nationality", (·.nationality), (·.nationality), fun r v => { r with nationality := v }⟩] d)) := rfl
    have hself := fuseStep_self m.mrz_confidence m.extraction_method
      "date_of_birth" m.date_of_birth (fun r => r.date_of_birth)
      (fun r v => { r with date_of_birth := v })
      (applySteps m [⟨"passport_number", (·.passport_number), (·.passport_number), fun r v => { r with passport_number := v }⟩,
          ⟨"nationality", (·.nationality), (·.nationality), fun r v => { r with nationality := v }⟩] d) (fun r v => rfl) (fun r c e => rfl) htr
    have hPg : ∀ dd : Rec, (applySteps m [⟨"date_of_expiry", (·.date_of_expiry), (·.date_of_expiry), fun r v => { r with date_of_expiry := v }⟩,
          ⟨"sex", (·.sex), (·.sex), fun r v => { r with sex := v }⟩,
          ⟨"full_name", (·.names), (·.full_name), fun r v => { r with full_name := v }⟩,
          ⟨"country_code", (·.issuing_country), (·.country_code), fun r v => { r with country_code := v }⟩] dd).date_of_birth = dd.date_of_birth :=
      applySteps_F_frame m [⟨"date_of_expiry", (·.date_of_expiry), (·.date_of_expiry), fun r v => { r with date_of_expiry := v }⟩,
          ⟨"sex", (·.sex), (·.sex), fun r v => { r with sex := v }⟩,
          ⟨"full_name", (·.names), (·.full_name), fun r v => { r with full_name := v }⟩,
          ⟨"country_code", (·.issuing_country), (·.country_code), fun r v => { r with country_code := v }⟩] (fun r => r.date_of_birth)
        (fun r c e => rfl)
        (by
          intro s hs
          simp only [List.mem_cons, List.not_mem_nil, or_false] at hs
          rcases hs with rfl | rfl | rfl | rfl <;> exact fun r v => rfl)
    have hPc : ∀ dd : Rec, getKV (applySteps m [⟨"date_of_expiry", (·.date_of_expiry), (·.date_of_expiry), fun r v => { r with date_of_expiry := v }⟩,
          ⟨"sex", (·.sex), (·.sex), fun r v => { r with sex := v }⟩,
          ⟨"full_name", (·.names), (·.full_name), fun r v => { r with full_name := v }⟩,
          ⟨"country_code", (·.issuing_country), (·.country_code), fun r v => { r with country_code := v }⟩]
        dd).confidence_scores "date_of_birth" = getKV dd.confidence_scores "date_of_birth" :=
      applySteps_conf_frame m [⟨"date_of_expiry", (·.date_of_expiry), (·.date_of_expiry), fun r v => { r with date_of_expiry := v }⟩,
          ⟨"sex", (·.sex), (·.sex), fun r v => { r with sex := v }⟩,
          ⟨"full_name", (·.names), (·.full_name), fun r v => { r with full_name := v }⟩,
          ⟨"country_code", (·.issuing_country), (·.country_code), fun r v => { r with country_code := v }⟩] "date_of_birth"
        (by
          intro s hs
          simp only [List.mem_cons, List.not_mem_nil, or_false] at hs
          rcases hs with rfl | rfl | rfl | rfl <;> exact ⟨fun r v => rfl, by decide⟩)
    have hPm : ∀ dd : Rec, getKV (applySteps m [⟨"date_of_expiry", (·.date_of_expiry), (·.date_of_expiry), fun r v => { r with date_of_expiry := v }⟩,
          ⟨"sex", (·.sex), (·.sex), fun r v => { r with sex := v }⟩,
          ⟨"full_name", (·.names), (·.full_name), fun r v => { r with full_name := v }⟩,
          ⟨"country_code", (·.issuing_country), (·.country_code), fun r v => { r with country_code := v }⟩]
        dd).extraction_method "date_of_birth" = getKV dd.extraction_method "date_of_birth" :=
      applySteps_meth_frame m [⟨"date_of_expiry", (·.date_of_expiry), (·.date_of_expiry), fun r v => { r with date_of_expiry := v }⟩,
          ⟨"sex", (·.sex), (·.sex), fun r v => { r with sex := v }⟩,
          ⟨"full_name", (·.names), (·.full_name), fun r v => { r with full_name := v }⟩,
          ⟨"country_code", (·.issuing_country), (·.country_code), fun r v => { r with country_code := v }⟩] "date_of_birth"
        (by
          intro s hs
          simp only [List.mem_cons, List.not_mem_nil, or_false] at hs
          rcases hs with rfl | rfl | rfl | rfl <;> exact ⟨fun r v => rfl, by decide⟩)
    constructor
    · intro hcond
      have hcondX : ¬ truthy ((applySteps m [⟨"passport_number", (·.passport_number), (·.passport_number), fun r v => { r with passport_number := v }⟩,
          ⟨"nationality", (·.nationality), (·.nationality), fun r v => { r with nationality := v }⟩] d).date_of_birth) = true ∨
          m.mrz_confidence > (getKV (applySteps m [⟨"passport_number", (·.passport_number), (·.passport_number), fun r v => { r with passport_number := v }⟩,
          ⟨"nationality", (·.nationality), (·.nationality), fun r v => { r with nationality := v }⟩]
            d).confidence_scores "date_of_birth").getD 0 := by
        rw [hXg, hXc]
        exact hcond
      obtain ⟨hg, hc, hm2⟩ := hself.1 hcondX
      refine ⟨?_, ?_, ?_⟩
      · show (applySteps m field_mapping d).date_of_birth = m.date_of_birth
        rw [hdecomp, hPg]
        exact hg
      · show getKV (applySteps m field_mapping d).confidence_scores
          "date_of_birth" = some m.mrz_confidence
        rw [hdecomp, hPc]
        exact hc
      · show getKV (applySteps m field_mapping d).extraction_method
          "date_of_birth" = some m.extraction_method
        rw [hdecomp, hPm]
        exact hm2
    · intro hcond
      have hcondX : ¬ (¬ truthy ((applySteps m [⟨"passport_number", (·.passport_number), (·.passport_number), fun r v => { r with passport_number := v }⟩,
          ⟨"nationality", (·.nationality), (·.nationality), fun r v => { r with nationality := v }⟩] d).date_of_birth) = true ∨
          m.mrz_confidence > (getKV (applySteps m [⟨"passport_number", (·.passport_number), (·.passport_number), fun r v => { r with passport_number := v }⟩,
          ⟨"nationality", (·.nationality), (·.nationality), fun r v => { r with nationality := v }⟩]
            d).confidence_scores "date_of_birth").getD 0) := by
        rw [hXg, hXc]
        exact hcond
      have hfix := hself.2 hcondX
      refine ⟨?_, ?_⟩
      · show (applySteps m field_mapping d).date_of_birth = d.date_of_birth
        rw [hdecomp, hfix, hPg, hXg]
      · show getKV (applySteps m field_mapping d).confidence_scores
          "date_of_birth" = getKV d.confidence_scores "date_of_birth"
        rw [hdecomp, hfix, hPc, hXc]
  · have hXg : (applySteps m [⟨"passport_number", (·.passport_number), (·.passport_number), fun r v => { r with passport_number := v }⟩,
          ⟨"nationality", (·.nationality), (·.nationality), fun r v => { r with nationality := v }⟩,
          ⟨"date_of_birth", (·.date_of_birth), (·.date_of_birth), fun r v => { r with date_of_birth := v }⟩] d).date_of_expiry = d.date_of_expiry :=
      applySteps_F_frame m [⟨"passport_number", (·.passport_number), (·.passport_number), fun r v => { r with passport_number := v }⟩,
          ⟨"nationality", (·.nationality), (·.nationality), fun r v => { r with nationality := v }⟩,
          ⟨"date_of_birth", (·.date_of_birth), (·.date_of_birth), fun r v => { r with date_of_birth := v }⟩] (fun r => r.date_of_expiry)
        (fun r c e => rfl)
        (by
          intro s hs
          simp only [List.mem_cons, List.not_mem_nil, or_false] at hs
          rcases hs with rfl | rfl | rfl <;> exact fun r v => rfl) d
    have hXc : getKV (applySteps m [⟨"passport_number", (·.passport_number), (·.passport_number), fun r v => { r with passport_number := v }⟩,
          ⟨"nationality", (·.nationality), (·.nationality), fun r v => { r with nationality := v }⟩,
          ⟨"date_of_birth", (·.date_of_birth), (·.date_of_birth), fun r v => { r with date_of_birth := v }⟩] d).confidence_scores
        "date_of_expiry" = getKV d.confidence_scores "date_of_expiry" :=
      applySteps_conf_frame m [⟨"passport_number", (·.passport_number), (·.passport_number), fun r v => { r with passport_number := v }⟩,
          ⟨"nationality", (·.nationality), (·.nationality), fun r v => { r with nationality := v }⟩,
          ⟨"date_of_birth", (·.date_of_birth), (·.date_of_birth), fun r v => { r with date_of_birth := v }⟩] "date_of_expiry"
        (by
          intro s hs
          simp only [List.mem_cons, List.not_mem_nil, or_false] at hs
          rcases hs with rfl | rfl | rfl <;> exact ⟨fun r v => rfl, by decide⟩) d
    have hdecomp : applySteps m field_mapping d =
        applySteps m [⟨"sex", (·.sex), (·.sex), fun r v => { r with sex := v }⟩,
          ⟨"full_name", (·.names), (·.full_name), fun r v => { r with full_name := v }⟩,
          ⟨"country_code", (·.issuing_country), (·.country_code), fun r v => { r with country_code := v }⟩]
          (fuseStep m.mrz_confidence m.extraction_method "date_of_expiry"
            m.date_of_expiry (fun r => r.date_of_expiry)
            (fun r v => { r with date_of_expiry := v })
            (applySteps m [⟨"passport_number", (·.passport_number), (·.passport_number), fun r v => { r with passport_number := v }⟩,
          ⟨"nationality", (·.nationality), (·.nationality), fun r v => { r with nationality := v }⟩,
          ⟨"date_of_birth", (·.date_of_birth), (·.date_of_birth), fun r v => { r with date_of_birth := v }⟩] d)) := rfl
    have hself := fuseStep_self m.mrz_confidence m.extraction_method
      "date_of_expiry" m.date_of_expiry (fun r => r.date_of_expiry)
      (fun r v => { r with date_of_expiry := v })
      (applySteps m [⟨"passport_number", (·.passport_number), (·.passport_number), fun r v => { r with passport_number := v }⟩,
          ⟨"nationality", (·.nationality), (·.nationality), fun r v => { r with nationality := v }⟩,
          ⟨"date_of_birth", (·.date_of_birth), (·.date_of_birth), fun r v => { r with date_of_birth := v }⟩] d) (fun r v => rfl) (fun r c e => rfl) htr
    have hPg : ∀ dd : Rec, (applySteps m [⟨"sex", (·.sex), (·.sex), fun r v => { r with sex := v }⟩,
          ⟨"full_name", (·.names), (·.full_name), fun r v => { r with full_name := v }⟩,
          ⟨"country_code", (·.issuing_country), (·.country_code), fun r v => { r with country_code := v }⟩] dd).date_of_expiry = dd.date_of_expiry :=
      applySteps_F_frame m [⟨"sex", (·.sex), (·.sex), fun r v => { r with sex := v }⟩,
          ⟨"full_name", (·.names), (·.full_name), fun r v => { r with full_name := v }⟩,
          ⟨"country_code", (·.issuing_country), (·.country_code), fun r v => { r with country_code := v }⟩] (fun r => r.date_of_expiry)
        (fun r c e => rfl)
        (by
          intro s hs
          simp only [List.mem_cons, List.not_mem_nil, or_false] at hs
          rcases hs with rfl | rfl | rfl <;> exact fun r v => rfl)
    have hPc : ∀ dd : Rec, getKV (applySteps m [⟨"sex", (·.sex), (·.sex), fun r v => { r with sex := v }⟩,
          ⟨"full_name", (·.names), (·.full_name), fun r v => { r with full_name := v }⟩,
          ⟨"country_code", (·.issuing_country), (·.country_code), fun r v => { r with country_code := v }⟩]
        dd).confidence_scores "date_of_expiry" = getKV dd.confidence_scores "date_of_expiry" :=
      applySteps_conf_frame m [⟨"sex", (·.sex), (·.sex), fun r v => { r with sex := v }⟩,
          ⟨"full_name", (·.names), (·.full_name), fun r v => { r with full_name := v }⟩,
          ⟨"country_code", (·.issuing_country), (·.country_code), fun r v => { r with country_code := v }⟩] "date_of_expiry"
        (by
          intro s hs
          simp only [List.mem_cons, List.not_mem_nil, or_false] at hs
          rcases hs with rfl | rfl | rfl <;> exact ⟨fun r v => rfl, by decide⟩)
    have hPm : ∀ dd : Rec, getKV (applySteps m [⟨"sex", (·.sex), (·.sex), fun r v => { r with sex := v }⟩,
          ⟨"full_name", (·.names), (·.full_name), fun r v => { r with full_name := v }⟩,
          ⟨"country_code", (·.issuing_country), (·.country_code), fun r v => { r with country_code := v }⟩]
        dd).extraction_method "date_of_expiry" = getKV dd.extraction_method "date_of_expiry" :=
      applySteps_meth_frame m [⟨"sex", (·.sex), (·.sex), fun r v => { r with sex := v }⟩,
          ⟨"full_name", (·.names), (·.full_name), fun r v => { r with full_name := v }⟩,
          ⟨"country_code", (·.issuing_country), (·.country_code), fun r v => { r with country_code := v }⟩] "date_of_expiry"
        (by
          intro s hs
          simp only [List.mem_cons, List.not_mem_nil, or_false] at hs
          rcases hs with rfl | rfl | rfl <;> exact ⟨fun r v => rfl, by decide⟩)
    constructor
    · intro hcond
      have hcondX : ¬ truthy ((applySteps m [⟨"passport_number", (·.passport_number), (·.passport_number), fun r v => { r with passport_number := v }⟩,
          ⟨"nationality", (·.nationality), (·.nationality), fun r v => { r with nationality := v }⟩,
          ⟨"date_of_birth", (·.date_of_birth), (·.date_of_birth), fun r v => { r with date_of_birth := v }⟩] d).date_of_expiry) = true ∨
          m.mrz_confidence > (getKV (applySteps m [⟨"passport_number", (·.passport_number), (·.passport_number), fun r v => { r with passport_number := v }⟩,
          ⟨"nationality", (·.nationality), (·.nationality), fun r v => { r with nationality := v }⟩,
          ⟨"date_of_birth", (·.date_of_birth), (·.date_of_birth), fun r v => { r with date_of_birth := v }⟩]
            d).confidence_scores "date_of_expiry").getD 0 := by
        rw [hXg, hXc]
        exact hcond
      obtain ⟨hg, hc, hm2⟩ := hself.1 hcondX
      refine ⟨?_, ?_, ?_⟩
      · show (applySteps m field_mapping d).date_of_expiry = m.date_of_expiry
        rw [hdecomp, hPg]
        exact hg
      · show getKV (applySteps m field_mapping d).confidence_scores
          "date_of_expiry" = some m.mrz_confidence
        rw [hdecomp, hPc]
        exact hc
      · show getKV (applySteps m field_mapping d).extraction_method
          "date_of_expiry" = some m.extraction_method
        rw [hdecomp, hPm]
        exact hm2
    · intro hcond
      have hcondX : ¬ (¬ truthy ((applySteps m [⟨"passport_number", (·.passport_number), (·.passport_number), fun r v => { r with passport_number := v }⟩,
          ⟨"nationality", (·.nationality), (·.nationality), fun r v => { r with nationality := v }⟩,
          ⟨"date_of_birth", (·.date_of_birth), (·.date_of_birth), fun r v => { r with date_of_birth := v }⟩] d).date_of_expiry) = true ∨
          m.mrz_confidence > (getKV (applySteps m [⟨"passport_number", (·.passport_number), (·.passport_number), fun r v => { r with passport_number := v }⟩,
          ⟨"nationality", (·.nationality), (·.nationality), fun r v => { r with nationality := v }⟩,
          ⟨"date_of_birth", (·.date_of_birth), (·.date_of_birth), fun r v => { r with date_of_birth := v }⟩]
            d).confidence_scores "date_of_expiry").getD 0) := by
        rw [hXg, hXc]
        exact hcond
      have hfix := hself.2 hcondX
      refine ⟨?_, ?_⟩
      · show (applySteps m field_mapping d).date_of_expiry = d.date_of_expiry
        rw [hdecomp, hfix, hPg, hXg]
      · show getKV (applySteps m field_mapping d).confidence_scores
          "date_of_expiry" = getKV d.confidence_scores "date_of_expiry"
        rw [hdecomp, hfix, hPc, hXc]
  · have hXg : (applySteps m [⟨"passport_number", (·.passport_number), (·.passport_number), fun r v => { r with passport_number := v }⟩,
          ⟨"nationality", (·.nationality), (·.nationality), fun r v => { r with nationality := v }⟩,
          ⟨"date_of_birth", (·.date_of_birth), (·.date_of_birth), fun r v => { r with date_of_birth := v }⟩,
          ⟨"date_of_expiry", (·.date_of_expiry), (·.date_of_expiry), fun r v => { r with date_of_expiry := v }⟩] d).sex = d.sex :=
      applySteps_F_frame m [⟨"passport_number", (·.passport_number), (·.passport_number), fun r v => { r with passport_number := v }⟩,
          ⟨"nationality", (·.nationality), (·.nationality), fun r v => { r with nationality := v }⟩,
          ⟨"date_of_birth", (·.date_of_birth), (·.date_of_birth), fun r v => { r with date_of_birth := v }⟩,
          ⟨"date_of_expiry", (·.date_of_expiry), (·.date_of_expiry), fun r v => { r with date_of_expiry := v }⟩] (fun r => r.sex)
        (fun r c e => rfl)
        (by
          intro s hs
          simp only [List.mem_cons, List.not_mem_nil, or_false] at hs
          rcases hs with rfl | rfl | rfl | rfl <;> exact fun r v => rfl) d
    have hXc : getKV (applySteps m [⟨"passport_number", (·.passport_number), (·.passport_number), fun r v => { r with passport_number := v }⟩,
          ⟨"nationality", (·.nationality), (·.nationality), fun r v => { r with nationality := v }⟩,
          ⟨"date_of_birth", (·.date_of_birth), (·.date_of_birth), fun r v => { r with date_of_birth := v }⟩,
          ⟨"date_of_expiry", (·.date_of_expiry), (·.date_of_expiry), fun r v => { r with date_of_expiry := v }⟩] d).confidence_scores
        "sex" = getKV d.confidence_scores "sex" :=
      applySteps_conf_frame m [⟨"passport_number", (·.passport_number), (·.passport_number), fun r v => { r with passport_number := v }⟩,
          ⟨"nationality", (·.nationality), (·.nationality), fun r v => { r with nationality := v }⟩,
          ⟨"date_of_birth", (·.date_of_birth), (·.date_of_birth), fun r v => { r with date_of_birth := v }⟩,
          ⟨"date_of_expiry", (·.date_of_expiry), (·.date_of_expiry), fun r v => { r with date_of_expiry := v }⟩] "sex"
        (by
          intro s hs
          simp only [List.mem_cons, List.not_mem_nil, or_false] at hs
          rcases hs with rfl | rfl | rfl | rfl <;> exact ⟨fun r v => rfl, by decide⟩) d
    have hdecomp : applySteps m field_mapping d =
        applySteps m [⟨"full_name", (·.names), (·.full_name), fun r v => { r with full_name := v }⟩,
          ⟨"country_code", (·.issuing_country), (·.country_code), fun r v => { r with country_code := v }⟩]
          (fuseStep m.mrz_confidence m.extraction_method "sex"
            m.sex (fun r => r.sex)
            (fun r v => { r with sex := v })
            (applySteps m [⟨"passport_number", (·.passport_number), (·.passport_number), fun r v => { r with passport_number := v }⟩,
          ⟨"nationality", (·.nationality), (·.nationality), fun r v => { r with nationality := v }⟩,
          ⟨"date_of_birth", (·.date_of_birth), (·.date_of_birth), fun r v => { r with date_of_birth := v }⟩,
          ⟨"date_of_expiry", (·.date_of_expiry), (·.date_of_expiry), fun r v => { r with date_of_expiry := v }⟩] d)) := rfl
    have hself := fuseStep_self m.mrz_confidence m.extraction_method
      "sex" m.sex (fun r => r.sex)
      (fun r v => { r with sex := v })
      (applySteps m [⟨"passport_number", (·.passport_number), (·.passport_number), fun r v => { r with passport_number := v }⟩,
          ⟨"nationality", (·.nationality), (·.nationality), fun r v => { r with nationality := v }⟩,
          ⟨"date_of_birth", (·.date_of_birth), (·.date_of_birth), fun r v => { r with date_of_birth := v }⟩,
          ⟨"date_of_expiry", (·.date_of_expiry), (·.date_of_expiry), fun r v => { r with date_of_expiry := v }⟩] d) (fun r v => rfl) (fun r c e => rfl) htr
    have hPg : ∀ dd : Rec, (applySteps m [⟨"full_name", (·.names), (·.full_name), fun r v => { r with full_name := v }⟩,
          ⟨"country_code", (·.issuing_country), (·.country_code), fun r v => { r with country_code := v }⟩] dd).sex = dd.sex :=
      applySteps_F_frame m [⟨"full_name", (·.names), (·.full_name), fun r v => { r with full_name := v }⟩,
          ⟨"country_code", (·.issuing_country), (·.country_code), fun r v => { r with country_code := v }⟩] (fun r => r.sex)
        (fun r c e => rfl)
        (by
          intro s hs
          simp only [List.mem_cons, List.not_mem_nil, or_false] at hs
          rcases hs with rfl | rfl <;> exact fun r v => rfl)
    have hPc : ∀ dd : Rec, getKV (applySteps m [⟨"full_name", (·.names), (·.full_name), fun r v => { r with full_name := v }⟩,
          ⟨"country_code", (·.issuing_country), (·.country_code), fun r v => { r with country_code := v }⟩]
        dd).confidence_scores "sex" = getKV dd.confidence_scores "sex" :=
      applySteps_conf_frame m [⟨"full_name", (·.names), (·.full_name), fun r v => { r with full_name := v }⟩,
          ⟨"country_code", (·.issuing_country), (·.country_code), fun r v => { r with country_code := v }⟩] "sex"
        (by
          intro s hs
          simp only [List.mem_cons, List.not_mem_nil, or_false] at hs
          rcases hs with rfl | rfl <;> exact ⟨fun r v => rfl, by decide⟩)
    have hPm : ∀ dd : Rec, getKV (applySteps m [⟨"full_name", (·.names), (·.full_name), fun r v => { r with full_name := v }⟩,
          ⟨"country_code", (·.issuing_country), (·.country_code), fun r v => { r with country_code := v }⟩]
        dd).extraction_method "sex" = getKV dd.extraction_method "sex" :=
      applySteps_meth_frame m [⟨"full_name", (·.names), (·.full_name), fun r v => { r with full_name := v }⟩,
          ⟨"country_code", (·.issuing_country), (·.country_code), fun r v => { r with country_code := v }⟩] "sex"
        (by
          intro s hs
          simp only [List.mem_cons, List.not_mem_nil, or_false] at hs
          rcases hs with rfl | rfl <;> exact ⟨fun r v => rfl, by decide⟩)
    constructor
    · intro hcond
      have hcondX : ¬ truthy ((applySteps m [⟨"passport_number", (·.passport_number), (·.passport_number), fun r v => { r with passport_number := v }⟩,
          ⟨"nationality", (·.nationality), (·.nationality), fun r v => { r with nationality := v }⟩,
          ⟨"date_of_birth", (·.date_of_birth), (·.date_of_birth), fun r v => { r with date_of_birth := v }⟩,
          ⟨"date_of_expiry", (·.date_of_expiry), (·.date_of_expiry), fun r v => { r with date_of_expiry := v }⟩] d).sex) = true ∨
          m.mrz_confidence > (getKV (applySteps m [⟨"passport_number", (·.passport_number), (·.passport_number), fun r v => { r with passport_number := v }⟩,
          ⟨"nationality", (·.nationality), (·.nationality), fun r v => { r with nationality := v }⟩,
          ⟨"date_of_birth", (·.date_of_birth), (·.date_of_birth), fun r v => { r with date_of_birth := v }⟩,
          ⟨"date_of_expiry", (·.date_of_expiry), (·.date_of_expiry), fun r v => { r with date_of_expiry := v }⟩]
            d).confidence_scores "sex").getD 0 := by
        rw [hXg, hXc]
        exact hcond
      obtain ⟨hg, hc, hm2⟩ := hself.1 hcondX
      refine ⟨?_, ?_, ?_⟩
      · show (applySteps m field_mapping d).sex = m.sex
        rw [hdecomp, hPg]
        exact hg
      · show getKV (applySteps m field_mapping d).confidence_scores
          "sex" = some m.mrz_confidence
        rw [hdecomp, hPc]
        exact hc
      · show getKV (applySteps m field_mapping d).extraction_method
          "sex" = some m.extraction_method
        rw [hdecomp, hPm]
        exact hm2
    · intro hcond
      have hcondX : ¬ (¬ truthy ((applySteps m [⟨"passport_number", (·.passport_number), (·.passport_number), fun r v => { r with passport_number := v }⟩,
          ⟨"nationality", (·.nationality), (·.nationality), fun r v => { r with nationality := v }⟩,
          ⟨"date_of_birth", (·.date_of_birth), (·.date_of_birth), fun r v => { r with date_of_birth := v }⟩,
          ⟨"date_of_expiry", (·.date_of_expiry), (·.date_of_expiry), fun r v => { r with date_of_expiry := v }⟩] d).sex) = true ∨
          m.mrz_confidence > (getKV (applySteps m [⟨"passport_number", (·.passport_number), (·.passport_number), fun r v => { r with passport_number := v }⟩,
          ⟨"nationality", (·.nationality), (·.nationality), fun r v => { r with nationality := v }⟩,
          ⟨"date_of_birth", (·.date_of_birth), (·.date_of_birth), fun r v => { r with date_of_birth := v }⟩,
          ⟨"date_of_expiry", (·.date_of_expiry), (·.date_of_expiry), fun r v => { r with date_of_expiry := v }⟩]
            d).confidence_scores "sex").getD 0) := by
        rw [hXg, hXc]
        exact hcond
      have hfix := hself.2 hcondX
      refine ⟨?_, ?_⟩
      · show (applySteps m field_mapping d).sex = d.sex
        rw [hdecomp, hfix, hPg, hXg]
      · show getKV (applySteps m field_mapping d).confidence_scores
          "sex" = getKV d.confidence_scores "sex"
        rw [hdecomp, hfix, hPc, hXc]
  · have hXg : (applySteps m [⟨"passport_number", (·.passport_number), (·.passport_number), fun r v => { r with passport_number := v }⟩,
          ⟨"nationality", (·.nationality), (·.nationality), fun r v => { r with nationality := v }⟩,
          ⟨"date_of_birth", (·.date_of_birth), (·.date_of_birth), fun r v => { r with date_of_birth := v }⟩,
          ⟨"date_of_expiry", (·.date_of_expiry), (·.date_of_expiry), fun r v => { r with date_of_expiry := v }⟩,
          ⟨"sex", (·.sex), (·.sex), fun r v => { r with sex := v }⟩] d).full_name = d.full_name :=
      applySteps_F_frame m [⟨"passport_number", (·.passport_number), (·.passport_number), fun r v => { r with passport_number := v }⟩,
          ⟨"nationality", (·.nationality), (·.nationality), fun r v => { r with nationality := v }⟩,
          ⟨"date_of_birth", (·.date_of_birth), (·.date_of_birth), fun r v => { r with date_of_birth := v }⟩,
          ⟨"date_of_expiry", (·.date_of_expiry), (·.date_of_expiry), fun r v => { r with date_of_expiry := v }⟩,
          ⟨"sex", (·.sex), (·.sex), fun r v => { r with sex := v }⟩] (fun r => r.full_name)
        (fun r c e => rfl)
        (by
          intro s hs
          simp only [List.mem_cons, List.not_mem_nil, or_false] at hs
          rcases hs with rfl | rfl | rfl | rfl | rfl <;> exact fun r v => rfl) d
    have hXc : getKV (applySteps m [⟨"passport_number", (·.passport_number), (·.passport_number), fun r v => { r with passport_number := v }⟩,
          ⟨"nationality", (·.nationality), (·.nationality), fun r v => { r with nationality := v }⟩,
          ⟨"date_of_birth", (·.date_of_birth), (·.date_of_birth), fun r v => { r with date_of_birth := v }⟩,
          ⟨"date_of_expiry", (·.date_of_expiry), (·.date_of_expiry), fun r v => { r with date_of_expiry := v }⟩,
          ⟨"sex", (·.sex), (·.sex), fun r v => { r with sex := v }⟩] d).confidence_scores
        "full_name" = getKV d.confidence_scores "full_name" :=
      applySteps_conf_frame m [⟨"passport_number", (·.passport_number), (·.passport_number), fun r v => { r with passport_number := v }⟩,
          ⟨"nationality", (·.nationality), (·.nationality), fun r v => { r with nationality := v }⟩,
          ⟨"date_of_birth", (·.date_of_birth), (·.date_of_birth), fun r v => { r with date_of_birth := v }⟩,
          ⟨"date_of_expiry", (·.date_of_expiry), (·.date_of_expiry), fun r v => { r with date_of_expiry := v }⟩,
          ⟨"sex", (·.sex), (·.sex), fun r v => { r with sex := v }⟩] "full_name"
        (by
          intro s hs
          simp only [List.mem_cons, List.not_mem_nil, or_false] at hs
          rcases hs with rfl | rfl | rfl | rfl | rfl <;> exact ⟨fun r v => rfl, by decide⟩) d
    have hdecomp : applySteps m field_mapping d =
        applySteps m [⟨"country_code", (·.issuing_country), (·.country_code), fun r v => { r with country_code := v }⟩]
          (fuseStep m.mrz_confidence m.extraction_method "full_name"
            m.names (fun r => r.full_name)
            (fun r v => { r with full_name := v })
            (applySteps m [⟨"passport_number", (·.passport_number), (·.passport_number), fun r v => { r with passport_number := v }⟩,
          ⟨"nationality", (·.nationality), (·.nationality), fun r v => { r with nationality := v }⟩,
          ⟨"date_of_birth", (·.date_of_birth), (·.date_of_birth), fun r v => { r with date_of_birth := v }⟩,
          ⟨"date_of_expiry", (·.date_of_expiry), (·.date_of_expiry), fun r v => { r with date_of_expiry := v }⟩,
          ⟨"sex", (·.sex), (·.sex), fun r v => { r with sex := v }⟩] d)) := rfl
    have hself := fuseStep_self m.mrz_confidence m.extraction_method
      "full_name" m.names (fun r => r.full_name)
      (fun r v => { r with full_name := v })
      (applySteps m [⟨"passport_number", (·.passport_number), (·.passport_number), fun r v => { r with passport_number := v }⟩,
          ⟨"nationality", (·.nationality), (·.nationality), fun r v => { r with nationality := v }⟩,
          ⟨"date_of_birth", (·.date_of_birth), (·.date_of_birth), fun r v => { r with date_of_birth := v }⟩,
          ⟨"date_of_expiry", (·.date_of_expiry), (·.date_of_expiry), fun r v => { r with date_of_expiry := v }⟩,
          ⟨"sex", (·.sex), (·.sex), fun r v => { r with sex := v }⟩] d) (fun r v => rfl) (fun r c e => rfl) htr
    have hPg : ∀ dd : Rec, (applySteps m [⟨"country_code", (·.issuing_country), (·.country_code), fun r v => { r with country_code := v }⟩] dd).full_name = dd.full_name :=
      applySteps_F_frame m [⟨"country_code", (·.issuing_country), (·.country_code), fun r v => { r with country_code := v }⟩] (fun r => r.full_name)
        (fun r c e => rfl)
        (by
          intro s hs
          simp only [List.mem_cons, List.not_mem_nil, or_false] at hs
          rcases hs with rfl <;> exact fun r v => rfl)
    have hPc : ∀ dd : Rec, getKV (applySteps m [⟨"country_code", (·.issuing_country), (·.country_code), fun r v => { r with country_code := v }⟩]
        dd).confidence_scores "full_name" = getKV dd.confidence_scores "full_name" :=
      applySteps_conf_frame m [⟨"country_code", (·.issuing_country), (·.country_code), fun r v => { r with country_code := v }⟩] "full_name"
        (by
          intro s hs
          simp only [List.mem_cons, List.not_mem_nil, or_false] at hs
          rcases hs with rfl <;> exact ⟨fun r v => rfl, by decide⟩)
    have hPm : ∀ dd : Rec, getKV (applySteps m [⟨"country_code", (·.issuing_country), (·.country_code), fun r v => { r with country_code := v }⟩]
        dd).extraction_method "full_name" = getKV dd.extraction_method "full_name" :=
      applySteps_meth_frame m [⟨"country_code", (·.issuing_country), (·.country_code), fun r v => { r with country_code := v }⟩] "full_name"
        (by
          intro s hs
          simp only [List.mem_cons, List.not_mem_nil, or_false] at hs
          rcases hs with rfl <;> exact ⟨fun r v => rfl, by decide⟩)
    constructor
    · intro hcond
      have hcondX : ¬ truthy ((applySteps m [⟨"passport_number", (·.passport_number), (·.passport_number), fun r v => { r with passport_number := v }⟩,
          ⟨"nationality", (·.nationality), (·.nationality), fun r v => { r with nationality := v }⟩,
          ⟨"date_of_birth", (·.date_of_birth), (·.date_of_birth), fun r v => { r with date_of_birth := v }⟩,
          ⟨"date_of_expiry", (·.date_of_expiry), (·.date_of_expiry), fun r v => { r with date_of_expiry := v }⟩,
          ⟨"sex", (·.sex), (·.sex), fun r v => { r with sex := v }⟩] d).full_name) = true ∨
          m.mrz_confidence > (getKV (applySteps m [⟨"passport_number", (·.passport_number), (·.passport_number), fun r v => { r with passport_number := v }⟩,
          ⟨"nationality", (·.nationality), (·.nationality), fun r v => { r with nationality := v }⟩,
          ⟨"date_of_birth", (·.date_of_birth), (·.date_of_birth), fun r v => { r with date_of_birth := v }⟩,
          ⟨"date_of_expiry", (·.date_of_expiry), (·.date_of_expiry), fun r v => { r with date_of_expiry := v }⟩,
          ⟨"sex", (·.sex), (·.sex), fun r v => { r with sex := v }⟩]
            d).confidence_scores "full_name").getD 0 := by
        rw [hXg, hXc]
        exact hcond
      obtain ⟨hg, hc, hm2⟩ := hself.1 hcondX
      refine ⟨?_, ?_, ?_⟩
      · show (applySteps m field_mapping d).full_name = m.names
        rw [hdecomp, hPg]
        exact hg
      · show getKV (applySteps m field_mapping d).confidence_scores
          "full_name" = some m.mrz_confidence
        rw [hdecomp, hPc]
        exact hc
      · show getKV (applySteps m field_mapping d).extraction_method
          "full_name" = some m.extraction_method
        rw [hdecomp, hPm]
        exact hm2
    · intro hcond
      have hcondX : ¬ (¬ truthy ((applySteps m [⟨"passport_number", (·.passport_number), (·.passport_number), fun r v => { r with passport_number := v }⟩,
          ⟨"nationality", (·.nationality), (·.nationality), fun r v => { r with nationality := v }⟩,
          ⟨"date_of_birth", (·.date_of_birth), (·.date_of_birth), fun r v => { r with date_of_birth := v }⟩,
          ⟨"date_of_expiry", (·.date_of_expiry), (·.date_of_expiry), fun r v => { r with date_of_expiry := v }⟩,
          ⟨"sex", (·.sex), (·.sex), fun r v => { r with sex := v }⟩] d).full_name) = true ∨
          m.mrz_confidence > (getKV (applySteps m [⟨"passport_number", (·.passport_number), (·.passport_number), fun r v => { r with passport_number := v }⟩,
          ⟨"nationality", (·.nationality), (·.nationality), fun r v => { r with nationality := v }⟩,
          ⟨"date_of_birth", (·.date_of_birth), (·.date_of_birth), fun r v => { r with date_of_birth := v }⟩,
          ⟨"date_of_expiry", (·.date_of_expiry), (·.date_of_expiry), fun r v => { r with date_of_expiry := v }⟩,
          ⟨"sex", (·.sex), (·.sex), fun r v => { r with sex := v }⟩]
            d).confidence_scores "full_name").getD 0) := by
        rw [hXg, hXc]
        exact hcond
      have hfix := hself.2 hcondX
      refine ⟨?_, ?_⟩
      · show (applySteps m field_mapping d).full_name = d.full_name
        rw [hdecomp, hfix, hPg, hXg]
      · show getKV (applySteps m field_mapping d).confidence_scores
          "full_name" = getKV d.confidence_scores "full_name"
        rw [hdecomp, hfix, hPc, hXc]
  · have hXg : (applySteps m [⟨"passport_number", (·.passport_number), (·.passport_number), fun r v => { r with passport_number := v }⟩,
          ⟨"nationality", (·.nationality), (·.nationality), fun r v => { r with nationality := v }⟩,
          ⟨"date_of_birth", (·.date_of_birth), (·.date_of_birth), fun r v => { r with date_of_birth := v }⟩,
          ⟨"date_of_expiry", (·.date_of_expiry), (·.date_of_expiry), fun r v => { r with date_of_expiry := v }⟩,
          ⟨"sex", (·.sex), (·.sex), fun r v => { r with sex := v }⟩,
          ⟨"full_name", (·.names), (·.full_name), fun r v => { r with full_name := v }⟩] d).country_code = d.country_code :=
      applySteps_F_frame m [⟨"passport_number", (·.passport_number), (·.passport_number), fun r v => { r with passport_number := v }⟩,
          ⟨"nationality", (·.nationality), (·.nationality), fun r v => { r with nationality := v }⟩,
          ⟨"date_of_birth", (·.date_of_birth), (·.date_of_birth), fun r v => { r with date_of_birth := v }⟩,
          ⟨"date_of_expiry", (·.date_of_expiry), (·.date_of_expiry), fun r v => { r with date_of_expiry := v }⟩,
          ⟨"sex", (·.sex), (·.sex), fun r v => { r with sex := v }⟩,
          ⟨"full_name", (·.names), (·.full_name), fun r v => { r with full_name := v }⟩] (fun r => r.country_code)
        (fun r c e => rfl)
        (by
          intro s hs
          simp only [List.mem_cons, List.not_mem_nil, or_false] at hs
          rcases hs with rfl | rfl | rfl | rfl | rfl | rfl <;> exact fun r v => rfl) d
    have hXc : getKV (applySteps m [⟨"passport_number", (·.passport_number), (·.passport_number), fun r v => { r with passport_number := v }⟩,
          ⟨"nationality", (·.nationality), (·.nationality), fun r v => { r with nationality := v }⟩,
          ⟨"date_of_birth", (·.date_of_birth), (·.date_of_birth), fun r v => { r with date_of_birth := v }⟩,
          ⟨"date_of_expiry", (·.date_of_expiry), (·.date_of_expiry), fun r v => { r with date_of_expiry := v }⟩,
          ⟨"sex", (·.sex), (·.sex), fun r v => { r with sex := v }⟩,
          ⟨"full_name", (·.names), (·.full_name), fun r v => { r with full_name := v }⟩] d).confidence_scores
        "country_code" = getKV d.confidence_scores "country_code" :=
      applySteps_conf_frame m [⟨"passport_number", (·.passport_number), (·.passport_number), fun r v => { r with passport_number := v }⟩,
          ⟨"nationality", (·.nationality), (·.nationality), fun r v => { r with nationality := v }⟩,
          ⟨"date_of_birth", (·.date_of_birth), (·.date_of_birth), fun r v => { r with date_of_birth := v }⟩,
          ⟨"date_of_expiry", (·.date_of_expiry), (·.date_of_expiry), fun r v => { r with date_of_expiry := v }⟩,
          ⟨"sex", (·.sex), (·.sex), fun r v => { r with sex := v }⟩,
          ⟨"full_name", (·.names), (·.full_name), fun r v => { r with full_name := v }⟩] "country_code"
        (by
          intro s hs
          simp only [List.mem_cons, List.not_mem_nil, or_false] at hs
          rcases hs with rfl | rfl | rfl | rfl | rfl | rfl <;> exact ⟨fun r v => rfl, by decide⟩) d
    have hdecomp : applySteps m field_mapping d =
        applySteps m ([] : List FStep)
          (fuseStep m.mrz_confidence m.extraction_method "country_code"
            m.issuing_country (fun r => r.country_code)
            (fun r v => { r with country_code := v })
            (applySteps m [⟨"passport_number", (·.passport_number), (·.passport_number), fun r v => { r with passport_number := v }⟩,
          ⟨"nationality", (·.nationality), (·.nationality), fun r v => { r with nationality := v }⟩,
          ⟨"date_of_birth", (·.date_of_birth), (·.date_of_birth), fun r v => { r with date_of_birth := v }⟩,
          ⟨"date_of_expiry", (·.date_of_expiry), (·.date_of_expiry), fun r v => { r with date_of_expiry := v }⟩,
          ⟨"sex", (·.sex), (·.sex), fun r v => { r with sex := v }⟩,
          ⟨"full_name", (·.names), (·.full_name), fun r v => { r with full_name := v }⟩] d)) := rfl
    have hself := fuseStep_self m.mrz_confidence m.extraction_method
      "country_code" m.issuing_country (fun r => r.country_code)
      (fun r v => { r with country_code := v })
      (applySteps m [⟨"passport_number", (·.passport_number), (·.passport_number), fun r v => { r with passport_number := v }⟩,
          ⟨"nationality", (·.nationality), (·.nationality), fun r v => { r with nationality := v }⟩,
          ⟨"date_of_birth", (·.date_of_birth), (·.date_of_birth), fun r v => { r with date_of_birth := v }⟩,
          ⟨"date_of_expiry", (·.date_of_expiry), (·.date_of_expiry), fun r v => { r with date_of_expiry := v }⟩,
          ⟨"sex", (·.sex), (·.sex), fun r v => { r with sex := v }⟩,
          ⟨"full_name", (·.names), (·.full_name), fun r v => { r with full_name := v }⟩] d) (fun r v => rfl) (fun r c e => rfl) htr
    have hPg : ∀ dd : Rec, (applySteps m ([] : List FStep) dd).country_code = dd.country_code :=
      applySteps_F_frame m ([] : List FStep) (fun r => r.country_code)
        (fun r c e => rfl)
        (by
          intro s hs
          exact absurd hs (List.not_mem_nil s))
    have hPc : ∀ dd : Rec, getKV (applySteps m ([] : List FStep)
        dd).confidence_scores "country_code" = getKV dd.confidence_scores "country_code" :=
      applySteps_conf_frame m ([] : List FStep) "country_code"
        (by
          intro s hs
          exact absurd hs (List.not_mem_nil s))
    have hPm : ∀ dd : Rec, getKV (applySteps m ([] : List FStep)
        dd).extraction_method "country_code" = getKV dd.extraction_method "country_code" :=
      applySteps_meth_frame m ([] : List FStep) "country_code"
        (by
          intro s hs
          exact absurd hs (List.not_mem_nil s))
    constructor
    · intro hcond
      have hcondX : ¬ truthy ((applySteps m [⟨"passport_number", (·.passport_number), (·.passport_number), fun r v => { r with passport_number := v }⟩,
          ⟨"nationality", (·.nationality), (·.nationality), fun r v => { r with nationality := v }⟩,
          ⟨"date_of_birth", (·.date_of_birth), (·.date_of_birth), fun r v => { r with date_of_birth := v }⟩,
          ⟨"date_of_expiry", (·.date_of_expiry), (·.date_of_expiry), fun r v => { r with date_of_expiry := v }⟩,
          ⟨"sex", (·.sex), (·.sex), fun r v => { r with sex := v }⟩,
          ⟨"full_name", (·.names), (·.full_name), fun r v => { r with full_name := v }⟩] d).country_code) = true ∨
          m.mrz_confidence > (getKV (applySteps m [⟨"passport_number", (·.passport_number), (·.passport_number), fun r v => { r with passport_number := v }⟩,
          ⟨"nationality", (·.nationality), (·.nationality), fun r v => { r with nationality := v }⟩,
          ⟨"date_of_birth", (·.date_of_birth), (·.date_of_birth), fun r v => { r with date_of_birth := v }⟩,
          ⟨"date_of_expiry", (·.date_of_expiry), (·.date_of_expiry), fun r v => { r with date_of_expiry := v }⟩,
          ⟨"sex", (·.sex), (·.sex), fun r v => { r with sex := v }⟩,
          ⟨"full_name", (·.names), (·.full_name), fun r v => { r with full_name := v }⟩]
            d).confidence_scores "country_code").getD 0 := by
        rw [hXg, hXc]
        exact hcond
      obtain ⟨hg, hc, hm2⟩ := hself.1 hcondX
      refine ⟨?_, ?_, ?_⟩
      · show (applySteps m field_mapping d).country_code = m.issuing_country
        rw [hdecomp, hPg]
        exact hg
      · show getKV (applySteps m field_mapping d).confidence_scores
          "country_code" = some m.mrz_confidence
        rw [hdecomp, hPc]
        exact hc
      · show getKV (applySteps m field_mapping d).extraction_method
          "country_code" = some m.extraction_method
        rw [hdecomp, hPm]
        exact hm2
    · intro hcond
      have hcondX : ¬ (¬ truthy ((applySteps m [⟨"passport_number", (·.passport_number), (·.passport_number), fun r v => { r with passport_number := v }⟩,
          ⟨"nationality", (·.nationality), (·.nationality), fun r v => { r with nationality := v }⟩,
          ⟨"date_of_birth", (·.date_of_birth), (·.date_of_birth), fun r v => { r with date_of_birth := v }⟩,
          ⟨"date_of_expiry", (·.date_of_expiry), (·.date_of_expiry), fun r v => { r with date_of_expiry := v }⟩,
          ⟨"sex", (·.sex), (·.sex), fun r v => { r with sex := v }⟩,
          ⟨"full_name", (·.names), (·.full_name), fun r v => { r with full_name := v }⟩] d).country_code) = true ∨
          m.mrz_confidence > (getKV (applySteps m [⟨"passport_number", (·.passport_number), (·.passport_number), fun r v => { r with passport_number := v }⟩,
          ⟨"nationality", (·.nationality), (·.nationality), fun r v => { r with nationality := v }⟩,
          ⟨"date_of_birth", (·.date_of_birth), (·.date_of_birth), fun r v => { r with date_of_birth := v }⟩,
          ⟨"date_of_expiry", (·.date_of_expiry), (·.date_of_expiry), fun r v => { r with date_of_expiry := v }⟩,
          ⟨"sex", (·.sex), (·.sex), fun r v => { r with sex := v }⟩,
          ⟨"full_name", (·.names), (·.full_name), fun r v => { r with full_name := v }⟩]
            d).confidence_scores "country_code").getD 0) := by
        rw [hXg, hXc]
        exact hcond
      have hfix := hself.2 hcondX
      refine ⟨?_, ?_⟩
      · show (applySteps m field_mapping d).country_code = d.country_code
        rw [hdecomp, hfix, hPg, hXg]
      · show getKV (applySteps m field_mapping d).confidence_scores
          "country_code" = getKV d.confidence_scores "country_code"
        rw [hdecomp, hfix, hPc, hXc]

/-- C7 witness: the spec's example — a record with null sex fused with an
MRZ record carrying sex `M` at confidence 0.7 gets sex `M` with
confidence entry 0.7. -/
theorem mrz_fusion_override_rule_witness :
    (enhance_extraction_with_mrz initRec
      ⟨some (ofStr "P<SDN"), none, none, none, none, some (ofStr "M"),
        none, none, none, 7 / 10, ofStr "fastmrz"⟩).sex =
      some (ofStr "M") ∧
    getKV (enhance_extraction_with_mrz initRec
      ⟨some (ofStr "P<SDN"), none, none, none, none, some (ofStr "M"),
        none, none, none, 7 / 10, ofStr "fastmrz"⟩).confidence_scores
      "sex" = some (7 / 10) := by
  have h := (mrz_fusion_override_rule initRec
    ⟨some (ofStr "P<SDN"), none, none, none, none, some (ofStr "M"),
      none, none, none, 7 / 10, ofStr "fastmrz"⟩
    ⟨"sex", (·.sex), (·.sex), fun r v => { r with sex := v }⟩
    (by
      simp only [field_mapping]
      exact List.mem_cons_of_mem _ (List.mem_cons_of_mem _
        (List.mem_cons_of_mem _ (List.mem_cons_of_mem _
          (List.mem_cons_self _ _)))))
    (by decide)).1 (Or.inl (by decide))
  exact ⟨h.1, h.2.1⟩

theorem truthy_ne_none (v : Option Str) (h : truthy v = true) :
    ¬ v = none := by
  cases v with
  | none => simp [truthy] at h
  | some s => simp

theorem fuseStep_get_cases (mconf : ℚ) (mmeth : Str) (key : String)
    (mval : Option Str) (get : Rec → Option Str)
    (set : Rec → Option Str → Rec) (d : Rec)
    (hgs : ∀ r v, get (set r v) = v)
    (hgm : ∀ r c e,
      get { r with confidence_scores := c, extraction_method := e } = get r) :
    get (fuseStep mconf mmeth key mval get set d) = get d ∨
    (get (fuseStep mconf mmeth key mval get set d) = mval ∧
      truthy mval = true) := by
  unfold fuseStep
  split_ifs with h1 h2
  · right
    exact ⟨by rw [hgm, hgs], h1⟩
  · left
    rfl
  · left
    rfl

/-- The seven record keys the fusion loop may touch. -/
def mappedKeys : List String := field_mapping.map FStep.key

/-- C10: the fusion step never turns a populated mapped field into null,
changes no record field other than the seven mapped ones, changes no
confidence or method entry at a key other than the seven mapped keys,
and adds exactly the three MRZ keys. -/
theorem mrz_fusion_frame (d : Rec) (m : MRZRec) :
    (enhance_extraction_with_mrz d m).passport_type = d.passport_type ∧
    (enhance_extraction_with_mrz d m).place_of_birth = d.place_of_birth ∧
    (enhance_extraction_with_mrz d m).place_of_issue = d.place_of_issue ∧
    (enhance_extraction_with_mrz d m).date_of_issue = d.date_of_issue ∧
    (enhance_extraction_with_mrz d m).national_id = d.national_id ∧
    (enhance_extraction_with_mrz d m).extraction_score =
      d.extraction_score ∧
    (enhance_extraction_with_mrz d m).extraction_summary =
      d.extraction_summary ∧
    (∀ k : String, ¬ k ∈ mappedKeys →
      getKV (enhance_extraction_with_mrz d m).confidence_scores k =
        getKV d.confidence_scores k ∧
      getKV (enhance_extraction_with_mrz d m).extraction_method k =
        getKV d.extraction_method k) ∧
    (∀ st ∈ field_mapping, ¬ st.get d = none →
      ¬ st.get (enhance_extraction_with_mrz d m) = none) ∧
    (enhance_extraction_with_mrz d m).mrz_text = some m.mrz_text ∧
    (enhance_extraction_with_mrz d m).mrz_confidence =
      some m.mrz_confidence ∧
    (enhance_extraction_with_mrz d m).mrz_extraction_method =
      some m.extraction_method := by
  refine ⟨?_, ?_, ?_, ?_, ?_, ?_, ?_, ?_, ?_, rfl, rfl, rfl⟩
  · show (applySteps m field_mapping d).passport_type = d.passport_type
    exact applySteps_F_frame m field_mapping (fun r => r.passport_type)
      (fun r c e => rfl)
      (by
          intro s hs
          simp only [field_mapping, List.mem_cons, List.not_mem_nil,
            or_false] at hs
          rcases hs with rfl | rfl | rfl | rfl | rfl | rfl | rfl <;> exact fun r v => rfl) d
  · show (applySteps m field_mapping d).place_of_birth = d.place_of_birth
    exact applySteps_F_frame m field_mapping (fun r => r.place_of_birth)
      (fun r c e => rfl)
      (by
          intro s hs
          simp only [field_mapping, List.mem_cons, List.not_mem_nil,
            or_false] at hs
          rcases hs with rfl | rfl | rfl | rfl | rfl | rfl | rfl <;> exact fun r v => rfl) d
  · show (applySteps m field_mapping d).place_of_issue = d.place_of_issue
    exact applySteps_F_frame m field_mapping (fun r => r.place_of_issue)
      (fun r c e => rfl)
      (by
          intro s hs
          simp only [field_mapping, List.mem_cons, List.not_mem_nil,
            or_false] at hs
          rcases hs with rfl | rfl | rfl | rfl | rfl | rfl | rfl <;> exact fun r v => rfl) d
  · show (applySteps m field_mapping d).date_of_issue = d.date_of_issue
    exact applySteps_F_frame m field_mapping (fun r => r.date_of_issue)
      (fun r c e => rfl)
      (by
          intro s hs
          simp only [field_mapping, List.mem_cons, List.not_mem_nil,
            or_false] at hs
          rcases hs with rfl | rfl | rfl | rfl | rfl | rfl | rfl <;> exact fun r v => rfl) d
  · show (applySteps m field_mapping d).national_id = d.national_id
    exact applySteps_F_frame m field_mapping (fun r => r.national_id)
      (fun r c e => rfl)
      (by
          intro s hs
          simp only [field_mapping, List.mem_cons, List.not_mem_nil,
            or_false] at hs
          rcases hs with rfl | rfl | rfl | rfl | rfl | rfl | rfl <;> exact fun r v => rfl) d
  · show (applySteps m field_mapping d).extraction_score = d.extraction_score
    exact applySteps_F_frame m field_mapping (fun r => r.extraction_score)
      (fun r c e => rfl)
      (by
          intro s hs
          simp only [field_mapping, List.mem_cons, List.not_mem_nil,
            or_false] at hs
          rcases hs with rfl | rfl | rfl | rfl | rfl | rfl | rfl <;> exact fun r v => rfl) d
  · show (applySteps m field_mapping d).extraction_summary = d.extraction_summary
    exact applySteps_F_frame m field_mapping (fun r => r.extraction_summary)
      (fun r c e => rfl)
      (by
          intro s hs
          simp only [field_mapping, List.mem_cons, List.not_mem_nil,
            or_false] at hs
          rcases hs with rfl | rfl | rfl | rfl | rfl | rfl | rfl <;> exact fun r v => rfl) d
  · intro k hk
    have hlaw : ∀ st ∈ field_mapping,
        ((∀ r v, (st.set r v).confidence_scores = r.confidence_scores) ∧
          ¬ st.key = k) := by
      intro st hst
      refine ⟨?_, ?_⟩
      · simp only [field_mapping, List.mem_cons, List.not_mem_nil,
          or_false] at hst
        rcases hst with rfl | rfl | rfl | rfl | rfl | rfl | rfl <;>
          exact fun r v => rfl
      · intro he
        exact hk (he ▸ List.mem_map_of_mem FStep.key hst)
    have hlaw2 : ∀ st ∈ field_mapping,
        ((∀ r v, (st.set r v).extraction_method = r.extraction_method) ∧
          ¬ st.key = k) := by
      intro st hst
      refine ⟨?_, (hlaw st hst).2⟩
      simp only [field_mapping, List.mem_cons, List.not_mem_nil,
        or_false] at hst
      rcases hst with rfl | rfl | rfl | rfl | rfl | rfl | rfl <;>
        exact fun r v => rfl
    exact ⟨applySteps_conf_frame m field_mapping k hlaw d,
      applySteps_meth_frame m field_mapping k hlaw2 d⟩
  · intro st hst hne
    simp only [field_mapping, List.mem_cons, List.not_mem_nil, or_false]
      at hst
    rcases hst with rfl | rfl | rfl | rfl | rfl | rfl | rfl
    · show ¬ (applySteps m field_mapping d).passport_number = none
      have hXg : (applySteps m ([] : List FStep) d).passport_number = d.passport_number :=
        applySteps_F_frame m ([] : List FStep) (fun r => r.passport_number)
          (fun r c e => rfl)
          (by
          intro s hs
          exact absurd hs (List.not_mem_nil s)) d
      have hdecomp : applySteps m field_mapping d =
          applySteps m [⟨"nationality", (·.nationality), (·.nationality), fun r v => { r with nationality := v }⟩,
          ⟨"date_of_birth", (·.date_of_birth), (·.date_of_birth), fun r v => { r with date_of_birth := v }⟩,
          ⟨"date_of_expiry", (·.date_of_expiry), (·.date_of_expiry), fun r v => { r with date_of_expiry := v }⟩,
          ⟨"sex", (·.sex), (·.sex), fun r v => { r with sex := v }⟩,
          ⟨"full_name", (·.names), (·.full_name), fun r v => { r with full_name := v }⟩,
          ⟨"country_code", (·.issuing_country), (·.country_code), fun r v => { r with country_code := v }⟩]
            (fuseStep m.mrz_confidence m.extraction_method "passport_number"
              m.passport_number (fun r => r.passport_number)
              (fun r v => { r with passport_number := v })
              (applySteps m ([] : List FStep) d)) := rfl
      have hPg : ∀ dd : Rec, (applySteps m [⟨"nationality", (·.nationality), (·.nationality), fun r v => { r with nationality := v }⟩,
          ⟨"date_of_birth", (·.date_of_birth), (·.date_of_birth), fun r v => { r with date_of_birth := v }⟩,
          ⟨"date_of_expiry", (·.date_of_expiry), (·.date_of_expiry), fun r v => { r with date_of_expiry := v }⟩,
          ⟨"sex", (·.sex), (·.sex), fun r v => { r with sex := v }⟩,
          ⟨"full_name", (·.names), (·.full_name), fun r v => { r with full_name := v }⟩,
          ⟨"country_code", (·.issuing_country), (·.country_code), fun r v => { r with country_code := v }⟩] dd).passport_number = dd.passport_number :=
        applySteps_F_frame m [⟨"nationality", (·.nationality), (·.nationality), fun r v => { r with nationality := v }⟩,
          ⟨"date_of_birth", (·.date_of_birth), (·.date_of_birth), fun r v => { r with date_of_birth := v }⟩,
          ⟨"date_of_expiry", (·.date_of_expiry), (·.date_of_expiry), fun r v => { r with date_of_expiry := v }⟩,
          ⟨"sex", (·.sex), (·.sex), fun r v => { r with sex := v }⟩,
          ⟨"full_name", (·.names), (·.full_name), fun r v => { r with full_name := v }⟩,
          ⟨"country_code", (·.issuing_country), (·.country_code), fun r v => { r with country_code := v }⟩] (fun r => r.passport_number)
          (fun r c e => rfl)
          (by
          intro s hs
          simp only [List.mem_cons, List.not_mem_nil, or_false] at hs
          rcases hs with rfl | rfl | rfl | rfl | rfl | rfl <;> exact fun r v => rfl)
      rw [hdecomp, hPg]
      rcases fuseStep_get_cases m.mrz_confidence m.extraction_method
        "passport_number" m.passport_number (fun r => r.passport_number)
        (fun r v => { r with passport_number := v })
        (applySteps m ([] : List FStep) d) (fun r v => rfl) (fun r c e => rfl) with
        hcase | hcase
      · rw [hcase, hXg]
        exact hne
      · rw [hcase.1]
        exact truthy_ne_none _ hcase.2
    · show ¬ (applySteps m field_mapping d).nationality = none
      have hXg : (applySteps m [⟨"passport_number", (·.passport_number), (·.passport_number), fun r v => { r with passport_number := v }⟩] d).nationality = d.nationality :=
        applySteps_F_frame m [⟨"passport_number", (·.passport_number), (·.passport_number), fun r v => { r with passport_number := v }⟩] (fun r => r.nationality)
          (fun r c e => rfl)
          (by
          intro s hs
          simp only [List.mem_cons, List.not_mem_nil, or_false] at hs
          rcases hs with rfl <;> exact fun r v => rfl) d
      have hdecomp : applySteps m field_mapping d =
          applySteps m [⟨"date_of_birth", (·.date_of_birth), (·.date_of_birth), fun r v => { r with date_of_birth := v }⟩,
          ⟨"date_of_expiry", (·.date_of_expiry), (·.date_of_expiry), fun r v => { r with date_of_expiry := v }⟩,
          ⟨"sex", (·.sex), (·.sex), fun r v => { r with sex := v }⟩,
          ⟨"full_name", (·.names), (·.full_name), fun r v => { r with full_name := v }⟩,
          ⟨"country_code", (·.issuing_country), (·.country_code), fun r v => { r with country_code := v }⟩]
            (fuseStep m.mrz_confidence m.extraction_method "nationality"
              m.nationality (fun r => r.nationality)
              (fun r v => { r with nationality := v })
              (applySteps m [⟨"passport_number", (·.passport_number), (·.passport_number), fun r v => { r with passport_number := v }⟩] d)) := rfl
      have hPg : ∀ dd : Rec, (applySteps m [⟨"date_of_birth", (·.date_of_birth), (·.date_of_birth), fun r v => { r with date_of_birth := v }⟩,
          ⟨"date_of_expiry", (·.date_of_expiry), (·.date_of_expiry), fun r v => { r with date_of_expiry := v }⟩,
          ⟨"sex", (·.sex), (·.sex), fun r v => { r with sex := v }⟩,
          ⟨"full_name", (·.names), (·.full_name), fun r v => { r with full_name := v }⟩,
          ⟨"country_code", (·.issuing_country), (·.country_code), fun r v => { r with country_code := v }⟩] dd).nationality = dd.nationality :=
        applySteps_F_frame m [⟨"date_of_birth", (·.date_of_birth), (·.date_of_birth), fun r v => { r with date_of_birth := v }⟩,
          ⟨"date_of_expiry", (·.date_of_expiry), (·.date_of_expiry), fun r v => { r with date_of_expiry := v }⟩,
          ⟨"sex", (·.sex), (·.sex), fun r v => { r with sex := v }⟩,
          ⟨"full_name", (·.names), (·.full_name), fun r v => { r with full_name := v }⟩,
          ⟨"country_code", (·.issuing_country), (·.country_code), fun r v => { r with country_code := v }⟩] (fun r => r.nationality)
          (fun r c e => rfl)
          (by
          intro s hs
          simp only [List.mem_cons, List.not_mem_nil, or_false] at hs
          rcases hs with rfl | rfl | rfl | rfl | rfl <;> exact fun r v => rfl)
      rw [hdecomp, hPg]
      rcases fuseStep_get_cases m.mrz_confidence m.extraction_method
        "nationality" m.nationality (fun r => r.nationality)
        (fun r v => { r with nationality := v })
        (applySteps m [⟨"passport_number", (·.passport_number), (·.passport_number), fun r v => { r with passport_number := v }⟩] d) (fun r v => rfl) (fun r c e => rfl) with
        hcase | hcase
      · rw [hcase, hXg]
        exact hne
      · rw [hcase.1]
        exact truthy_ne_none _ hcase.2
    · show ¬ (applySteps m field_mapping d).date_of_birth = none
      have hXg : (applySteps m [⟨"passport_number", (·.passport_number), (·.passport_number), fun r v => { r with passport_number := v }⟩,
          ⟨"nationality", (·.nationality), (·.nationality), fun r v => { r with nationality := v }⟩] d).date_of_birth = d.date_of_birth :=
        applySteps_F_frame m [⟨"passport_number", (·.passport_number), (·.passport_number), fun r v => { r with passport_number := v }⟩,
          ⟨"nationality", (·.nationality), (·.nationality), fun r v => { r with nationality := v }⟩] (fun r => r.date_of_birth)
          (fun r c e => rfl)
          (by
          intro s hs
          simp only [List.mem_cons, List.not_mem_nil, or_false] at hs
          rcases hs with rfl | rfl <;> exact fun r v => rfl) d
      have hdecomp : applySteps m field_mapping d =
          applySteps m [⟨"date_of_expiry", (·.date_of_expiry), (·.date_of_expiry), fun r v => { r with date_of_expiry := v }⟩,
          ⟨"sex", (·.sex), (·.sex), fun r v => { r with sex := v }⟩,
          ⟨"full_name", (·.names), (·.full_name), fun r v => { r with full_name := v }⟩,
          ⟨"country_code", (·.issuing_country), (·.country_code), fun r v => { r with country_code := v }⟩]
            (fuseStep m.mrz_confidence m.extraction_method "date_of_birth"
              m.date_of_birth (fun r => r.date_of_birth)
              (fun r v => { r with date_of_birth := v })
              (applySteps m [⟨"passport_number", (·.passport_number), (·.passport_number), fun r v => { r with passport_number := v }⟩,
          ⟨"nationality", (·.nationality), (·.nationality), fun r v => { r with nationality := v }⟩] d)) := rfl
      have hPg : ∀ dd : Rec, (applySteps m [⟨"date_of_expiry", (·.date_of_expiry), (·.date_of_expiry), fun r v => { r with date_of_expiry := v }⟩,
          ⟨"sex", (·.sex), (·.sex), fun r v => { r with sex := v }⟩,
          ⟨"full_name", (·.names), (·.full_name), fun r v => { r with full_name := v }⟩,
          ⟨"country_code", (·.issuing_country), (·.country_code), fun r v => { r with country_code := v }⟩] dd).date_of_birth = dd.date_of_birth :=
        applySteps_F_frame m [⟨"date_of_expiry", (·.date_of_expiry), (·.date_of_expiry), fun r v => { r with date_of_expiry := v }⟩,
          ⟨"sex", (·.sex), (·.sex), fun r v => { r with sex := v }⟩,
          ⟨"full_name", (·.names), (·.full_name), fun r v => { r with full_name := v }⟩,
          ⟨"country_code", (·.issuing_country), (·.country_code), fun r v => { r with country_code := v }⟩] (fun r => r.date_of_birth)
          (fun r c e => rfl)
          (by
          intro s hs
          simp only [List.mem_cons, List.not_mem_nil, or_false] at hs
          rcases hs with rfl | rfl | rfl | rfl <;> exact fun r v => rfl)
      rw [hdecomp, hPg]
      rcases fuseStep_get_cases m.mrz_confidence m.extraction_method
        "date_of_birth" m.date_of_birth (fun r => r.date_of_birth)
        (fun r v => { r with date_of_birth := v })
        (applySteps m [⟨"passport_number", (·.passport_number), (·.passport_number), fun r v => { r with passport_number := v }⟩,
          ⟨"nationality", (·.nationality), (·.nationality), fun r v => { r with nationality := v }⟩] d) (fun r v => rfl) (fun r c e => rfl) with
        hcase | hcase
      · rw [hcase, hXg]
        exact hne
      · rw [hcase.1]
        exact truthy_ne_none _ hcase.2
    · show ¬ (applySteps m field_mapping d).date_of_expiry = none
      have hXg : (applySteps m [⟨"passport_number", (·.passport_number), (·.passport_number), fun r v => { r with passport_number := v }⟩,
          ⟨"nationality", (·.nationality), (·.nationality), fun r v => { r with nationality := v }⟩,
          ⟨"date_of_birth", (·.date_of_birth), (·.date_of_birth), fun r v => { r with date_of_birth := v }⟩] d).date_of_expiry = d.date_of_expiry :=
        applySteps_F_frame m [⟨"passport_number", (·.passport_number), (·.passport_number), fun r v => { r with passport_number := v }⟩,
          ⟨"nationality", (·.nationality), (·.nationality), fun r v => { r with nationality := v }⟩,
          ⟨"date_of_birth", (·.date_of_birth), (·.date_of_birth), fun r v => { r with date_of_birth := v }⟩] (fun r => r.date_of_expiry)
          (fun r c e => rfl)
          (by
          intro s hs
          simp only [List.mem_cons, List.not_mem_nil, or_false] at hs
          rcases hs with rfl | rfl | rfl <;> exact fun r v => rfl) d
      have hdecomp : applySteps m field_mapping d =
          applySteps m [⟨"sex", (·.sex), (·.sex), fun r v => { r with sex := v }⟩,
          ⟨"full_name", (·.names), (·.full_name), fun r v => { r with full_name := v }⟩,
          ⟨"country_code", (·.issuing_country), (·.country_code), fun r v => { r with country_code := v }⟩]
            (fuseStep m.mrz_confidence m.extraction_method "date_of_expiry"
              m.date_of_expiry (fun r => r.date_of_expiry)
              (fun r v => { r with date_of_expiry := v })
              (applySteps m [⟨"passport_number", (·.passport_number), (·.passport_number), fun r v => { r with passport_number := v }⟩,
          ⟨"nationality", (·.nationality), (·.nationality), fun r v => { r with nationality := v }⟩,
          ⟨"date_of_birth", (·.date_of_birth), (·.date_of_birth), fun r v => { r with date_of_birth := v }⟩] d)) := rfl
      have hPg : ∀ dd : Rec, (applySteps m [⟨"sex", (·.sex), (·.sex), fun r v => { r with sex := v }⟩,
          ⟨"full_name", (·.names), (·.full_name), fun r v => { r with full_name := v }⟩,
          ⟨"country_code", (·.issuing_country), (·.country_code), fun r v => { r with country_code := v }⟩] dd).date_of_expiry = dd.date_of_expiry :=
        applySteps_F_frame m [⟨"sex", (·.sex), (·.sex), fun r v => { r with sex := v }⟩,
          ⟨"full_name", (·.names), (·.full_name), fun r v => { r with full_name := v }⟩,
          ⟨"country_code", (·.issuing_country), (·.country_code), fun r v => { r with country_code := v }⟩] (fun r => r.date_of_expiry)
          (fun r c e => rfl)
          (by
          intro s hs
          simp only [List.mem_cons, List.not_mem_nil, or_false] at hs
          rcases hs with rfl | rfl | rfl <;> exact fun r v => rfl)
      rw [hdecomp, hPg]
      rcases fuseStep_get_cases m.mrz_confidence m.extraction_method
        "date_of_expiry" m.date_of_expiry (fun r => r.date_of_expiry)
        (fun r v => { r with date_of_expiry := v })
        (applySteps m [⟨"passport_number", (·.passport_number), (·.passport_number), fun r v => { r with passport_number := v }⟩,
          ⟨"nationality", (·.nationality), (·.nationality), fun r v => { r with nationality := v }⟩,
          ⟨"date_of_birth", (·.date_of_birth), (·.date_of_birth), fun r v => { r with date_of_birth := v }⟩] d) (fun r v => rfl) (fun r c e => rfl) with
        hcase | hcase
      · rw [hcase, hXg]
        exact hne
      · rw [hcase.1]
        exact truthy_ne_none _ hcase.2
    · show ¬ (applySteps m field_mapping d).sex = none
      have hXg : (applySteps m [⟨"passport_number", (·.passport_number), (·.passport_number), fun r v => { r with passport_number := v }⟩,
          ⟨"nationality", (·.nationality), (·.nationality), fun r v => { r with nationality := v }⟩,
          ⟨"date_of_birth", (·.date_of_birth), (·.date_of_birth), fun r v => { r with date_of_birth := v }⟩,
          ⟨"date_of_expiry", (·.date_of_expiry), (·.date_of_expiry), fun r v => { r with date_of_expiry := v }⟩] d).sex = d.sex :=
        applySteps_F_frame m [⟨"passport_number", (·.passport_number), (·.passport_number), fun r v => { r with passport_number := v }⟩,
          ⟨"nationality", (·.nationality), (·.nationality), fun r v => { r with nationality := v }⟩,
          ⟨"date_of_birth", (·.date_of_birth), (·.date_of_birth), fun r v => { r with date_of_birth := v }⟩,
          ⟨"date_of_expiry", (·.date_of_expiry), (·.date_of_expiry), fun r v => { r with date_of_expiry := v }⟩] (fun r => r.sex)
          (fun r c e => rfl)
          (by
          intro s hs
          simp only [List.mem_cons, List.not_mem_nil, or_false] at hs
          rcases hs with rfl | rfl | rfl | rfl <;> exact fun r v => rfl) d
      have hdecomp : applySteps m field_mapping d =
          applySteps m [⟨"full_name", (·.names), (·.full_name), fun r v => { r with full_name := v }⟩,
          ⟨"country_code", (·.issuing_country), (·.country_code), fun r v => { r with country_code := v }⟩]
            (fuseStep m.mrz_confidence m.extraction_method "sex"
              m.sex (fun r => r.sex)
              (fun r v => { r with sex := v })
              (applySteps m [⟨"passport_number", (·.passport_number), (·.passport_number), fun r v => { r with passport_number := v }⟩,
          ⟨"nationality", (·.nationality), (·.nationality), fun r v => { r with nationality := v }⟩,
          ⟨"date_of_birth", (·.date_of_birth), (·.date_of_birth), fun r v => { r with date_of_birth := v }⟩,
          ⟨"date_of_expiry", (·.date_of_expiry), (·.date_of_expiry), fun r v => { r with date_of_expiry := v }⟩] d)) := rfl
      have hPg : ∀ dd : Rec, (applySteps m [⟨"full_name", (·.names), (·.full_name), fun r v => { r with full_name := v }⟩,
          ⟨"country_code", (·.issuing_country), (·.country_code), fun r v => { r with country_code := v }⟩] dd).sex = dd.sex :=
        applySteps_F_frame m [⟨"full_name", (·.names), (·.full_name), fun r v => { r with full_name := v }⟩,
          ⟨"country_code", (·.issuing_country), (·.country_code), fun r v => { r with country_code := v }⟩] (fun r => r.sex)
          (fun r c e => rfl)
          (by
          intro s hs
          simp only [List.mem_cons, List.not_mem_nil, or_false] at hs
          rcases hs with rfl | rfl <;> exact fun r v => rfl)
      rw [hdecomp, hPg]
      rcases fuseStep_get_cases m.mrz_confidence m.extraction_method
        "sex" m.sex (fun r => r.sex)
        (fun r v => { r with sex := v })
        (applySteps m [⟨"passport_number", (·.passport_number), (·.passport_number), fun r v => { r with passport_number := v }⟩,
          ⟨"nationality", (·.nationality), (·.nationality), fun r v => { r with nationality := v }⟩,
          ⟨"date_of_birth", (·.date_of_birth), (·.date_of_birth), fun r v => { r with date_of_birth := v }⟩,
          ⟨"date_of_expiry", (·.date_of_expiry), (·.date_of_expiry), fun r v => { r with date_of_expiry := v }⟩] d) (fun r v => rfl) (fun r c e => rfl) with
        hcase | hcase
      · rw [hcase, hXg]
        exact hne
      · rw [hcase.1]
        exact truthy_ne_none _ hcase.2
    · show ¬ (applySteps m field_mapping d).full_name = none
      have hXg : (applySteps m [⟨"passport_number", (·.passport_number), (·.passport_number), fun r v => { r with passport_number := v }⟩,
          ⟨"nationality", (·.nationality), (·.nationality), fun r v => { r with nationality := v }⟩,
          ⟨"date_of_birth", (·.date_of_birth), (·.date_of_birth), fun r v => { r with date_of_birth := v }⟩,
          ⟨"date_of_expiry", (·.date_of_expiry), (·.date_of_expiry), fun r v => { r with date_of_expiry := v }⟩,
          ⟨"sex", (·.sex), (·.sex), fun r v => { r with sex := v }⟩] d).full_name = d.full_name :=
        applySteps_F_frame m [⟨"passport_number", (·.passport_number), (·.passport_number), fun r v => { r with passport_number := v }⟩,
          ⟨"nationality", (·.nationality), (·.nationality), fun r v => { r with nationality := v }⟩,
          ⟨"date_of_birth", (·.date_of_birth), (·.date_of_birth), fun r v => { r with date_of_birth := v }⟩,
          ⟨"date_of_expiry", (·.date_of_expiry), (·.date_of_expiry), fun r v => { r with date_of_expiry := v }⟩,
          ⟨"sex", (·.sex), (·.sex), fun r v => { r with sex := v }⟩] (fun r => r.full_name)
          (fun r c e => rfl)
          (by
          intro s hs
          simp only [List.mem_cons, List.not_mem_nil, or_false] at hs
          rcases hs with rfl | rfl | rfl | rfl | rfl <;> exact fun r v => rfl) d
      have hdecomp : applySteps m field_mapping d =
          applySteps m [⟨"country_code", (·.issuing_country), (·.country_code), fun r v => { r with country_code := v }⟩]
            (fuseStep m.mrz_confidence m.extraction_method "full_name"
              m.names (fun r => r.full_name)
              (fun r v => { r with full_name := v })
              (applySteps m [⟨"passport_number", (·.passport_number), (·.passport_number), fun r v => { r with passport_number := v }⟩,
          ⟨"nationality", (·.nationality), (·.nationality), fun r v => { r with nationality := v }⟩,
          ⟨"date_of_birth", (·.date_of_birth), (·.date_of_birth), fun r v => { r with date_of_birth := v }⟩,
          ⟨"date_of_expiry", (·.date_of_expiry), (·.date_of_expiry), fun r v => { r with date_of_expiry := v }⟩,
          ⟨"sex", (·.sex), (·.sex), fun r v => { r with sex := v }⟩] d)) := rfl
      have hPg : ∀ dd : Rec, (applySteps m [⟨"country_code", (·.issuing_country), (·.country_code), fun r v => { r with country_code := v }⟩] dd).full_name = dd.full_name :=
        applySteps_F_frame m [⟨"country_code", (·.issuing_country), (·.country_code), fun r v => { r with country_code := v }⟩] (fun r => r.full_name)
          (fun r c e => rfl)
          (by
          intro s hs
          simp only [List.mem_cons, List.not_mem_nil, or_false] at hs
          rcases hs with rfl <;> exact fun r v => rfl)
      rw [hdecomp, hPg]
      rcases fuseStep_get_cases m.mrz_confidence m.extraction_method
        "full_name" m.names (fun r => r.full_name)
        (fun r v => { r with full_name := v })
        (applySteps m [⟨"passport_number", (·.passport_number), (·.passport_number), fun r v => { r with passport_number := v }⟩,
          ⟨"nationality", (·.nationality), (·.nationality), fun r v => { r with nationality := v }⟩,
          ⟨"date_of_birth", (·.date_of_birth), (·.date_of_birth), fun r v => { r with date_of_birth := v }⟩,
          ⟨"date_of_expiry", (·.date_of_expiry), (·.date_of_expiry), fun r v => { r with date_of_expiry := v }⟩,
          ⟨"sex", (·.sex), (·.sex), fun r v => { r with sex := v }⟩] d) (fun r v => rfl) (fun r c e => rfl) with
        hcase | hcase
      · rw [hcase, hXg]
        exact hne
      · rw [hcase.1]
        exact truthy_ne_none _ hcase.2
    · show ¬ (applySteps m field_mapping d).country_code = none
      have hXg : (applySteps m [⟨"passport_number", (·.passport_number), (·.passport_number), fun r v => { r with passport_number := v }⟩,
          ⟨"nationality", (·.nationality), (·.nationality), fun r v => { r with nationality := v }⟩,
          ⟨"date_of_birth", (·.date_of_birth), (·.date_of_birth), fun r v => { r with date_of_birth := v }⟩,
          ⟨"date_of_expiry", (·.date_of_expiry), (·.date_of_expiry), fun r v => { r with date_of_expiry := v }⟩,
          ⟨"sex", (·.sex), (·.sex), fun r v => { r with sex := v }⟩,
          ⟨"full_name", (·.names), (·.full_name), fun r v => { r with full_name := v }⟩] d).country_code = d.country_code :=
        applySteps_F_frame m [⟨"passport_number", (·.passport_number), (·.passport_number), fun r v => { r with passport_number := v }⟩,
          ⟨"nationality", (·.nationality), (·.nationality), fun r v => { r with nationality := v }⟩,
          ⟨"date_of_birth", (·.date_of_birth), (·.date_of_birth), fun r v => { r with date_of_birth := v }⟩,
          ⟨"date_of_expiry", (·.date_of_expiry), (·.date_of_expiry), fun r v => { r with date_of_expiry := v }⟩,
          ⟨"sex", (·.sex), (·.sex), fun r v => { r with sex := v }⟩,
          ⟨"full_name", (·.names), (·.full_name), fun r v => { r with full_name := v }⟩] (fun r => r.country_code)
          (fun r c e => rfl)
          (by
          intro s hs
          simp only [List.mem_cons, List.not_mem_nil, or_false] at hs
          rcases hs with rfl | rfl | rfl | rfl | rfl | rfl <;> exact fun r v => rfl) d
      have hdecomp : applySteps m field_mapping d =
          applySteps m ([] : List FStep)
            (fuseStep m.mrz_confidence m.extraction_method "country_code"
              m.issuing_country (fun r => r.country_code)
              (fun r v => { r with country_code := v })
              (applySteps m [⟨"passport_number", (·.passport_number), (·.passport_number), fun r v => { r with passport_number := v }⟩,
          ⟨"nationality", (·.nationality), (·.nationality), fun r v => { r with nationality := v }⟩,
          ⟨"date_of_birth", (·.date_of_birth), (·.date_of_birth), fun r v => { r with date_of_birth := v }⟩,
          ⟨"date_of_expiry", (·.date_of_expiry), (·.date_of_expiry), fun r v => { r with date_of_expiry := v }⟩,
          ⟨"sex", (·.sex), (·.sex), fun r v => { r with sex := v }⟩,
          ⟨"full_name", (·.names), (·.full_name), fun r v => { r with full_name := v }⟩] d)) := rfl
      have hPg : ∀ dd : Rec, (applySteps m ([] : List FStep) dd).country_code = dd.country_code :=
        applySteps_F_frame m ([] : List FStep) (fun r => r.country_code)
          (fun r c e => rfl)
          (by
          intro s hs
          exact absurd hs (List.not_mem_nil s))
      rw [hdecomp, hPg]
      rcases fuseStep_get_cases m.mrz_confidence m.extraction_method
        "country_code" m.issuing_country (fun r => r.country_code)
        (fun r v => { r with country_code := v })
        (applySteps m [⟨"passport_number", (·.passport_number), (·.passport_number), fun r v => { r with passport_number := v }⟩,
          ⟨"nationality", (·.nationality), (·.nationality), fun r v => { r with nationality := v }⟩,
          ⟨"date_of_birth", (·.date_of_birth), (·.date_of_birth), fun r v => { r with date_of_birth := v }⟩,
          ⟨"date_of_expiry", (·.date_of_expiry), (·.date_of_expiry), fun r v => { r with date_of_expiry := v }⟩,
          ⟨"sex", (·.sex), (·.sex), fun r v => { r with sex := v }⟩,
          ⟨"full_name", (·.names), (·.full_name), fun r v => { r with full_name := v }⟩] d) (fun r v => rfl) (fun r c e => rfl) with
        hcase | hcase
      · rw [hcase, hXg]
        exact hne
      · rw [hcase.1]
        exact truthy_ne_none _ hcase.2

theorem sexLoop_cases (tbl : OcrTable) (d : Rec) (text : Str) :
    ∀ pats : List RE,
      sexLoop tbl d text pats = d ∨
      (∃ v, (sexLoop tbl d text pats).sex = some v ∧
        getKV (sexLoop tbl d text pats).confidence_scores "sex" ≠ none ∧
        getKV (sexLoop tbl d text pats).extraction_method "sex" ≠ none) := by
  intro pats
  induction pats with
  | nil => exact Or.inl rfl
  | cons pat rest ih =>
    simp only [sexLoop]
    cases reSearch (ic pat) text with
    | none => exact ih
    | some mr =>
      simp only []
      cases g1orWhole pat mr with
      | nil => exact ih
      | cons c cs =>
        simp only []
        by_cases hmf : upChar c = 'M' ∨ upChar c = 'F'
        · rw [if_pos hmf]
          refine Or.inr ⟨[upChar c], rfl, ?_, ?_⟩
          · rw [getKV_setKV_self]
            simp
          · rw [getKV_setKV_self]
            simp
        · rw [if_neg hmf]
          exact ih

/-- C8 counterexample: the text `242-9135-0472` populates the national-id
field and records a confidence entry, but the extractor records no
extraction-method entry for it, contradicting the claim that every
populating extractor records both. -/
theorem national_id_method_counterexample :
    (extract_national_id [] initRec (ofStr "242-9135-0472")).national_id =
      some (ofStr "242-9135-0472") ∧
    getKV (extract_national_id [] initRec
      (ofStr "242-9135-0472")).extraction_method "national_id" = none ∧
    ¬ getKV (extract_national_id [] initRec
      (ofStr "242-9135-0472")).confidence_scores "national_id" = none := by
  refine ⟨by decide, by decide, by decide⟩

/-- C8 as amended: the passport-number, name, sex and place extractors
record both a confidence entry and a method entry whenever they populate
their field; the national-id, dates and nationality extractors record
only a confidence entry and never touch the method map — and the
nationality extractor's bundled country_code and passport_type receive
no entries at all (its confidence map changes only at the key
`nationality`, with the fixed value 0.98). -/
theorem extractors_bookkeeping (tbl : OcrTable) (d0 : Rec)
    (obs : List (Str × Str)) (text : Str) :
    (extract_passport_number tbl d0 obs = d0 ∨
      ∃ v, (extract_passport_number tbl d0 obs).passport_number = some v ∧
        ¬ getKV (extract_passport_number tbl d0 obs).confidence_scores
          "passport_number" = none ∧
        ¬ getKV (extract_passport_number tbl d0 obs).extraction_method
          "passport_number" = none) ∧
    (extract_national_id tbl d0 text = d0 ∨
      ∃ v, (extract_national_id tbl d0 text).national_id = some v ∧
        ¬ getKV (extract_national_id tbl d0 text).confidence_scores
          "national_id" = none) ∧
    (extract_national_id tbl d0 text).extraction_method =
      d0.extraction_method ∧
    (extract_dates tbl d0 text).extraction_method = d0.extraction_method ∧
    ((extract_dates tbl d0 text).date_of_birth = d0.date_of_birth ∨
      ¬ getKV (extract_dates tbl d0 text).confidence_scores
        "date_of_birth" = none) ∧
    ((extract_dates tbl d0 text).date_of_issue = d0.date_of_issue ∨
      ¬ getKV (extract_dates tbl d0 text).confidence_scores
        "date_of_issue" = none) ∧
    ((extract_dates tbl d0 text).date_of_expiry = d0.date_of_expiry ∨
      ¬ getKV (extract_dates tbl d0 text).confidence_scores
        "date_of_expiry" = none) ∧
    (extract_name tbl d0 obs = d0 ∨
      ∃ v, (extract_name tbl d0 obs).full_name = some v ∧
        ¬ getKV (extract_name tbl d0 obs).confidence_scores
          "full_name" = none ∧
        ¬ getKV (extract_name tbl d0 obs).extraction_method
          "full_name" = none) ∧
    (extract_sex tbl d0 text = d0 ∨
      ∃ v, (extract_sex tbl d0 text).sex = some v ∧
        ¬ getKV (extract_sex tbl d0 text).confidence_scores "sex" = none ∧
        ¬ getKV (extract_sex tbl d0 text).extraction_method "sex" = none) ∧
    (extract_place_of_birth tbl d0 obs = d0 ∨
      ∃ v, (extract_place_of_birth tbl d0 obs).place_of_birth = some v ∧
        ¬ getKV (extract_place_of_birth tbl d0 obs).confidence_scores
          "place_of_birth" = none ∧
        ¬ getKV (extract_place_of_birth tbl d0 obs).extraction_method
          "place_of_birth" = none) ∧
    (extract_place_of_issue tbl d0 obs = d0 ∨
      ∃ v, (extract_place_of_issue tbl d0 obs).place_of_issue = some v ∧
        ¬ getKV (extract_place_of_issue tbl d0 obs).confidence_scores
          "place_of_issue" = none ∧
        ¬ getKV (extract_place_of_issue tbl d0 obs).extraction_method
          "place_of_issue" = none) ∧
    (extract_nationality d0 text).extraction_method =
      d0.extraction_method ∧
    (extract_nationality d0 text = d0 ∨
      ((extract_nationality d0 text).nationality =
        some (ofStr "SUDANESE") ∧
      getKV (extract_nationality d0 text).confidence_scores
        "nationality" = some (49 / 50) ∧
      ∀ k : String, ¬ k = "nationality" →
        getKV (extract_nationality d0 text).confidence_scores k =
          getKV d0.confidence_scores k)) := by
  refine ⟨?_, ?_, ?_, ?_, ?_, ?_, ?_, ?_, ?_, ?_, ?_, ?_, ?_⟩
  · induction obs with
    | nil => exact Or.inl rfl
    | cons p rest ih =>
      cases p with
      | mk src ptext =>
        simp only [extract_passport_number]
        cases pnFirstAccept (allCandidates passportNumberPats ptext) with
        | none => exact ih
        | some n =>
          refine Or.inr ⟨n, rfl, ?_, ?_⟩
          · rw [getKV_setKV_self]
            simp
          · rw [getKV_setKV_self]
            simp
  · unfold extract_national_id
    split_ifs
    · exact Or.inl rfl
    · cases nidFirstAccept (nidCandidates text) with
      | none => exact Or.inl rfl
      | some n =>
        refine Or.inr ⟨n, rfl, ?_⟩
        rw [getKV_setKV_self]
        simp
  · unfold extract_national_id
    split_ifs
    · rfl
    · cases nidFirstAccept (nidCandidates text) with
      | none => rfl
      | some n => rfl
  · unfold extract_dates
    split_ifs
    · rfl
    · rcases validDates text with _ | ⟨v1, _ | ⟨v2, _ | ⟨r, rs⟩⟩⟩ <;> rfl
  · unfold extract_dates
    split_ifs
    · exact Or.inl rfl
    · rcases validDates text with _ | ⟨v1, _ | ⟨v2, _ | ⟨r, rs⟩⟩⟩
      · exact Or.inl rfl
      · refine Or.inr ?_
        rw [getKV_setKV_self]
        simp
      · refine Or.inr ?_
        rw [getKV_setKV_ne _ _ _ _ (by decide), getKV_setKV_self]
        simp
      · refine Or.inr ?_
        rw [getKV_setKV_ne _ _ _ _ (by decide),
          getKV_setKV_ne _ _ _ _ (by decide), getKV_setKV_self]
        simp
  · unfold extract_dates
    split_ifs
    · exact Or.inl rfl
    · rcases validDates text with _ | ⟨v1, _ | ⟨v2, _ | ⟨r, rs⟩⟩⟩
      · exact Or.inl rfl
      · exact Or.inl rfl
      · refine Or.inr ?_
        rw [getKV_setKV_self]
        simp
      · refine Or.inr ?_
        rw [getKV_setKV_ne _ _ _ _ (by decide), getKV_setKV_self]
        simp
  · unfold extract_dates
    split_ifs
    · exact Or.inl rfl
    · rcases validDates text with _ | ⟨v1, _ | ⟨v2, _ | ⟨r, rs⟩⟩⟩
      · exact Or.inl rfl
      · exact Or.inl rfl
      · exact Or.inl rfl
      · refine Or.inr ?_
        rw [getKV_setKV_self]
        simp
  · unfold extract_name
    cases nameCandidates obs with
    | nil => exact Or.inl rfl
    | cons c cs =>
      refine Or.inr ⟨_, rfl, ?_, ?_⟩
      · rw [getKV_setKV_self]
        simp
      · rw [getKV_setKV_self]
        simp
  · unfold extract_sex
    split_ifs
    · exact Or.inl rfl
    · exact sexLoop_cases tbl d0 text sexPats
  · unfold extract_place_of_birth
    cases extract_place pobLabels obs with
    | none => exact Or.inl rfl
    | some r =>
      refine Or.inr ⟨r.1, rfl, ?_, ?_⟩
      · rw [getKV_setKV_self]
        simp
      · rw [getKV_setKV_self]
        simp
  · unfold extract_place_of_issue
    cases extract_place poiLabels obs with
    | none => exact Or.inl rfl
    | some r =>
      refine Or.inr ⟨r.1, rfl, ?_, ?_⟩
      · rw [getKV_setKV_self]
        simp
      · rw [getKV_setKV_self]
        simp
  · simp only [extract_nationality]
    split_ifs <;> rfl
  · simp only [extract_nationality]
    split_ifs with h1 h2
    · exact Or.inl rfl
    · refine Or.inr ⟨rfl, ?_, ?_⟩
      · rw [getKV_setKV_self]
      · intro k hk
        show getKV (setKV d0.confidence_scores "nationality" (49 / 50)) k =
          getKV d0.confidence_scores k
        rw [getKV_setKV_ne _ _ _ _ (fun he => hk he.symm)]
    · exact Or.inl rfl

/-- C9: with an empty image map, `extract` returns a record in which all
twelve fields are null and the extraction score is 0 — the pipeline
total-function model returns this record rather than raising. -/
theorem extract_empty_input {Img : Type}
    (multiPass : Img → List (Str × Str) × OcrTable)
    (mrzOf : Img → MRZRec) :
    (extract multiPass mrzOf []).passport_type = none ∧
    (extract multiPass mrzOf []).country_code = none ∧
    (extract multiPass mrzOf []).passport_number = none ∧
    (extract multiPass mrzOf []).full_name = none ∧
    (extract multiPass mrzOf []).nationality = none ∧
    (extract multiPass mrzOf []).place_of_birth = none ∧
    (extract multiPass mrzOf []).place_of_issue = none ∧
    (extract multiPass mrzOf []).sex = none ∧
    (extract multiPass mrzOf []).date_of_birth = none ∧
    (extract multiPass mrzOf []).date_of_issue = none ∧
    (extract multiPass mrzOf []).date_of_expiry = none ∧
    (extract multiPass mrzOf []).national_id = none ∧
    (extract multiPass mrzOf []).extraction_score = some 0 := by
  have hscore : calculate_score initRec = 0 := by
    unfold calculate_score
    rw [show importantCount initRec = 0 from rfl]
    norm_num [round2, rhe]
  refine ⟨rfl, rfl, rfl, rfl, rfl, rfl, rfl, rfl, rfl, rfl, rfl, rfl, ?_⟩
  show some (calculate_score initRec) = some 0
  rw [hscore]
